import Mathlib

/-!
# Drime Cloud Sync core engine: a shallow embedding of `src/drime-sync-core.js`

The class `DrimeSyncCore` is embedded method by method, each method as a
function on `World`: the fields of the engine object, the browser's
`localStorage`, the remote world behind `fetch`, and the record of the calls
issued so far.  A method that can throw returns `Except JsError _`.

Browser facilities the class calls (JSON, TextEncoder/TextDecoder, WebCrypto,
fetch, Date parsing) are the fields of a `Platform` record, so that a theorem
stated for every platform holds whatever the browser does; `Reference.platform`
is an executable platform on which the engine is run on concrete inputs.
Base64 (`btoa`/`atob`) is embedded concretely.

Modelling conventions:
* JavaScript strings are Lean strings (sequences of Unicode scalar values);
  byte arrays are lists of `Fin 256`;
* JavaScript values are `JsVal`: what JSON can hold, and `undefined`;
* `localStorage` is a total function of the key: `getItem` and `setItem` do not
  throw (no quota), and engine limits such as the maximal argument count of
  `String.fromCharCode(...bytes)` are not part of the embedding;
* an `async` method runs to completion on the outcomes its awaited calls
  return; suspension at an `await` is modelled separately by `Session.Step`;
* values drawn from the environment (random salt and nonce, clock readings)
  are arguments of the method that draws them.
-/

set_option autoImplicit false

/-- One element of a `Uint8Array`. -/
abbrev Byte := Fin 256

/-- A thrown JavaScript error object: its `name` and its `message`. -/
structure JsError where
  name : String
  message : String
deriving DecidableEq, Repr

deriving instance DecidableEq for Except

/-- The object built by `new Error(message)`. -/
def JsError.mkError (message : String) : JsError := ⟨"Error", message⟩

/-- The object behind a `TypeError`. -/
def JsError.typeError (message : String) : JsError := ⟨"TypeError", message⟩

namespace Base64

/-- The character of the base64 alphabet that stands for the sextet `n`. -/
def encodeSextet (n : Nat) : Char :=
  if n < 26 then Char.ofNat (65 + n)
  else if n < 52 then Char.ofNat (71 + n)
  else if n < 62 then Char.ofNat (n - 4)
  else if n = 62 then '+' else '/'

/-- The sextet a character of the base64 alphabet stands for, if it is one. -/
def decodeSextet (c : Char) : Option Nat :=
  let v := c.toNat
  if 65 ≤ v ∧ v ≤ 90 then some (v - 65)
  else if 97 ≤ v ∧ v ≤ 122 then some (v - 71)
  else if 48 ≤ v ∧ v ≤ 57 then some (v + 4)
  else if v = 43 then some 62
  else if v = 47 then some 63
  else none

/-- The padded base64 text of a byte sequence, three bytes to four characters. -/
def encode : List Byte → List Char
  | a :: b :: c :: rest =>
      encodeSextet (a.val / 4)
        :: encodeSextet (a.val % 4 * 16 + b.val / 16)
        :: encodeSextet (b.val % 16 * 4 + c.val / 64)
        :: encodeSextet (c.val % 64) :: encode rest
  | [a, b] =>
      [encodeSextet (a.val / 4), encodeSextet (a.val % 4 * 16 + b.val / 16),
        encodeSextet (b.val % 16 * 4), '=']
  | [a] => [encodeSextet (a.val / 4), encodeSextet (a.val % 4 * 16), '=', '=']
  | [] => []

/-- ASCII whitespace as the forgiving-base64 decoder strips it. -/
def isAsciiWhitespace (c : Char) : Bool :=
  c.toNat = 9 || c.toNat = 10 || c.toNat = 12 || c.toNat = 13 || c.toNat = 32

/-- Removal of one or two `=` that end the text. -/
def dropPadding : List Char → List Char
  | [] => []
  | [c] => if c = '=' then [] else [c]
  | [c, d] => if d = '=' then (if c = '=' then [] else [c]) else [c, d]
  | c :: d :: e :: rest => c :: dropPadding (d :: e :: rest)

/-- Every character read as a sextet; `none` when one is outside the alphabet. -/
def decodeChars : List Char → Option (List Nat)
  | [] => some []
  | c :: cs =>
      match decodeSextet c, decodeChars cs with
      | some v, some vs => some (v :: vs)
      | _, _ => none

/-- Sextets regrouped into bytes; a rest of 12 or 18 bits loses its low bits. -/
def decodeSextets : List Nat → List Byte
  | s0 :: s1 :: s2 :: s3 :: rest =>
      Fin.ofNat (s0 * 4 + s1 / 16) :: Fin.ofNat (s1 % 16 * 16 + s2 / 4)
        :: Fin.ofNat (s2 % 4 * 64 + s3) :: decodeSextets rest
  | [s0, s1, s2] => [Fin.ofNat (s0 * 4 + s1 / 16), Fin.ofNat (s1 % 16 * 16 + s2 / 4)]
  | [s0, s1] => [Fin.ofNat (s0 * 4 + s1 / 16)]
  | _ => []

/-- The base64 text of a byte sequence without its `=` padding. -/
def encodeNoPad : List Byte → List Char
  | a :: b :: c :: rest =>
      encodeSextet (a.val / 4)
        :: encodeSextet (a.val % 4 * 16 + b.val / 16)
        :: encodeSextet (b.val % 16 * 4 + c.val / 64)
        :: encodeSextet (c.val % 64) :: encodeNoPad rest
  | [a, b] =>
      [encodeSextet (a.val / 4), encodeSextet (a.val % 4 * 16 + b.val / 16),
        encodeSextet (b.val % 16 * 4)]
  | [a] => [encodeSextet (a.val / 4), encodeSextet (a.val % 4 * 16)]
  | [] => []

/-- The forgiving-base64 decoder behind `atob`, on the characters of the text. -/
def decode (text : List Char) : Option (List Byte) :=
  let data := text.filter (fun c => !isAsciiWhitespace c)
  let data := if data.length % 4 = 0 then dropPadding data else data
  if data.length % 4 = 1 then none
  else (decodeChars data).map decodeSextets

end Base64

/-- The call `btoa(String.fromCharCode(...bytes))`. -/
def btoa (bytes : List Byte) : String := String.mk (Base64.encode bytes)

/-- The call `Uint8Array.from(atob(text), c => c.charCodeAt(0))`; `none` when `atob` throws. -/
def atob (text : String) : Option (List Byte) := Base64.decode text.toList


/-! ## JavaScript values -/

/-- A JavaScript value as JSON can hold it, and `undefined`.  Numbers are the
integer-valued ones (a double holds every integer of magnitude below `2^53`
exactly).  An object is the list of its own enumerable properties in property
order. -/
inductive JsVal where
  | undefined
  | null
  | bool (b : Bool)
  | num (n : Int)
  | str (s : String)
  | arr (elems : List JsVal)
  | obj (props : List (String × JsVal))

namespace JsVal

/-- The test `v === null || v === undefined`. -/
def isNullish : JsVal → Bool
  | undefined => true
  | null => true
  | _ => false

/-- The truthiness a condition `if (v)` tests. -/
def truthy : JsVal → Bool
  | undefined => false
  | null => false
  | bool b => b
  | num n => n != 0
  | str s => s != ""
  | arr _ => true
  | obj _ => true

/-- The first binding of a name in a property list. -/
def lookup (key : String) : List (String × JsVal) → Option JsVal
  | [] => none
  | (k, v) :: rest => if k = key then some v else lookup key rest

/-- The property read `v.key`, for the names this engine reads (`data`, `name`,
`type`, `id`, `file_size`, `created_at`, `updated_at` and the configuration
fields), none of which is built into arrays, strings, numbers or booleans:
reading from `null` or `undefined` throws, a missing property is `undefined`. -/
def getProp (v : JsVal) (key : String) : Except JsError JsVal :=
  match v with
  | undefined =>
      .error (JsError.typeError ("Cannot read properties of undefined (reading " ++ key ++ ")"))
  | null => .error (JsError.typeError ("Cannot read properties of null (reading " ++ key ++ ")"))
  | obj props => .ok ((lookup key props).getD undefined)
  | _ => .ok undefined

mutual
/-- The conversion `String(v)` that a template literal applies. -/
def toJsString : JsVal → String
  | undefined => "undefined"
  | null => "null"
  | bool b => if b then "true" else "false"
  | num n => toString n
  | str s => s
  | arr xs => joinElems xs
  | obj _ => "[object Object]"
/-- The text of `Array.prototype.join` with the separator `,`. -/
def joinElems : List JsVal → String
  | [] => ""
  | [x] => elemString x
  | x :: y :: rest => elemString x ++ "," ++ joinElems (y :: rest)
/-- The text of one array element inside `join`: empty for `null` and `undefined`. -/
def elemString : JsVal → String
  | undefined => ""
  | null => ""
  | bool b => if b then "true" else "false"
  | num n => toString n
  | str s => s
  | arr xs => joinElems xs
  | obj _ => "[object Object]"
end

end JsVal

/-! ## The platform -/

/-- A request handed to `fetch`. -/
structure Request where
  url : String
  method : String
  headers : List (String × String)
  body : Option String
  formFile : Option (String × String)
  formParent : Option String
deriving DecidableEq, Repr

/-- A response `fetch` resolved with; `body` is what `text()` yields. -/
structure Response where
  ok : Bool
  status : Nat
  statusText : String
  body : Except JsError String

/-- One observable call the engine makes, in the order issued. -/
inductive Event where
  | storageGet (key : String)
  | storageSet (key value : String)
  | storageRemove (key : String)
  | fetch (req : Request)
  | encryptCall
  | decryptCall
  | consoleError (label : String) (err : JsError)
  | setInterval (handle : Nat) (delay : Option Int)
  | clearInterval (handle : Nat)
  | backupCall
deriving DecidableEq, Repr

/-- The browser facilities the engine calls, over a remote world of type `ν`.
`jsonStringify` is `none` where `JSON.stringify` returns `undefined`;
`importKey`, `deriveKey`, `aesGcmEncrypt`, `aesGcmDecrypt` stand for the
`crypto.subtle` calls with the fixed PBKDF2 / AES-GCM parameters of the source;
`dateParse` is the time value of `new Date(text)`, `none` for an invalid date. -/
structure Platform (ν : Type) where
  jsonStringify : JsVal → Option String
  jsonParse : String → Except JsError JsVal
  utf8Encode : String → List Byte
  utf8Decode : List Byte → String
  importKey : List Byte → Except JsError (List Byte)
  deriveKey : List Byte → List Byte → Except JsError (List Byte)
  aesGcmEncrypt : List Byte → List Byte → List Byte → Except JsError (List Byte)
  aesGcmDecrypt : List Byte → List Byte → List Byte → Except JsError (List Byte)
  fetch : Request → ν → Except JsError Response × ν
  dateParse : String → Option Int

/-- The argument conversion of `TextEncoder.encode`: its default for `undefined`
is the empty string, every other value is converted to a string. -/
def encodeArg : JsVal → String
  | .undefined => ""
  | v => v.toJsString

/-- The method `Uint8Array.prototype.slice(start, stop)` for indices inside `0..`. -/
def Uint8Array.slice (bytes : List Byte) (start stop : Nat) : List Byte :=
  (bytes.drop start).take (stop - start)

namespace DrimeSyncCore

variable {ν : Type}

/-- The method `encrypt(data, password)`; `salt` and `iv` are the values the two
`crypto.getRandomValues` calls returned. -/
def encrypt (P : Platform ν) (salt iv : List Byte) (data password : JsVal) :
    Except JsError String :=
  let dataBuffer := P.utf8Encode ((P.jsonStringify data).getD "")
  let passwordBuffer := P.utf8Encode (encodeArg password)
  match P.importKey passwordBuffer with
  | .error e => .error e
  | .ok passwordKey =>
    match P.deriveKey passwordKey salt with
    | .error e => .error e
    | .ok key =>
      match P.aesGcmEncrypt key iv dataBuffer with
      | .error e => .error e
      | .ok encryptedBuffer => .ok (btoa (salt ++ iv ++ encryptedBuffer))

/-- The error `decrypt` throws from its `catch` block. -/
def decryptionFailed : JsError :=
  JsError.mkError "Decryption failed. Wrong encryption key or corrupted data."

/-- The `try` block of `decrypt(encryptedBase64, password)`. -/
def decryptBody (P : Platform ν) (encryptedBase64 : String) (password : JsVal) :
    Except JsError JsVal :=
  match atob encryptedBase64 with
  | none => .error ⟨"InvalidCharacterError", "The string to be decoded is not correctly encoded."⟩
  | some encryptedArray =>
    let salt := Uint8Array.slice encryptedArray 0 16
    let iv := Uint8Array.slice encryptedArray 16 28
    let encryptedData := encryptedArray.drop 28
    let passwordBuffer := P.utf8Encode (encodeArg password)
    match P.importKey passwordBuffer with
    | .error e => .error e
    | .ok passwordKey =>
      match P.deriveKey passwordKey salt with
      | .error e => .error e
      | .ok key =>
        match P.aesGcmDecrypt key iv encryptedData with
        | .error e => .error e
        | .ok decryptedBuffer =>
          let jsonString := P.utf8Decode decryptedBuffer
          P.jsonParse jsonString

/-- The method `decrypt(encryptedBase64, password)`: whatever the `try` block
throws is replaced by one fixed error. -/
def decrypt (P : Platform ν) (encryptedBase64 : String) (password : JsVal) :
    Except JsError JsVal :=
  match decryptBody P encryptedBase64 password with
  | .ok payload => .ok payload
  | .error _ => .error decryptionFailed

end DrimeSyncCore

/-! ## Object property order -/

namespace JsVal

/-- The array index a property name spells canonically (`0` to `2^32 - 2`), if any. -/
def arrayIndex? (key : String) : Option Nat :=
  let cs := key.toList
  if cs.all Char.isDigit && !cs.isEmpty && (cs.length == 1 || cs.head? != some '0') then
    let n := cs.foldl (fun acc c => acc * 10 + (c.toNat - 48)) 0
    if n < 4294967295 then some n else none
  else none

/-- The value of an existing property replaced in place. -/
def replaceProp (key : String) (v : JsVal) : List (String × JsVal) → List (String × JsVal)
  | [] => []
  | (k, w) :: rest => if k = key then (k, v) :: rest else (k, w) :: replaceProp key v rest

/-- A new array-index property put at its place among the leading index properties. -/
def insertIndexed (n : Nat) (key : String) (v : JsVal) :
    List (String × JsVal) → List (String × JsVal)
  | [] => [(key, v)]
  | (k, w) :: rest =>
      match arrayIndex? k with
      | some m => if m < n then (k, w) :: insertIndexed n key v rest else (key, v) :: (k, w) :: rest
      | none => (key, v) :: (k, w) :: rest

/-- The assignment `o[key] = v` on the property list of an ordinary object: an
existing property keeps its place, a new array-index property is ordered among
the index properties, any other new property goes last. -/
def setProp (props : List (String × JsVal)) (key : String) (v : JsVal) :
    List (String × JsVal) :=
  if (lookup key props).isSome then replaceProp key v props
  else match arrayIndex? key with
    | some n => insertIndexed n key v props
    | none => props ++ [(key, v)]

end JsVal

/-! ## A reference platform

An executable stand-in for the browser, used to evaluate the engine on concrete
inputs.  `Reference.stringify` and `Reference.parse` follow ECMAScript
`JSON.stringify` / `JSON.parse` on texts whose numbers are integers below `2^53`
in magnitude, written without fraction or exponent, and whose `\u` escapes are
not surrogates; a text outside this fragment is rejected.  The UTF-8 codec
follows the WHATWG encoder and (non-fatal, BOM-stripping) decoder.  The cipher
is a stand-in that only has the inversion law of an AEAD. -/

namespace Reference

/-- The character `"`. -/
def dquote : Char := Char.ofNat 34

/-- The character `\`. -/
def backslash : Char := Char.ofNat 92

/-- A hexadecimal digit, lower case. -/
def hexDigit (n : Nat) : Char :=
  if n < 10 then Char.ofNat (48 + n) else Char.ofNat (87 + n)

/-- One character as it stands inside a JSON string literal. -/
def quoteChar (c : Char) : List Char :=
  if c = dquote then [backslash, dquote]
  else if c = backslash then [backslash, backslash]
  else if c.toNat = 8 then [backslash, 'b']
  else if c.toNat = 12 then [backslash, 'f']
  else if c.toNat = 10 then [backslash, 'n']
  else if c.toNat = 13 then [backslash, 'r']
  else if c.toNat = 9 then [backslash, 't']
  else if c.toNat < 32 then
    [backslash, 'u', '0', '0', hexDigit (c.toNat / 16), hexDigit (c.toNat % 16)]
  else [c]

/-- The JSON string literal of a string. -/
def quote (s : String) : List Char :=
  dquote :: (s.toList.flatMap quoteChar ++ [dquote])

mutual
/-- The text `JSON.stringify` gives a value, `none` where it gives `undefined`. -/
def stringifyVal : JsVal → Option (List Char)
  | .undefined => none
  | .null => some "null".toList
  | .bool b => some (if b then "true".toList else "false".toList)
  | .num n => some (toString n).toList
  | .str s => some (quote s)
  | .arr xs => some ('[' :: (stringifyElems xs ++ [']']))
  | .obj ps => some ('{' :: (stringifyProps ps false ++ ['}']))
/-- The elements of an array, `undefined` written as `null`. -/
def stringifyElems : List JsVal → List Char
  | [] => []
  | [x] => (stringifyVal x).getD "null".toList
  | x :: y :: rest => (stringifyVal x).getD "null".toList ++ ',' :: stringifyElems (y :: rest)
/-- The properties of an object, those holding `undefined` left out. -/
def stringifyProps : List (String × JsVal) → Bool → List Char
  | [], _ => []
  | (k, v) :: rest, comma =>
      match stringifyVal v with
      | none => stringifyProps rest comma
      | some t =>
          (if comma then [','] else []) ++ quote k ++ ':' :: t ++ stringifyProps rest true
end

/-- The reference `JSON.stringify`. -/
def stringify (v : JsVal) : Option String := (stringifyVal v).map String.mk

/-- JSON whitespace. -/
def isWs (c : Char) : Bool := c.toNat = 32 || c.toNat = 9 || c.toNat = 10 || c.toNat = 13

/-- The text after its leading JSON whitespace. -/
def skipWs : List Char → List Char
  | [] => []
  | c :: cs => if isWs c then skipWs cs else c :: cs

/-- The value of a hexadecimal digit. -/
def hexVal (c : Char) : Option Nat :=
  let v := c.toNat
  if 48 ≤ v ∧ v ≤ 57 then some (v - 48)
  else if 97 ≤ v ∧ v ≤ 102 then some (v - 87)
  else if 65 ≤ v ∧ v ≤ 70 then some (v - 55)
  else none

/-- The code unit of four hexadecimal digits. -/
def hex4 (a b c d : Char) : Option Nat :=
  match hexVal a, hexVal b, hexVal c, hexVal d with
  | some x, some y, some z, some w => some (x * 4096 + y * 256 + z * 16 + w)
  | _, _, _, _ => none

/-- The character a single-letter escape stands for. -/
def unescape (e : Char) : Option Char :=
  if e = dquote then some dquote
  else if e = backslash then some backslash
  else if e = '/' then some '/'
  else if e = 'b' then some (Char.ofNat 8)
  else if e = 'f' then some (Char.ofNat 12)
  else if e = 'n' then some (Char.ofNat 10)
  else if e = 'r' then some (Char.ofNat 13)
  else if e = 't' then some (Char.ofNat 9)
  else none

/-- A string literal read from behind its opening quote: the string and the rest. -/
def parseStringBody : List Char → List Char → Option (String × List Char)
  | [], _ => none
  | c :: cs, acc =>
      if c = dquote then some (String.mk acc.reverse, cs)
      else if c = backslash then
        match cs with
        | [] => none
        | e :: cs1 =>
            if e = 'u' then
              match cs1 with
              | h1 :: h2 :: h3 :: h4 :: cs2 =>
                  match hex4 h1 h2 h3 h4 with
                  | some n =>
                      if 55296 ≤ n ∧ n ≤ 57343 then none
                      else parseStringBody cs2 (Char.ofNat n :: acc)
                  | none => none
              | _ => none
            else
              match unescape e with
              | some ch => parseStringBody cs1 (ch :: acc)
              | none => none
      else if c.toNat < 32 then none
      else parseStringBody cs (c :: acc)

/-- The digits that start a text, as a number, and the rest. -/
def parseDigits : List Char → Nat → Nat × List Char
  | [], acc => (acc, [])
  | c :: cs, acc => if c.isDigit then parseDigits cs (acc * 10 + (c.toNat - 48)) else (acc, c :: cs)

/-- An unsigned integer token: `0`, or digits not starting with `0`; a fraction
or exponent behind it, or a magnitude from `2^53` on, is outside the fragment. -/
def parseNat : List Char → Option (Nat × List Char)
  | [] => none
  | c :: cs =>
      if c.isDigit then
        let r := if c = '0' then (0, cs) else parseDigits cs (c.toNat - 48)
        match r.2 with
        | d :: _ =>
            if d = '.' ∨ d = 'e' ∨ d = 'E' then none
            else if r.1 < 9007199254740992 then some r else none
        | [] => if r.1 < 9007199254740992 then some r else none
      else none

mutual
/-- One JSON value read from the start of a text, and the rest of the text. -/
def parseValue : Nat → List Char → Option (JsVal × List Char)
  | 0, _ => none
  | fuel + 1, cs =>
      match skipWs cs with
      | [] => none
      | c :: rest =>
          if c = '{' then
            match skipWs rest with
            | '}' :: rest1 => some (.obj [], rest1)
            | _ => parseMembers fuel rest []
          else if c = '[' then
            match skipWs rest with
            | ']' :: rest1 => some (.arr [], rest1)
            | _ => parseElems fuel rest []
          else if c = dquote then
            (parseStringBody rest []).map (fun r => (.str r.1, r.2))
          else if c = '-' then
            (parseNat rest).map (fun r => (.num (-(r.1 : Int)), r.2))
          else if c.isDigit then
            (parseNat (c :: rest)).map (fun r => (.num (r.1 : Int), r.2))
          else
            match c :: rest with
            | 't' :: 'r' :: 'u' :: 'e' :: rest1 => some (.bool true, rest1)
            | 'f' :: 'a' :: 'l' :: 's' :: 'e' :: rest1 => some (.bool false, rest1)
            | 'n' :: 'u' :: 'l' :: 'l' :: rest1 => some (.null, rest1)
            | _ => none
/-- The elements of an array read from behind `[` or `,`, up to the closing `]`. -/
def parseElems : Nat → List Char → List JsVal → Option (JsVal × List Char)
  | 0, _, _ => none
  | fuel + 1, cs, acc =>
      match parseValue fuel cs with
      | none => none
      | some (v, rest) =>
          match skipWs rest with
          | ',' :: rest1 => parseElems fuel rest1 (v :: acc)
          | ']' :: rest1 => some (.arr (v :: acc).reverse, rest1)
          | _ => none
/-- The members of an object read from behind `{` or `,`, up to the closing `}`. -/
def parseMembers : Nat → List Char → List (String × JsVal) → Option (JsVal × List Char)
  | 0, _, _ => none
  | fuel + 1, cs, acc =>
      match skipWs cs with
      | [] => none
      | q :: rest =>
          if q = dquote then
            match parseStringBody rest [] with
            | none => none
            | some (key, rest1) =>
                match skipWs rest1 with
                | ':' :: rest2 =>
                    match parseValue fuel rest2 with
                    | none => none
                    | some (v, rest3) =>
                        match skipWs rest3 with
                        | ',' :: rest4 => parseMembers fuel rest4 (JsVal.setProp acc key v)
                        | '}' :: rest4 => some (.obj (JsVal.setProp acc key v), rest4)
                        | _ => none
                | _ => none
          else none
end

/-- The error `JSON.parse` throws. -/
def syntaxError : JsError := ⟨"SyntaxError", "Unexpected token in JSON"⟩

/-- The reference `JSON.parse`: one value, then nothing but whitespace. -/
def parse (text : String) : Except JsError JsVal :=
  match parseValue (2 * text.toList.length + 2) text.toList with
  | some (v, rest) => if skipWs rest = [] then .ok v else .error syntaxError
  | none => .error syntaxError

end Reference

namespace Reference

/-- The UTF-8 bytes of one code point. -/
def encodeChar (c : Char) : List Byte :=
  let n := c.toNat
  if n < 128 then [Fin.ofNat n]
  else if n < 2048 then [Fin.ofNat (192 + n / 64), Fin.ofNat (128 + n % 64)]
  else if n < 65536 then
    [Fin.ofNat (224 + n / 4096), Fin.ofNat (128 + n / 64 % 64), Fin.ofNat (128 + n % 64)]
  else
    [Fin.ofNat (240 + n / 262144), Fin.ofNat (128 + n / 4096 % 64),
      Fin.ofNat (128 + n / 64 % 64), Fin.ofNat (128 + n % 64)]

/-- The reference `TextEncoder.encode`. -/
def utf8Encode (s : String) : List Byte := s.toList.flatMap encodeChar

/-- The state of the WHATWG UTF-8 decoder. -/
structure Utf8State where
  codePoint : Nat
  needed : Nat
  seen : Nat
  lower : Nat
  upper : Nat

/-- The decoder state between two code points. -/
def Utf8State.init : Utf8State := ⟨0, 0, 0, 128, 191⟩

/-- The replacement character U+FFFD. -/
def replacementChar : Char := Char.ofNat 65533

/-- The decoder on a byte that starts a code point. -/
def utf8Lead (b : Nat) : Option Char × Utf8State :=
  if b ≤ 127 then (some (Char.ofNat b), Utf8State.init)
  else if 194 ≤ b ∧ b ≤ 223 then (none, ⟨b - 192, 1, 0, 128, 191⟩)
  else if 224 ≤ b ∧ b ≤ 239 then
    (none, ⟨b - 224, 2, 0, if b = 224 then 160 else 128, if b = 237 then 159 else 191⟩)
  else if 240 ≤ b ∧ b ≤ 244 then
    (none, ⟨b - 240, 3, 0, if b = 240 then 144 else 128, if b = 244 then 143 else 191⟩)
  else (some replacementChar, Utf8State.init)

/-- The decoder run over a byte sequence, malformed input giving U+FFFD. -/
def utf8Loop : List Byte → Utf8State → List Char
  | [], st => if st.needed = 0 then [] else [replacementChar]
  | b :: bs, st =>
      if st.needed = 0 then
        (utf8Lead b.val).1.toList ++ utf8Loop bs (utf8Lead b.val).2
      else if b.val < st.lower ∨ st.upper < b.val then
        replacementChar :: ((utf8Lead b.val).1.toList ++ utf8Loop bs (utf8Lead b.val).2)
      else if st.seen + 1 = st.needed then
        Char.ofNat (st.codePoint * 64 + (b.val - 128)) :: utf8Loop bs Utf8State.init
      else utf8Loop bs ⟨st.codePoint * 64 + (b.val - 128), st.needed, st.seen + 1, 128, 191⟩

/-- The reference `TextDecoder.decode`: a leading byte order mark is dropped. -/
def utf8Decode (bytes : List Byte) : String :=
  match bytes with
  | 239 :: 187 :: 191 :: rest => String.mk (utf8Loop rest Utf8State.init)
  | _ => String.mk (utf8Loop bytes Utf8State.init)

/-- The error `crypto.subtle.decrypt` rejects with. -/
def operationError : JsError := ⟨"OperationError", "The operation failed for an operation-specific reason"⟩

/-- A stand-in for the 16-byte authentication tag: a checksum of key, nonce and data. -/
def tag (key iv data : List Byte) : List Byte :=
  List.replicate 16 (Fin.ofNat ((key ++ iv ++ data).foldl (fun acc b => acc + b.val) 0))

/-- A stand-in for AES-GCM encryption: the data followed by the tag. -/
def aesGcmEncrypt (key iv data : List Byte) : Except JsError (List Byte) :=
  .ok (data ++ tag key iv data)

/-- A stand-in for AES-GCM decryption: the data, if the tag behind it verifies. -/
def aesGcmDecrypt (key iv data : List Byte) : Except JsError (List Byte) :=
  if 16 ≤ data.length ∧
      data.drop (data.length - 16) = tag key iv (data.take (data.length - 16)) then
    .ok (data.take (data.length - 16))
  else .error operationError

/-- A remote world that answers the requests in turn from a fixed script. -/
def scriptedFetch (_ : Request) :
    List (Except JsError Response) → Except JsError Response × List (Except JsError Response)
  | [] => (.error (JsError.typeError "Failed to fetch"), [])
  | r :: rest => (r, rest)

/-- The number a run of decimal digits spells, `none` if a character is no digit. -/
def digitsVal (cs : List Char) : Option Nat :=
  if cs.all Char.isDigit && !cs.isEmpty then
    some (cs.foldl (fun acc c => acc * 10 + (c.toNat - 48)) 0)
  else none

/-- The days from 1970-01-01 to a date of the proleptic Gregorian calendar. -/
def daysFromCivil (y m d : Nat) : Int :=
  let y1 : Int := if m ≤ 2 then (y : Int) - 1 else (y : Int)
  let era : Int := y1 / 400
  let yoe : Int := y1 - era * 400
  let mp : Int := if m ≤ 2 then (m : Int) + 9 else (m : Int) - 3
  let doy : Int := (153 * mp + 2) / 5 + (d : Int) - 1
  let doe : Int := yoe * 365 + yoe / 4 - yoe / 100 + doy
  era * 146097 + doe - 719468

/-- The number of days of a month. -/
def daysInMonth (y m : Nat) : Nat :=
  if m = 2 then (if y % 4 = 0 ∧ (y % 100 ≠ 0 ∨ y % 400 = 0) then 29 else 28)
  else if m = 4 ∨ m = 6 ∨ m = 9 ∨ m = 11 then 30 else 31

/-- The milliseconds a fraction of a second spells, by its first three digits. -/
def fractionMs (cs : List Char) : Option Nat :=
  match digitsVal cs with
  | none => none
  | some _ => digitsVal ((cs ++ ['0', '0']).take 3)

/-- The reference `Date.parse` on UTC date-times `YYYY-MM-DDTHH:mm:ss[.fff…]Z`;
any other text counts as an invalid date. -/
def dateParse (text : String) : Option Int :=
  match text.toList with
  | y1 :: y2 :: y3 :: y4 :: '-' :: m1 :: m2 :: '-' :: d1 :: d2 :: 'T'
      :: h1 :: h2 :: ':' :: n1 :: n2 :: ':' :: s1 :: s2 :: rest =>
      match digitsVal [y1, y2, y3, y4], digitsVal [m1, m2], digitsVal [d1, d2],
        digitsVal [h1, h2], digitsVal [n1, n2], digitsVal [s1, s2] with
      | some y, some m, some d, some h, some n, some s =>
          let ms : Option Nat :=
            match rest with
            | ['Z'] => some 0
            | '.' :: frac =>
                if frac.getLast? = some 'Z' then fractionMs frac.dropLast else none
            | _ => none
          match ms with
          | none => none
          | some f =>
              if 1 ≤ m ∧ m ≤ 12 ∧ 1 ≤ d ∧ d ≤ daysInMonth y m ∧ h ≤ 23 ∧ n ≤ 59 ∧ s ≤ 59 then
                some (daysFromCivil y m d * 86400000
                  + ((h * 3600 + n * 60 + s) * 1000 + f : Nat))
              else none
      | _, _, _, _, _, _ => none
  | _ => none

/-- The reference platform over a scripted remote world.  Key import keeps the
password bytes and key derivation joins them to the salt: stand-ins, as the
cipher is. -/
def platform : Platform (List (Except JsError Response)) where
  jsonStringify := stringify
  jsonParse := parse
  utf8Encode := utf8Encode
  utf8Decode := utf8Decode
  importKey := fun pw => .ok pw
  deriveKey := fun pw salt => .ok (salt ++ pw)
  aesGcmEncrypt := aesGcmEncrypt
  aesGcmDecrypt := aesGcmDecrypt
  fetch := scriptedFetch
  dateParse := dateParse

end Reference

/-! ## Engine state -/

/-- The browser's `localStorage`: `getItem` as a function of the key. -/
abbrev Storage := String → Option String

/-- The store after `setItem(key, value)`. -/
def Storage.setItem (s : Storage) (key value : String) : Storage :=
  fun k => if k = key then some value else s k

/-- The store after `removeItem(key)`. -/
def Storage.removeItem (s : Storage) (key : String) : Storage :=
  fun k => if k = key then none else s k

/-- An engine instance in its environment: the fields of the `DrimeSyncCore`
object (`config` as the property list of the configuration object), the
browser's `localStorage`, the remote world, the calls issued so far, and the
interval timers this engine has armed (handle and delay in milliseconds, `none`
for `NaN`) with the number of handles `setInterval` has handed out. -/
structure World (ν : Type) where
  config : List (String × JsVal)
  syncInProgress : Bool
  syncTimer : Option Nat
  localStorage : Storage
  remote : ν
  trace : List Event
  timers : List (Nat × Option Int) := []
  timerSeq : Nat := 0

namespace World

variable {ν : Type}

/-- One more call on the record of calls issued. -/
def log (w : World ν) (e : Event) : World ν := { w with trace := w.trace ++ [e] }

/-- The read `this.config.<field>`. -/
def configField (w : World ν) (field : String) : JsVal :=
  (JsVal.lookup field w.config).getD .undefined

/-- The call `localStorage.getItem(key)`. -/
def getItem (w : World ν) (key : String) : Option String × World ν :=
  (w.localStorage key, w.log (.storageGet key))

/-- The call `localStorage.setItem(key, value)`. -/
def setItem (w : World ν) (key value : String) : World ν :=
  { w with localStorage := w.localStorage.setItem key value,
           trace := w.trace ++ [.storageSet key value] }

/-- The call `fetch(request)`, awaited. -/
def fetch (P : Platform ν) (w : World ν) (req : Request) : Except JsError Response × World ν :=
  ((P.fetch req w.remote).1,
    { w with remote := (P.fetch req w.remote).2, trace := w.trace ++ [.fetch req] })

end World

/-- The call `response.json()`, awaited. -/
def Response.json {ν : Type} (P : Platform ν) (r : Response) : Except JsError JsVal :=
  match r.body with
  | .error e => .error e
  | .ok text => P.jsonParse text

namespace DrimeSyncCore

variable {ν : Type}

/-- The field `DRIME_API_BASE`. -/
def DRIME_API_BASE : String := "https://app.drime.cloud/api/v1"

/-- The field `SYNC_FOLDER`. -/
def SYNC_FOLDER : String := "TypingMindBackup"

/-- The header `Authorization: Bearer ${this.config.apiToken}`. -/
def authorization (w : World ν) : String × String :=
  ("Authorization", "Bearer " ++ (w.configField "apiToken").toJsString)

/-- The method `saveConfig()`. -/
def saveConfig (P : Platform ν) (w : World ν) : World ν :=
  let configToSave := JsVal.setProp w.config "encryptionKey" (w.configField "encryptionKey")
  w.setItem "drime_sync_config" ((P.jsonStringify (.obj configToSave)).getD "undefined")

/-- The search `data.find(f => f.name === this.SYNC_FOLDER && f.type === 'folder')`. -/
def findSyncFolder : List JsVal → Except JsError JsVal
  | [] => .ok .undefined
  | f :: rest =>
      match f.getProp "name" with
      | .error e => .error e
      | .ok (.str name) =>
          if name = SYNC_FOLDER then
            match f.getProp "type" with
            | .error e => .error e
            | .ok (.str type) => if type = "folder" then .ok f else findSyncFolder rest
            | .ok _ => findSyncFolder rest
          else findSyncFolder rest
      | .ok _ => findSyncFolder rest

/-- The expression `entries.data?.find(...)`. -/
def lookupSyncFolder (entries : JsVal) : Except JsError JsVal :=
  match entries.getProp "data" with
  | .error e => .error e
  | .ok .undefined => .ok .undefined
  | .ok .null => .ok .undefined
  | .ok (.arr data) => findSyncFolder data
  | .ok _ => .error (JsError.typeError "entries.data?.find is not a function")

/-- The method `getSyncFolder()`. -/
def getSyncFolder (P : Platform ν) (w : World ν) : Except JsError JsVal × World ν :=
  let listed := w.fetch P
    { url := DRIME_API_BASE ++ "/file-entries", method := "GET",
      headers := [authorization w, ("Accept", "application/json")],
      body := none, formFile := none, formParent := none }
  let w1 := listed.2
  match listed.1 with
  | .error e => (.error e, w1)
  | .ok response =>
    if !response.ok then
      (.error (JsError.mkError ("Failed to list folders: " ++ response.statusText)), w1)
    else
      match response.json P with
      | .error e => (.error e, w1)
      | .ok entries =>
        match lookupSyncFolder entries with
        | .error e => (.error e, w1)
        | .ok syncFolder =>
          if syncFolder.truthy then (syncFolder.getProp "id", w1)
          else
            let created := w1.fetch P
              { url := DRIME_API_BASE ++ "/file-entries/folder", method := "POST",
                headers := [authorization w1, ("Content-Type", "application/json"),
                  ("Accept", "application/json")],
                body := some ((P.jsonStringify
                  (.obj [("name", .str SYNC_FOLDER), ("parent_id", .null)])).getD "undefined"),
                formFile := none, formParent := none }
            let w2 := created.2
            match created.1 with
            | .error e => (.error e, w2)
            | .ok createResponse =>
              if !createResponse.ok then
                match createResponse.body with
                | .error e => (.error e, w2)
                | .ok errorText =>
                  (.error (JsError.mkError ("Failed to create folder: "
                    ++ createResponse.statusText ++ " - " ++ errorText)), w2)
              else
                match createResponse.json P with
                | .error e => (.error e, w2)
                | .ok newFolder =>
                  match newFolder.getProp "data" with
                  | .error e => (.error e, w2)
                  | .ok data => (data.getProp "id", w2)

/-- The method `uploadFile(folderId, filename, content)`. -/
def uploadFile (P : Platform ν) (folderId : JsVal) (filename content : String) (w : World ν) :
    Except JsError JsVal × World ν :=
  let sent := w.fetch P
    { url := DRIME_API_BASE ++ "/file-entries", method := "POST",
      headers := [authorization w, ("Accept", "application/json")],
      body := none, formFile := some (filename, content),
      formParent := if folderId.truthy then some folderId.toJsString else none }
  let w1 := sent.2
  match sent.1 with
  | .error e => (.error e, w1)
  | .ok response =>
    if !response.ok then
      match response.body with
      | .error e => (.error e, w1)
      | .ok errorText =>
        (.error (JsError.mkError ("Failed to upload file: "
          ++ response.statusText ++ " - " ++ errorText)), w1)
    else (response.json P, w1)

/-- The method `downloadFile(fileId)`. -/
def downloadFile (P : Platform ν) (fileId : JsVal) (w : World ν) :
    Except JsError String × World ν :=
  let got := w.fetch P
    { url := DRIME_API_BASE ++ "/file-entries/" ++ fileId.toJsString ++ "/download",
      method := "GET", headers := [authorization w],
      body := none, formFile := none, formParent := none }
  let w1 := got.2
  match got.1 with
  | .error e => (.error e, w1)
  | .ok response =>
    if !response.ok then
      (.error (JsError.mkError ("Failed to download file: " ++ response.statusText)), w1)
    else (response.body, w1)

/-- The method `listFiles(folderId)`. -/
def listFiles (P : Platform ν) (folderId : JsVal) (w : World ν) :
    Except JsError JsVal × World ν :=
  let got := w.fetch P
    { url := DRIME_API_BASE ++ "/file-entries?parent_id=" ++ folderId.toJsString,
      method := "GET", headers := [authorization w, ("Accept", "application/json")],
      body := none, formFile := none, formParent := none }
  let w1 := got.2
  match got.1 with
  | .error e => (.error e, w1)
  | .ok response =>
    if !response.ok then
      (.error (JsError.mkError ("Failed to list files: " ++ response.statusText)), w1)
    else
      match response.json P with
      | .error e => (.error e, w1)
      | .ok result =>
        match result.getProp "data" with
        | .error e => (.error e, w1)
        | .ok data => (.ok (if data.truthy then data else .arr []), w1)

/-- The names `getTypingMindData` reads, in its order. -/
def keys : List String :=
  ["typingmind_chats", "typingmind_settings", "typingmind_prompts",
    "typingmind_folders", "typingmind_models"]

/-- One round of the loop of `getTypingMindData`, on `data` and the world. -/
def getTypingMindDataStep (P : Platform ν) (acc : List (String × JsVal) × World ν)
    (key : String) : List (String × JsVal) × World ν :=
  let read := acc.2.getItem key
  match read.1 with
  | none => (acc.1, read.2)
  | some value =>
    if value = "" then (acc.1, read.2)
    else
      match P.jsonParse value with
      | .ok parsed => (JsVal.setProp acc.1 key parsed, read.2)
      | .error _ => (JsVal.setProp acc.1 key (.str value), read.2)

/-- The method `getTypingMindData()`. -/
def getTypingMindData (P : Platform ν) (w : World ν) : JsVal × World ν :=
  let r := keys.foldl (getTypingMindDataStep P) ([], w)
  (.obj r.1, r.2)

/-- The list `Object.entries(data)`; a string is listed by its characters. -/
def objectEntries : JsVal → Except JsError (List (String × JsVal))
  | .undefined => .error (JsError.typeError "Cannot convert undefined or null to object")
  | .null => .error (JsError.typeError "Cannot convert undefined or null to object")
  | .obj props => .ok props
  | .arr elems => .ok (elems.enum.map (fun p => (toString p.1, p.2)))
  | .str s => .ok (s.toList.enum.map (fun p => (toString p.1, JsVal.str (String.mk [p.2]))))
  | _ => .ok []

/-- The expression `typeof value === 'string' ? value : JSON.stringify(value)`,
as `setItem` stores it. -/
def stringValue (P : Platform ν) : JsVal → String
  | .str s => s
  | value => (P.jsonStringify value).getD "undefined"

/-- One round of the loop of `restoreTypingMindData`. -/
def restoreTypingMindDataStep (P : Platform ν) (w : World ν) (entry : String × JsVal) :
    World ν :=
  if !entry.2.isNullish then w.setItem entry.1 (stringValue P entry.2)
  else w

/-- The method `restoreTypingMindData(data)`. -/
def restoreTypingMindData (P : Platform ν) (data : JsVal) (w : World ν) :
    Except JsError Unit × World ν :=
  match objectEntries data with
  | .error e => (.error e, w)
  | .ok entries => (.ok (), entries.foldl (restoreTypingMindDataStep P) w)

end DrimeSyncCore

namespace DrimeSyncCore

variable {ν : Type}

/-- The error `backup` and `restore` throw while an operation is in flight. -/
def alreadyInProgress : JsError := JsError.mkError "Sync already in progress"

/-- The entry of `backup` and of `restore`: the guard on `syncInProgress`, then
the assignment `this.syncInProgress = true`. -/
def acquire (w : World ν) : Except JsError (World ν) :=
  if w.syncInProgress then .error alreadyInProgress
  else .ok { w with syncInProgress := true }

/-- The `finally` block of `backup` and of `restore`. -/
def release (w : World ν) : World ν := { w with syncInProgress := false }

/-- The text `timestamp.replace(/[:.]/g, '-')`. -/
def replaceColonDot (timestamp : String) : String :=
  String.mk (timestamp.toList.map (fun c => if c = ':' ∨ c = '.' then '-' else c))

/-- The `try` block of `backup()`; `salt` and `iv` are the random values drawn by
`encrypt`, `now1` and `now2` the two readings `new Date().toISOString()`. -/
def backupBody (P : Platform ν) (salt iv : List Byte) (now1 now2 : String) (w : World ν) :
    Except JsError JsVal × World ν :=
  let snapshot := getTypingMindData P w
  let data := snapshot.1
  let w1 := snapshot.2.log .encryptCall
  match encrypt P salt iv data (w1.configField "encryptionKey") with
  | .error e => (.error e, w1)
  | .ok encrypted =>
    let folder := getSyncFolder P w1
    match folder.1 with
    | .error e => (.error e, folder.2)
    | .ok folderId =>
      let timestamp := replaceColonDot now1
      let filename := "backup-" ++ timestamp ++ ".enc"
      let uploaded := uploadFile P folderId filename encrypted folder.2
      match uploaded.1 with
      | .error e => (.error e, uploaded.2)
      | .ok _ =>
        let w3 := { uploaded.2 with
          config := JsVal.setProp uploaded.2.config "lastSync" (.str now2) }
        let w4 := saveConfig P w3
        (.ok (.obj [("success", .bool true), ("timestamp", w4.configField "lastSync"),
          ("filename", .str filename)]), w4)

/-- The method `backup()`. -/
def backup (P : Platform ν) (salt iv : List Byte) (now1 now2 : String) (w : World ν) :
    Except JsError JsVal × World ν :=
  match acquire w with
  | .error e => (.error e, w)
  | .ok w0 =>
    let r := backupBody P salt iv now1 now2 w0
    match r.1 with
    | .ok result => (.ok result, release r.2)
    | .error e => (.error e, release (r.2.log (.consoleError "Backup failed:" e)))

/-- The `try` block of `restore(fileId)`. -/
def restoreBody (P : Platform ν) (fileId : JsVal) (w : World ν) :
    Except JsError JsVal × World ν :=
  let downloaded := downloadFile P fileId w
  match downloaded.1 with
  | .error e => (.error e, downloaded.2)
  | .ok encrypted =>
    let w1 := downloaded.2.log .decryptCall
    match decrypt P encrypted (w1.configField "encryptionKey") with
    | .error e => (.error e, w1)
    | .ok data =>
      let restored := restoreTypingMindData P data w1
      match restored.1 with
      | .error e => (.error e, restored.2)
      | .ok _ => (.ok (.obj [("success", .bool true)]), restored.2)

/-- The method `restore(fileId)`. -/
def restore (P : Platform ν) (fileId : JsVal) (w : World ν) :
    Except JsError JsVal × World ν :=
  match acquire w with
  | .error e => (.error e, w)
  | .ok w0 =>
    let r := restoreBody P fileId w0
    match r.1 with
    | .ok result => (.ok result, release r.2)
    | .error e => (.error e, release (r.2.log (.consoleError "Restore failed:" e)))

/-- The test `name.startsWith('backup-') && name.endsWith('.enc')`. -/
def isBackupName (name : String) : Bool :=
  "backup-".toList.isPrefixOf name.toList && ".enc".toList.isSuffixOf name.toList

/-- The step `files.filter(f => f.name && f.name.startsWith('backup-') &&
f.name.endsWith('.enc'))`: a truthy name that is no string has no `startsWith`. -/
def filterBackups : List JsVal → Except JsError (List JsVal)
  | [] => .ok []
  | f :: rest =>
      match f.getProp "name" with
      | .error e => .error e
      | .ok name =>
        if !name.truthy then filterBackups rest
        else
          match name with
          | .str s =>
              match filterBackups rest with
              | .error e => .error e
              | .ok kept => .ok (if isBackupName s then f :: kept else kept)
          | _ => .error (JsError.typeError "f.name.startsWith is not a function")

/-- The object the `map` step builds from a file entry. -/
def toBackup (f : JsVal) : Except JsError JsVal :=
  match f.getProp "id", f.getProp "name", f.getProp "file_size", f.getProp "created_at",
    f.getProp "updated_at" with
  | .ok id, .ok name, .ok fileSize, .ok createdAt, .ok updatedAt =>
      .ok (.obj [("id", id), ("name", name),
        ("size", if fileSize.truthy then fileSize else .num 0),
        ("created", createdAt), ("modified", updatedAt)])
  | .error e, _, _, _, _ => .error e
  | _, .error e, _, _, _ => .error e
  | _, _, .error e, _, _ => .error e
  | _, _, _, .error e, _ => .error e
  | _, _, _, _, .error e => .error e

/-- The step `.map(f => ({ id: f.id, ... }))`. -/
def mapBackups : List JsVal → Except JsError (List JsVal)
  | [] => .ok []
  | f :: rest =>
      match toBackup f, mapBackups rest with
      | .ok b, .ok bs => .ok (b :: bs)
      | .error e, _ => .error e
      | _, .error e => .error e

/-- The time value of `new Date(v)`, `none` for an invalid date. -/
def timeValue (P : Platform ν) : JsVal → Option Int
  | .undefined => none
  | .null => some 0
  | .bool b => some (if b then 1 else 0)
  | .num n => if -8640000000000000 ≤ n ∧ n ≤ 8640000000000000 then some n else none
  | .str s => P.dateParse s
  | v => P.dateParse v.toJsString

/-- The property `a.created` of a catalog object. -/
def created (a : JsVal) : JsVal :=
  match a.getProp "created" with
  | .ok v => v
  | .error _ => .undefined

/-- The comparator `(a, b) => new Date(b.created) - new Date(a.created)`; `none`
is `NaN`. -/
def compareCreated (P : Platform ν) (a b : JsVal) : Option Int :=
  match timeValue P (created b), timeValue P (created a) with
  | some tb, some ta => some (tb - ta)
  | _, _ => none

/-- The order `sort` reads off the comparator: `a` may stand before `b` when the
comparator is not positive (`NaN` counting as zero). -/
def sortsBefore (P : Platform ν) (a b : JsVal) : Prop :=
  match compareCreated P a b with
  | some d => d ≤ 0
  | none => True

instance (P : Platform ν) : DecidableRel (sortsBefore P) := fun a b => by
  unfold sortsBefore
  cases compareCreated P a b <;> infer_instance

/-- The step `.sort(comparator)`.  `Array.prototype.sort` is stable, and for a
consistent comparator the language fixes its result; that result is computed
here by a stable insertion sort. -/
def sortBackups (P : Platform ν) (backups : List JsVal) : List JsVal :=
  backups.insertionSort (sortsBefore P)

/-- The expression `files.filter(...).map(...).sort(...)` of `listBackups`. -/
def catalog (P : Platform ν) (files : JsVal) : Except JsError JsVal :=
  match files with
  | .arr entries =>
      match filterBackups entries with
      | .error e => .error e
      | .ok kept =>
        match mapBackups kept with
        | .error e => .error e
        | .ok backups => .ok (.arr (sortBackups P backups))
  | _ => .error (JsError.typeError "files.filter is not a function")

/-- The `try` block of `listBackups()`. -/
def listBackupsBody (P : Platform ν) (w : World ν) : Except JsError JsVal × World ν :=
  let folder := getSyncFolder P w
  match folder.1 with
  | .error e => (.error e, folder.2)
  | .ok folderId =>
    let listed := listFiles P folderId folder.2
    match listed.1 with
    | .error e => (.error e, listed.2)
    | .ok files => (catalog P files, listed.2)

/-- The method `listBackups()`. -/
def listBackups (P : Platform ν) (w : World ν) : Except JsError JsVal × World ν :=
  let r := listBackupsBody P w
  match r.1 with
  | .ok backups => (.ok backups, r.2)
  | .error e => (.error e, r.2.log (.consoleError "Failed to list backups:" e))

end DrimeSyncCore

/-! ## Operations in flight -/

/-- The two operations the flag `syncInProgress` guards. -/
inductive Op where
  | backup
  | restore
deriving DecidableEq, Repr

/-- An engine together with the operations that entered their `try` block and
have not reached their `finally` block yet (they are suspended at an `await`). -/
structure Session (ν : Type) where
  world : World ν
  inFlight : List Op

namespace Session

variable {ν : Type}

/-- One step of an engine whose operations interleave at their `await`s:
a call of `backup`/`restore` is admitted or rejected by `acquire`; while an
operation is suspended the world changes through code that never assigns
`syncInProgress` (the `try` blocks and every other method); an operation in
flight ends through `release`. -/
inductive Step : Session ν → Session ν → Prop where
  | call (s : Session ν) (op : Op) (w0 : World ν) :
      DrimeSyncCore.acquire s.world = .ok w0 → Step s ⟨w0, op :: s.inFlight⟩
  | rejected (s : Session ν) (op : Op) (e : JsError) :
      DrimeSyncCore.acquire s.world = .error e → Step s s
  | run (s : Session ν) (w1 : World ν) :
      w1.syncInProgress = s.world.syncInProgress → Step s ⟨w1, s.inFlight⟩
  | settle (s : Session ν) (op : Op) :
      op ∈ s.inFlight → Step s ⟨DrimeSyncCore.release s.world, s.inFlight.erase op⟩

/-- The states an engine reaches from a fresh instance (`syncInProgress` false,
nothing in flight). -/
inductive Reachable : Session ν → Prop where
  | init (w : World ν) : w.syncInProgress = false → Reachable ⟨w, []⟩
  | step (s t : Session ν) : Reachable s → Step s t → Reachable t

end Session

namespace DrimeSyncCore

variable {ν : Type}

/-- The state after `restoreTypingMindData(getTypingMindData())`. -/
def snapshotRoundTrip (P : Platform ν) (w : World ν) : World ν :=
  (restoreTypingMindData P (getTypingMindData P w).1 (getTypingMindData P w).2).2

/-- The value `getTypingMindData` records for a stored string, if it records one. -/
def captured (P : Platform ν) (stored : Option String) : Option JsVal :=
  match stored with
  | none => none
  | some value =>
    if value = "" then none
    else
      match P.jsonParse value with
      | .ok parsed => some parsed
      | .error _ => some (.str value)

/-- An entry of a remote listing as the store documents it: an object whose
`name`, when it has one, is a string. -/
def WellFormedEntry (f : JsVal) : Prop :=
  ∃ props, f = .obj props ∧
    (JsVal.lookup "name" props = none ∨ ∃ s, JsVal.lookup "name" props = some (.str s))

/-- The name of a listing entry when it is a string. -/
def entryName (f : JsVal) : Option String :=
  match f.getProp "name" with
  | .ok (.str s) => some s
  | _ => none

/-- The entries `listBackups` keeps: those with a string name that starts with
`backup-` and ends with `.enc`. -/
def kept (f : JsVal) : Bool :=
  match entryName f with
  | some s => isBackupName s
  | none => false

/-- The catalog object of a listing entry that is an object. -/
def backupOf (f : JsVal) : JsVal :=
  match toBackup f with
  | .ok b => b
  | .error _ => .undefined

/-- The time value of the `created` field of a catalog object, `0` if invalid. -/
def createdTime (P : Platform ν) (a : JsVal) : Int :=
  (timeValue P (created a)).getD 0

end DrimeSyncCore

/-! ## The backup-file pattern of the specification -/

namespace SpecPattern

/-- Follows the specification's words: a timestamp `YYYY-MM-DDTHH:mm:ss`, with an
optional fraction `.fff` and an optional `Z`, after every `:` and `.` was
replaced by `-`. -/
def isTimestamp (cs : List Char) : Bool :=
  match cs with
  | y1 :: y2 :: y3 :: y4 :: '-' :: m1 :: m2 :: '-' :: d1 :: d2 :: 'T'
      :: h1 :: h2 :: '-' :: n1 :: n2 :: '-' :: s1 :: s2 :: rest =>
      [y1, y2, y3, y4, m1, m2, d1, d2, h1, h2, n1, n2, s1, s2].all Char.isDigit &&
        (match rest with
        | [] => true
        | ['Z'] => true
        | '-' :: frac =>
            (frac.all Char.isDigit && !frac.isEmpty) ||
              (frac.getLast? == some 'Z' && frac.dropLast.all Char.isDigit
                && !frac.dropLast.isEmpty)
        | _ => false)
  | _ => false

/-- Follows the specification's words: the backup-file pattern
`backup-<ISO-8601 timestamp with ':' and '.' replaced by '-'>.enc`. -/
def matchesBackupPattern (name : String) : Bool :=
  "backup-".toList.isPrefixOf name.toList && ".enc".toList.isSuffixOf name.toList &&
    isTimestamp ((name.toList.drop 7).take (name.toList.length - 11))

end SpecPattern

/-- Two worlds that differ at most in the remote world and in the record of
calls: the engine's fields and `localStorage` are the same. -/
def World.SameEngine {ν : Type} (w w1 : World ν) : Prop :=
  w1.config = w.config ∧ w1.syncInProgress = w.syncInProgress ∧
    w1.syncTimer = w.syncTimer ∧ w1.localStorage = w.localStorage

/-! ## Assumptions on the platform -/

/-- The contract of the `crypto.subtle` calls the engine relies on: key import,
key derivation and encryption return a result, and decryption under the same
key and nonce inverts encryption. -/
structure Platform.CryptoCorrect {ν : Type} (P : Platform ν) : Prop where
  importKey_ok : ∀ pw, ∃ k, P.importKey pw = .ok k
  deriveKey_ok : ∀ k salt, ∃ key, P.deriveKey k salt = .ok key
  encrypt_ok : ∀ key iv data, ∃ c, P.aesGcmEncrypt key iv data = .ok c
  decrypt_encrypt : ∀ key iv data c,
    P.aesGcmEncrypt key iv data = .ok c → P.aesGcmDecrypt key iv c = .ok data

/-- A payload is JSON-serializable on a platform when `JSON.stringify` gives it
a text, the text survives the UTF-8 codec, and `JSON.parse` reads the payload
back from it. -/
def JsonSerializable {ν : Type} (P : Platform ν) (x : JsVal) : Prop :=
  ∃ text, P.jsonStringify x = some text ∧ P.utf8Decode (P.utf8Encode text) = text ∧
    P.jsonParse text = .ok x

/-! ## Concrete inputs -/

namespace Sample

/-- A sixteen-byte salt. -/
def salt : List Byte := List.replicate 16 1

/-- A twelve-byte nonce. -/
def iv : List Byte := List.replicate 12 2

/-- A payload. -/
def payload : JsVal := .obj [("typingmind_chats", .obj [("a", .num 1)])]

/-- A payload with nested documents, escapes, a character outside ASCII, a
negative number, booleans, `null`, and a section kept as a string. -/
def richPayload : JsVal :=
  .obj [("typingmind_chats",
      .arr [.obj [("id", .str "c1"), ("title", .str "Caf\u00e9 \"one\"\n"), ("turns", .num (-3)),
        ("pinned", .bool true), ("folder", .null), ("tags", .arr [.str "a", .arr []])]]),
    ("typingmind_settings", .str "dark mode")]

/-- A response with status 200 and the given body. -/
def ok200 (body : String) : Except JsError Response := .ok ⟨true, 200, "OK", .ok body⟩

/-- An engine with token and passphrase configured, over a given `localStorage`
and a scripted remote world. -/
def world (store : Storage) (script : List (Except JsError Response)) :
    World (List (Except JsError Response)) :=
  { config := [("apiToken", .str "T"), ("encryptionKey", .str "pw"),
      ("syncInterval", .num 5), ("autoSync", .bool false), ("lastSync", .null)],
    syncInProgress := false, syncTimer := none,
    localStorage := store, remote := script, trace := [] }

end Sample

namespace Sample

/-- A `localStorage` whose chats section holds a JSON document written with a
space after the colon, and whose settings section holds a string that is no JSON. -/
def spacedStore : Storage := fun k =>
  if k = "typingmind_chats" then some "\x7b\"a\": 1\x7d"
  else if k = "typingmind_settings" then some "dark mode" else none

end Sample

namespace Sample

/-- The envelope `encrypt` returns on the reference platform for `payload`, the
passphrase `pw`, `salt` and `iv`. -/
def envelope : String :=
  "AQEBAQEBAQEBAQEBAQEBAQICAgICAgICAgICAnsidHlwaW5nbWluZF9jaGF0cyI6eyJhIjoxfX1CQkJCQkJCQkJCQkJCQkJC"

/-- The envelope with one bit of its ciphertext flipped (`d` became `e`). -/
def tampered : String :=
  "AQEBAQEBAQEBAQEBAQEBAQICAgICAgICAgICAnsieHlwaW5nbWluZF9jaGF0cyI6eyJhIjoxfX1CQkJCQkJCQkJCQkJCQkJC"

/-- An envelope cut down to six bytes. -/
def truncated : String := "AQEBAQEB"

/-- A text that is no base64. -/
def notBase64 : String := "not base64!"

/-- An envelope whose authenticated plaintext is `hello`, which is no JSON. -/
def notJson : String :=
  "AQEBAQEBAQEBAQEBAQEBAQICAgICAgICAgICAmhlbGxvIyMjIyMjIyMjIyMjIyMjIw=="

end Sample

namespace DrimeSyncCore

variable {ν : Type}

/-- The property `f.created_at` of a listing entry. -/
def createdAt (f : JsVal) : JsVal :=
  match f.getProp "created_at" with
  | .ok v => v
  | .error _ => .undefined

/-- The catalog object `a` was created no earlier than `b`, both dates valid. -/
def NotOlder (P : Platform ν) (a b : JsVal) : Prop :=
  ∃ ta tb, timeValue P (created a) = some ta ∧ timeValue P (created b) = some tb ∧ tb ≤ ta

end DrimeSyncCore

namespace Sample

/-- The answer to the root listing: the sync folder exists, with id 7. -/
def rootListing : String :=
  "\x7b\"data\":[\x7b\"name\":\"TypingMindBackup\",\"type\":\"folder\",\"id\":7\x7d]\x7d"

/-- A listing of the backup folder: two backups named by timestamp, a text
file, and a file that merely starts with `backup-` and ends with `.enc`. -/
def folderListing : String :=
  "\x7b\"data\":[\x7b\"id\":1,\"name\":\"backup-2024-01-01T00-00-00.enc\",\"created_at\":\"2024-01-01T00:00:00.000000Z\"\x7d,\x7b\"id\":2,\"name\":\"notes.txt\",\"created_at\":\"2024-03-01T00:00:00.000000Z\"\x7d,\x7b\"id\":3,\"name\":\"backup-2024-06-01T00-00-00.enc\",\"file_size\":12,\"created_at\":\"2024-06-01T00:00:00.000000Z\"\x7d,\x7b\"id\":4,\"name\":\"backup-notes.enc\",\"file_size\":9,\"created_at\":\"2024-06-01T00:00:00.000000Z\"\x7d]\x7d"

/-- The entries of `folderListing`. -/
def entries : List JsVal :=
  [.obj [("id", .num 1), ("name", .str "backup-2024-01-01T00-00-00.enc"),
      ("created_at", .str "2024-01-01T00:00:00.000000Z")],
    .obj [("id", .num 2), ("name", .str "notes.txt"),
      ("created_at", .str "2024-03-01T00:00:00.000000Z")],
    .obj [("id", .num 3), ("name", .str "backup-2024-06-01T00-00-00.enc"),
      ("file_size", .num 12), ("created_at", .str "2024-06-01T00:00:00.000000Z")],
    .obj [("id", .num 4), ("name", .str "backup-notes.enc"),
      ("file_size", .num 9), ("created_at", .str "2024-06-01T00:00:00.000000Z")]]

/-- The catalog `listBackups` returns for `folderListing`, as JSON. -/
def catalogText : String :=
  "[\x7b\"id\":3,\"name\":\"backup-2024-06-01T00-00-00.enc\",\"size\":12,\"created\":\"2024-06-01T00:00:00.000000Z\"\x7d,\x7b\"id\":4,\"name\":\"backup-notes.enc\",\"size\":9,\"created\":\"2024-06-01T00:00:00.000000Z\"\x7d,\x7b\"id\":1,\"name\":\"backup-2024-01-01T00-00-00.enc\",\"size\":0,\"created\":\"2024-01-01T00:00:00.000000Z\"\x7d]"

end Sample

namespace Sample

/-- An engine with an operation in flight. -/
def busyWorld : World (List (Except JsError Response)) :=
  { world spacedStore [ok200 rootListing] with syncInProgress := true }

/-- An engine whose remote world lists the sync folder and then refuses the upload. -/
def uploadRefused : World (List (Except JsError Response)) :=
  world spacedStore [ok200 rootListing, .ok ⟨false, 500, "Server Error", .ok "boom"⟩]

/-- An engine whose remote world lists the sync folder and accepts the upload. -/
def uploadAccepted : World (List (Except JsError Response)) :=
  world spacedStore [ok200 rootListing, ok200 "\x7b\x7d"]

/-- An engine whose remote world answers the download with a damaged envelope. -/
def damagedDownload : World (List (Except JsError Response)) :=
  world spacedStore [ok200 tampered]

/-- A decrypted payload: a document, a string, and a section that is `null`. -/
def sections : List (String × JsVal) :=
  [("typingmind_chats", .obj [("a", .num 1)]), ("typingmind_settings", .str "light mode"),
    ("typingmind_prompts", .null)]

/-- A `localStorage` holding prompts and folders. -/
def promptStore : Storage := fun k =>
  if k = "typingmind_prompts" then some "[\"p\"]"
  else if k = "typingmind_folders" then some "[]" else none

end Sample

/-! ## Numbers, timers and the configuration record -/

namespace JsVal

/-- White space as `ToNumber` strips it from the ends of a string. -/
def isStrWhiteSpace (c : Char) : Bool :=
  c.toNat = 9 || c.toNat = 10 || c.toNat = 11 || c.toNat = 12 || c.toNat = 13 || c.toNat = 32
    || c.toNat = 160 || c.toNat = 5760 || (8192 ≤ c.toNat && c.toNat ≤ 8202)
    || c.toNat = 8232 || c.toNat = 8233 || c.toNat = 8239 || c.toNat = 8287
    || c.toNat = 12288 || c.toNat = 65279

/-- The number a run of decimal digits spells; `none` when it is empty or holds
another character. -/
def decimalDigits (cs : List Char) : Option Int :=
  if cs.all Char.isDigit && !cs.isEmpty then
    some (cs.foldl (fun acc c => acc * 10 + ((c.toNat - 48 : Nat) : Int)) 0)
  else none

/-- The conversion `ToNumber` of a string, `none` for `NaN`: white space around
is dropped, the empty string is `0`, an optionally signed run of decimal digits
is its value.  A string that spells a number in another way (fraction, exponent,
hexadecimal, `Infinity`) is outside the integer-valued numbers of `JsVal`. -/
def stringToNumber (s : String) : Option Int :=
  match ((s.toList.dropWhile isStrWhiteSpace).reverse.dropWhile isStrWhiteSpace).reverse with
  | [] => some 0
  | '-' :: digits => (decimalDigits digits).map (fun n => -n)
  | '+' :: digits => decimalDigits digits
  | digits => decimalDigits digits

/-- The conversion `ToNumber` that arithmetic applies to an operand, `none` for `NaN`. -/
def toNumber : JsVal → Option Int
  | .undefined => none
  | .null => some 0
  | .bool b => some (if b then 1 else 0)
  | .num n => some n
  | .str s => stringToNumber s
  | v => stringToNumber v.toJsString

end JsVal

namespace World

variable {ν : Type}

/-- The call `localStorage.removeItem(key)`. -/
def removeItem (w : World ν) (key : String) : World ν :=
  { w with localStorage := w.localStorage.removeItem key,
           trace := w.trace ++ [.storageRemove key] }

/-- The call `setInterval(callback, delay)`: a new handle, greater than zero and
than every handle handed out before, and the world with that timer armed. -/
def setInterval (w : World ν) (delay : Option Int) : Nat × World ν :=
  (w.timerSeq + 1,
    { w with timers := w.timers ++ [(w.timerSeq + 1, delay)],
             timerSeq := w.timerSeq + 1,
             trace := w.trace ++ [.setInterval (w.timerSeq + 1) delay] })

/-- The call `clearInterval(handle)`. -/
def clearInterval (w : World ν) (handle : Nat) : World ν :=
  { w with timers := w.timers.filter (fun t => t.1 != handle),
           trace := w.trace ++ [.clearInterval handle] }

end World

namespace DrimeSyncCore

variable {ν : Type}

/-- The object the constructor and `clearConfig` assign to `this.config`. -/
def defaultConfig : List (String × JsVal) :=
  [("apiToken", .null), ("encryptionKey", .null), ("syncInterval", .num 5),
    ("autoSync", .bool false), ("lastSync", .null)]

/-- The own enumerable properties a spread `...v` copies; none for a value that
is no object, array or string. -/
def spreadProps : JsVal → List (String × JsVal)
  | .obj props => props
  | .arr elems => elems.enum.map (fun p => (toString p.1, p.2))
  | .str s => s.toList.enum.map (fun p => (toString p.1, JsVal.str (String.mk [p.2])))
  | _ => []

/-- The object literal `{ ...base, ...extra }`, on property lists. -/
def mergeProps (base extra : List (String × JsVal)) : List (String × JsVal) :=
  extra.foldl (fun acc p => JsVal.setProp acc p.1 p.2) base

/-- The method `loadConfig()`. -/
def loadConfig (P : Platform ν) (w : World ν) : World ν :=
  let read := w.getItem "drime_sync_config"
  match read.1 with
  | none => read.2
  | some saved =>
    if saved = "" then read.2
    else
      match P.jsonParse saved with
      | .ok parsed => { read.2 with config := mergeProps read.2.config (spreadProps parsed) }
      | .error e => read.2.log (.consoleError "Failed to load config:" e)

/-- The constructor `new DrimeSyncCore()`, in a browser with the given
`localStorage` and remote world. -/
def new (P : Platform ν) (localStorage : Storage) (remote : ν) : World ν :=
  loadConfig P
    { config := defaultConfig, syncInProgress := false, syncTimer := none,
      localStorage := localStorage, remote := remote, trace := [],
      timers := [], timerSeq := 0 }

/-- The method `testConnection()`. -/
def testConnection (P : Platform ν) (w : World ν) : Except JsError JsVal × World ν :=
  let got := w.fetch P
    { url := DRIME_API_BASE ++ "/file-entries", method := "GET",
      headers := [authorization w, ("Accept", "application/json")],
      body := none, formFile := none, formParent := none }
  let w1 := got.2
  match got.1 with
  | .error e => (.error e, w1)
  | .ok response =>
    if !response.ok then
      match response.body with
      | .error e => (.error e, w1)
      | .ok errorText =>
        (.error (JsError.mkError ("Drime API error: " ++ toString response.status
          ++ " - " ++ errorText)), w1)
    else (response.json P, w1)

/-- The method `initialize(apiToken, encryptionKey)`. -/
def initializeEngine (P : Platform ν) (apiToken encryptionKey : JsVal) (w : World ν) :
    JsVal × World ν :=
  let w1 := { w with config := JsVal.setProp w.config "apiToken" apiToken }
  let w2 := { w1 with config := JsVal.setProp w1.config "encryptionKey" encryptionKey }
  let w3 := saveConfig P w2
  let tested := testConnection P w3
  match tested.1 with
  | .ok _ => (.obj [("success", .bool true)], tested.2)
  | .error e => (.obj [("success", .bool false), ("error", .str e.message)], tested.2)

/-- The method `getStatus()`. -/
def getStatus (w : World ν) : JsVal :=
  .obj [("configured",
      .bool ((w.configField "apiToken").truthy && (w.configField "encryptionKey").truthy)),
    ("autoSync", w.configField "autoSync"),
    ("lastSync", w.configField "lastSync"),
    ("syncInProgress", .bool w.syncInProgress),
    ("syncInterval", w.configField "syncInterval")]

/-- The method `stopAutoSync()`. -/
def stopAutoSync (P : Platform ν) (w : World ν) : World ν :=
  let w1 :=
    match w.syncTimer with
    | some handle => { w.clearInterval handle with syncTimer := none }
    | none => w
  let w2 := { w1 with config := JsVal.setProp w1.config "autoSync" (.bool false) }
  saveConfig P w2

/-- The values one run of `backup()` draws from its environment: the salt and
nonce of `encrypt` and the two clock readings. -/
structure Draw where
  salt : List Byte
  iv : List Byte
  now1 : String
  now2 : String

/-- The statement `this.backup().catch(err => console.error(label, err))`: the
call is issued, runs on the values drawn, and a failure is only logged. -/
def fireBackup (P : Platform ν) (d : Draw) (label : String) (w : World ν) : World ν :=
  let r := backup P d.salt d.iv d.now1 d.now2 (w.log .backupCall)
  match r.1 with
  | .ok _ => r.2
  | .error e => r.2.log (.consoleError label e)

/-- The delay `this.config.syncInterval * 60 * 1000`, `none` for `NaN`. -/
def intervalMs (w : World ν) : Option Int :=
  ((w.configField "syncInterval").toNumber).map (fun minutes => minutes * 60 * 1000)

/-- The method `startAutoSync()`; `d` is what its initial `backup()` draws. -/
def startAutoSync (P : Platform ν) (d : Draw) (w : World ν) : World ν :=
  let w1 := if w.syncTimer.isSome then stopAutoSync P w else w
  let w2 := { w1 with config := JsVal.setProp w1.config "autoSync" (.bool true) }
  let w3 := saveConfig P w2
  let armed := w3.setInterval (intervalMs w3)
  let w4 := { armed.2 with syncTimer := some armed.1 }
  fireBackup P d "Initial sync failed:" w4

/-- The callback of the interval timer, run when an armed timer fires. -/
def timerFires (P : Platform ν) (d : Draw) (w : World ν) : World ν :=
  if w.timers.isEmpty then w else fireBackup P d "Auto-sync failed:" w

/-- The method `setSyncInterval(minutes)`; `d` is what the restart draws. -/
def setSyncInterval (P : Platform ν) (minutes : JsVal) (d : Draw) (w : World ν) : World ν :=
  let w1 := { w with config := JsVal.setProp w.config "syncInterval" minutes }
  let w2 := saveConfig P w1
  if (w2.configField "autoSync").truthy then startAutoSync P d w2 else w2

/-- The method `clearConfig()`. -/
def clearConfig (P : Platform ν) (w : World ν) : World ν :=
  let w1 := stopAutoSync P w
  let w2 := w1.removeItem "drime_sync_config"
  { w2 with config := defaultConfig }

/-- A call on the engine, with what it draws from its environment. -/
inductive Call where
  | initializeEngine (apiToken encryptionKey : JsVal)
  | backup (d : Draw)
  | restore (fileId : JsVal)
  | startAutoSync (d : Draw)
  | stopAutoSync
  | setSyncInterval (minutes : JsVal) (d : Draw)
  | clearConfig
  | timerFires (d : Draw)

/-- The world after a call. -/
def perform (P : Platform ν) (w : World ν) : Call → World ν
  | .initializeEngine apiToken encryptionKey => (initializeEngine P apiToken encryptionKey w).2
  | .backup d => (backup P d.salt d.iv d.now1 d.now2 w).2
  | .restore fileId => (restore P fileId w).2
  | .startAutoSync d => startAutoSync P d w
  | .stopAutoSync => stopAutoSync P w
  | .setSyncInterval minutes d => setSyncInterval P minutes d w
  | .clearConfig => clearConfig P w
  | .timerFires d => timerFires P d w

/-- The world after a sequence of calls. -/
def performAll (P : Platform ν) (w : World ν) (calls : List Call) : World ν :=
  calls.foldl (perform P) w

end DrimeSyncCore

/-! ## A remote object store -/

/-- Modelled from the spec: one entry of the remote store (`RemoteEntry`: an
externally assigned id, a name, and the kind folder or file).  The store is the
Drime service, which is no code of this repository. -/
structure RemoteEntry where
  id : Nat
  name : String
  folder : Bool
deriving DecidableEq, Repr

/-- Modelled from the spec: the root of the remote object store with no writer
but this engine: its entries in listing order and the id the next created
entry gets. -/
structure RemoteStore where
  entries : List RemoteEntry
  nextId : Nat
deriving DecidableEq, Repr

namespace RemoteStore

/-- Modelled from the spec: an entry as the listing shows it to the engine,
with the fields `id`, `name` and `type` that `getSyncFolder` reads. -/
def entryJs (e : RemoteEntry) : JsVal :=
  .obj [("id", .num e.id), ("name", .str e.name),
    ("type", .str (if e.folder then "folder" else "file"))]

/-- Modelled from the spec: the JSON value of the answer to `GET /entries`. -/
def listing (s : RemoteStore) : JsVal := .obj [("data", .arr (s.entries.map entryJs))]

/-- Modelled from the spec: the JSON value of the answer to
`POST /entries/folder`, the new folder entry. -/
def created (e : RemoteEntry) : JsVal := .obj [("data", entryJs e)]

/-- A response with status 200 carrying a JSON value as text. -/
def okJson (v : JsVal) : Except JsError Response :=
  .ok ⟨true, 200, "OK", .ok ((Reference.stringify v).getD "")⟩

/-- The name a request body `{name, parent_id}` asks for. -/
def requestedName (body : Option String) : Option String :=
  match body with
  | none => none
  | some text =>
    match Reference.parse text with
    | .ok v =>
      match v.getProp "name" with
      | .ok (.str name) => some name
      | _ => none
    | .error _ => none

/-- Modelled from the spec: the store answering a request (`GET /entries` lists
all entries; `POST /entries/folder {name, parentId}` creates a folder entry and
returns it; every other request is answered 404 here). -/
def fetch (req : Request) (s : RemoteStore) : Except JsError Response × RemoteStore :=
  if req.method = "GET" ∧ req.url = DrimeSyncCore.DRIME_API_BASE ++ "/file-entries" then
    (okJson (listing s), s)
  else if req.method = "POST"
      ∧ req.url = DrimeSyncCore.DRIME_API_BASE ++ "/file-entries/folder" then
    match requestedName req.body with
    | some name =>
        (okJson (created ⟨s.nextId, name, true⟩),
          { entries := s.entries ++ [⟨s.nextId, name, true⟩], nextId := s.nextId + 1 })
    | none => (.ok ⟨false, 422, "Unprocessable Entity", .ok ""⟩, s)
  else (.ok ⟨false, 404, "Not Found", .ok ""⟩, s)

/-- The reference platform over the modelled store. -/
def platform : Platform RemoteStore where
  jsonStringify := Reference.stringify
  jsonParse := Reference.parse
  utf8Encode := Reference.utf8Encode
  utf8Decode := Reference.utf8Decode
  importKey := fun pw => .ok pw
  deriveKey := fun pw salt => .ok (salt ++ pw)
  aesGcmEncrypt := Reference.aesGcmEncrypt
  aesGcmDecrypt := Reference.aesGcmDecrypt
  fetch := fetch
  dateParse := Reference.dateParse

/-- An empty root; the first entry created gets the id 1. -/
def empty : RemoteStore := ⟨[], 1⟩

/-- The folders of the root that carry the name of the sync folder. -/
def syncFolders (s : RemoteStore) : List RemoteEntry :=
  s.entries.filter (fun e => e.name = DrimeSyncCore.SYNC_FOLDER ∧ e.folder = true)

/-- The texts the store sends parse back to the values they stand for: the
listing of the store, and the entry a folder creation would return. -/
def Readable (s : RemoteStore) : Prop :=
  Reference.parse ((Reference.stringify (listing s)).getD "") = .ok (listing s) ∧
  Reference.parse ((Reference.stringify
    (created ⟨s.nextId, DrimeSyncCore.SYNC_FOLDER, true⟩)).getD "")
      = .ok (created ⟨s.nextId, DrimeSyncCore.SYNC_FOLDER, true⟩)

end RemoteStore

namespace DrimeSyncCore

variable {ν : Type}

/-- The results of `n` successive calls of `getSyncFolder()` and the world after them. -/
def getSyncFolderTimes (P : Platform ν) : Nat → World ν → List (Except JsError JsVal) × World ν
  | 0, w => ([], w)
  | n + 1, w =>
      ((getSyncFolder P w).1 :: (getSyncFolderTimes P n (getSyncFolder P w).2).1,
        (getSyncFolderTimes P n (getSyncFolder P w).2).2)

/-- The request `getSyncFolder` lists the root with. -/
def listRequest (w : World ν) : Request :=
  { url := DRIME_API_BASE ++ "/file-entries", method := "GET",
    headers := [authorization w, ("Accept", "application/json")],
    body := none, formFile := none, formParent := none }

/-- The request `getSyncFolder` creates the sync folder with. -/
def createRequest (P : Platform ν) (w : World ν) : Request :=
  { url := DRIME_API_BASE ++ "/file-entries/folder", method := "POST",
    headers := [authorization w, ("Content-Type", "application/json"),
      ("Accept", "application/json")],
    body := some ((P.jsonStringify
      (.obj [("name", .str SYNC_FOLDER), ("parent_id", .null)])).getD "undefined"),
    formFile := none, formParent := none }

/-- The request `downloadFile(fileId)` sends. -/
def downloadRequest (w : World ν) (fileId : JsVal) : Request :=
  { url := DRIME_API_BASE ++ "/file-entries/" ++ fileId.toJsString ++ "/download",
    method := "GET", headers := [authorization w],
    body := none, formFile := none, formParent := none }

/-- A timestamp as `Date.prototype.toISOString` writes it for the years 0 to
9999: `YYYY-MM-DDTHH:mm:ss.sssZ`, every letter a decimal digit. -/
def IsoBasic (t : String) : Prop :=
  ∃ y1 y2 y3 y4 m1 m2 d1 d2 h1 h2 n1 n2 s1 s2 f1 f2 f3 : Char,
    t.toList = [y1, y2, y3, y4, '-', m1, m2, '-', d1, d2, 'T', h1, h2, ':', n1, n2, ':',
      s1, s2, '.', f1, f2, f3, 'Z'] ∧
    ∀ c ∈ [y1, y2, y3, y4, m1, m2, d1, d2, h1, h2, n1, n2, s1, s2, f1, f2, f3],
      c.isDigit = true

/-- A timestamp as `Date.prototype.toISOString` writes it for every other year:
`±YYYYYY-MM-DDTHH:mm:ss.sssZ`. -/
def IsoExpanded (t : String) : Prop :=
  ∃ sg y1 y2 y3 y4 y5 y6 m1 m2 d1 d2 h1 h2 n1 n2 s1 s2 f1 f2 f3 : Char,
    t.toList = [sg, y1, y2, y3, y4, y5, y6, '-', m1, m2, '-', d1, d2, 'T', h1, h2, ':',
      n1, n2, ':', s1, s2, '.', f1, f2, f3, 'Z'] ∧
    (sg = '+' ∨ sg = '-') ∧
    ∀ c ∈ [y1, y2, y3, y4, y5, y6, m1, m2, d1, d2, h1, h2, n1, n2, s1, s2, f1, f2, f3],
      c.isDigit = true

/-- A timestamp in one of the two forms `Date.prototype.toISOString` writes. -/
def IsoTimestamp (t : String) : Prop := IsoBasic t ∨ IsoExpanded t

/-- The file name `backup()` derives from the first clock reading. -/
def backupFilename (now1 : String) : String := "backup-" ++ replaceColonDot now1 ++ ".enc"

/-- The state invariant of automatic sync: `config.autoSync === true` only
with a timer handle stored. -/
def AutoSyncArmed (w : World ν) : Prop :=
  w.configField "autoSync" = .bool true → w.syncTimer.isSome = true

/-- The timers armed are exactly the one whose handle `syncTimer` holds. -/
def TimerConsistent (w : World ν) : Prop :=
  w.timers.map Prod.fst = w.syncTimer.toList

/-- The configuration object has the five fields of the defaults. -/
def HasDefaultFields (config : List (String × JsVal)) : Prop :=
  ∀ key ∈ defaultConfig.map Prod.fst, (JsVal.lookup key config).isSome = true

/-- The configuration object has the five fields of the defaults, under
distinct property names. -/
def ConfigObject (config : List (String × JsVal)) : Prop :=
  HasDefaultFields config ∧ (config.map Prod.fst).Nodup

/-- The value survives `JSON.stringify` followed by `JSON.parse`: the text is
not empty and parses back to the value. -/
def JsonRoundTrips (P : Platform ν) (x : JsVal) : Prop :=
  ∃ text, text ≠ "" ∧ P.jsonStringify x = some text ∧ P.jsonParse text = .ok x

/-- The number of `backup()` invocations the scheduler has issued so far. -/
def backupCalls (w : World ν) : Nat := w.trace.count .backupCall

end DrimeSyncCore

namespace World

variable {ν : Type}

/-- A step that touches nothing but the remote world and the record of calls,
to which it only adds, and no invocation of `backup()` by the scheduler. -/
structure Quiet (w w1 : World ν) : Prop where
  config : w1.config = w.config
  flag : w1.syncInProgress = w.syncInProgress
  syncTimer : w1.syncTimer = w.syncTimer
  localStorage : w1.localStorage = w.localStorage
  timers : w1.timers = w.timers
  timerSeq : w1.timerSeq = w.timerSeq
  trace : w.trace <+: w1.trace
  calls : w1.trace.count .backupCall = w.trace.count .backupCall

/-- A step that arms and cancels no timer, keeps the flag it found, and only
adds to the record of calls, and no invocation of `backup()` by the scheduler. -/
structure Calm (w w1 : World ν) : Prop where
  flag : w1.syncInProgress = w.syncInProgress
  syncTimer : w1.syncTimer = w.syncTimer
  timers : w1.timers = w.timers
  timerSeq : w1.timerSeq = w.timerSeq
  trace : w.trace <+: w1.trace
  calls : w1.trace.count .backupCall = w.trace.count .backupCall

end World

namespace DrimeSyncCore

variable {ν : Type}

/-- The text `saveConfig()` writes for a configuration object. -/
def configText (P : Platform ν) (config : List (String × JsVal)) : String :=
  (P.jsonStringify (.obj (JsVal.setProp config "encryptionKey"
    ((JsVal.lookup "encryptionKey" config).getD .undefined)))).getD "undefined"

/-- The persisted record is the text `saveConfig` writes for the configuration
object in memory. -/
def Persisted (P : Platform ν) (w : World ν) : Prop :=
  w.localStorage "drime_sync_config" = some (configText P w.config)

end DrimeSyncCore

namespace Sample

/-- The envelope `encrypt` returns on the reference platform for `payload` and
the passphrase `pw` when the salt drawn is sixteen bytes 3. -/
def envelope3 : String :=
  "AwMDAwMDAwMDAwMDAwMDAwICAgICAgICAgICAnsidHlwaW5nbWluZF9jaGF0cyI6eyJhIjoxfX1iYmJiYmJiYmJiYmJiYmJi"

end Sample

namespace Sample

/-- A fresh engine over a browser without a persisted record: neither token
nor passphrase is configured; the remote world would accept a backup. -/
def unconfigured : World (List (Except JsError Response)) :=
  DrimeSyncCore.new Reference.platform spacedStore [ok200 rootListing, ok200 "\x7b\x7d"]

/-- An engine over the modelled store with an empty root. -/
def storeWorld : World RemoteStore :=
  DrimeSyncCore.new RemoteStore.platform spacedStore RemoteStore.empty

/-- A root holding a text file and, behind it, the sync folder with id 7. -/
def storeWithFolder : RemoteStore :=
  ⟨[⟨3, "notes.txt", false⟩, ⟨7, "TypingMindBackup", true⟩], 8⟩

end Sample

namespace Sample

/-- An engine over the modelled store with that root. -/
def storeFound : World RemoteStore :=
  DrimeSyncCore.new RemoteStore.platform spacedStore storeWithFolder

end Sample

namespace DrimeSyncCore

variable {ν : Type}

/-- The configuration object `startAutoSync()` saves: `autoSync` set to `true`,
after `stopAutoSync()` set it to `false` when a timer handle was stored. -/
def startConfig (w : World ν) : List (String × JsVal) :=
  JsVal.setProp
    (if w.syncTimer.isSome then JsVal.setProp w.config "autoSync" (.bool false) else w.config)
    "autoSync" (.bool true)

/-- The timers left armed once `stopAutoSync()` cancelled the one whose handle
`syncTimer` holds. -/
def timersAfterStop (w : World ν) : List (Nat × Option Int) :=
  match w.syncTimer with
  | some handle => w.timers.filter (fun t => t.1 != handle)
  | none => w.timers

end DrimeSyncCore

namespace DrimeSyncCore

variable {ν : Type}

/-- A fresh engine constructed over the persisted store of `w`, whatever the
remote world, loads a configuration equal field by field to the one `w` holds
in memory. -/
def Reloads (P : Platform ν) (w : World ν) : Prop :=
  ∀ (remote : ν) (field : String),
    (new P w.localStorage remote).configField field = w.configField field

end DrimeSyncCore

namespace Sample

/-- What one run of `backup()` draws: the salt, the nonce and two clock readings. -/
def draw : DrimeSyncCore.Draw := ⟨salt, iv, "2024-01-01T00:00:00.000Z", "2024-01-01T00:00:01.000Z"⟩

/-- What a later run of `backup()` draws. -/
def laterDraw : DrimeSyncCore.Draw := ⟨salt, iv, "2024-01-01T00:10:00.000Z", "2024-01-01T00:10:01.000Z"⟩

/-- The fresh engine after `startAutoSync()`. -/
def started : World (List (Except JsError Response)) :=
  DrimeSyncCore.startAutoSync Reference.platform draw unconfigured

/-- A second engine, constructed over the store the first one left: the page
was loaded again. -/
def reloaded : World (List (Except JsError Response)) :=
  DrimeSyncCore.new Reference.platform started.localStorage []

end Sample

/-! ## The interval of automatic sync -/

/-- The digit a character stands for in the given radix (10 or 16), if any. -/
def radixDigit (radix : Nat) (c : Char) : Option Nat :=
  if c.isDigit then some (c.toNat - 48)
  else if radix = 16 ∧ 'a'.toNat ≤ c.toNat ∧ c.toNat ≤ 'f'.toNat then some (c.toNat - 87)
  else if radix = 16 ∧ 'A'.toNat ≤ c.toNat ∧ c.toNat ≤ 'F'.toNat then some (c.toNat - 55)
  else none

/-- The leading digits of a text in the given radix. -/
def leadingDigits (radix : Nat) : List Char → List Nat
  | [] => []
  | c :: rest =>
    match radixDigit radix c with
    | some d => d :: leadingDigits radix rest
    | none => []

/-- The global function `parseInt(text)` with no radix given, as the click
handler of the settings dialog applies it to the interval field; `none` for
`NaN`.  Leading white space is dropped, a sign is read, a prefix `0x` or `0X`
selects radix 16, and the longest run of digits is the value, whatever follows
it.  Exact for values up to `2^53`, beyond which a JavaScript number rounds. -/
def parseInt (text : String) : Option Int :=
  let trimmed := text.toList.dropWhile JsVal.isStrWhiteSpace
  let signed : Bool × List Char :=
    match trimmed with
    | '-' :: rest => (true, rest)
    | '+' :: rest => (false, rest)
    | rest => (false, rest)
  let based : Nat × List Char :=
    match signed.2 with
    | '0' :: 'x' :: rest => (16, rest)
    | '0' :: 'X' :: rest => (16, rest)
    | rest => (10, rest)
  let digits := leadingDigits based.1 based.2
  if digits.isEmpty then none
  else
    let value : Int := ((digits.foldl (fun acc d => acc * based.1 + d) 0 : Nat) : Int)
    some (if signed.1 then -value else value)

namespace DrimeSyncCore

variable {ν : Type}

/-- The test that a value is a positive integer. -/
def positiveInteger : JsVal → Bool
  | .num n => decide (0 < n)
  | _ => false

/-- The state property that `config.syncInterval` is a positive integer. -/
def PositiveInterval (w : World ν) : Prop :=
  positiveInteger (w.configField "syncInterval") = true

/-- The argument a call passes for the interval, if it passes one, is a
positive integer. -/
def PositiveArgument : Call → Prop
  | .setSyncInterval minutes _ => positiveInteger minutes = true
  | _ => True

end DrimeSyncCore

/-! ## Base64: decoding inverts encoding -/

namespace Base64

theorem decodeSextet_encodeSextet (n : Nat) (h : n < 64) :
    decodeSextet (encodeSextet n) = some n := by
  have key : ∀ m : Fin 64, decodeSextet (encodeSextet m.val) = some m.val := by decide
  exact key ⟨n, h⟩

theorem encodeSextet_ne_pad (n : Nat) (h : n < 64) : encodeSextet n ≠ '=' := by
  have key : ∀ m : Fin 64, encodeSextet m.val ≠ '=' := by decide
  exact key ⟨n, h⟩

theorem encodeSextet_not_whitespace (n : Nat) (h : n < 64) :
    isAsciiWhitespace (encodeSextet n) = false := by
  have key : ∀ m : Fin 64, isAsciiWhitespace (encodeSextet m.val) = false := by decide
  exact key ⟨n, h⟩

end Base64

namespace Base64

theorem filter_encode (bs : List Byte) :
    (encode bs).filter (fun c => !isAsciiWhitespace c) = encode bs := by
  induction bs using encode.induct with
  | case1 a b c rest ih =>
    have ha := a.isLt; have hb := b.isLt; have hc := c.isLt
    simp only [encode, List.filter_cons, ih,
      encodeSextet_not_whitespace (a.val / 4) (by omega),
      encodeSextet_not_whitespace (a.val % 4 * 16 + b.val / 16) (by omega),
      encodeSextet_not_whitespace (b.val % 16 * 4 + c.val / 64) (by omega),
      encodeSextet_not_whitespace (c.val % 64) (by omega)]
    simp
  | case2 a b =>
    have ha := a.isLt; have hb := b.isLt
    simp only [encode, List.filter_cons,
      encodeSextet_not_whitespace (a.val / 4) (by omega),
      encodeSextet_not_whitespace (a.val % 4 * 16 + b.val / 16) (by omega),
      encodeSextet_not_whitespace (b.val % 16 * 4) (by omega)]
    simp [isAsciiWhitespace]
  | case3 a =>
    have ha := a.isLt
    simp only [encode, List.filter_cons,
      encodeSextet_not_whitespace (a.val / 4) (by omega),
      encodeSextet_not_whitespace (a.val % 4 * 16) (by omega)]
    simp [isAsciiWhitespace]
  | case4 => rfl

theorem length_encode (bs : List Byte) : (encode bs).length % 4 = 0 := by
  induction bs using encode.induct with
  | case1 a b c rest ih => simp only [encode, List.length_cons]; omega
  | case2 a b => simp [encode]
  | case3 a => simp [encode]
  | case4 => rfl

theorem dropPadding_encode (bs : List Byte) : dropPadding (encode bs) = encodeNoPad bs := by
  induction bs using encode.induct with
  | case1 a b c rest ih =>
    have hc := c.isLt
    have h3 := encodeSextet_ne_pad (c.val % 64) (by omega)
    simp only [encode, encodeNoPad]
    cases hrest : encode rest with
    | nil =>
      have : encodeNoPad rest = [] := by rw [← ih, hrest]; rfl
      rw [this]
      simp [dropPadding, h3]
    | cons x xs =>
      have hlen := length_encode rest
      rw [hrest] at hlen
      rw [← ih, hrest]
      cases xs with
      | nil => simp at hlen
      | cons y ys => simp [dropPadding]
  | case2 a b =>
    have hb := b.isLt
    have h2 := encodeSextet_ne_pad (b.val % 16 * 4) (by omega)
    simp [encode, encodeNoPad, dropPadding, h2]
  | case3 a =>
    simp [encode, encodeNoPad, dropPadding]
  | case4 => rfl

theorem length_encodeNoPad (bs : List Byte) : (encodeNoPad bs).length % 4 ≠ 1 := by
  induction bs using encodeNoPad.induct with
  | case1 a b c rest ih => simp only [encodeNoPad, List.length_cons]; omega
  | case2 a b => simp [encodeNoPad]
  | case3 a => simp [encodeNoPad]
  | case4 => simp [encodeNoPad]

theorem decode_encodeNoPad (bs : List Byte) :
    (decodeChars (encodeNoPad bs)).map decodeSextets = some bs := by
  induction bs using encodeNoPad.induct with
  | case1 a b c rest ih =>
    have ha := a.isLt; have hb := b.isLt; have hc := c.isLt
    cases hd : decodeChars (encodeNoPad rest) with
    | none => rw [hd] at ih; simp at ih
    | some vs =>
      rw [hd] at ih
      simp only [Option.map_some', Option.some.injEq] at ih
      simp only [encodeNoPad, decodeChars, hd,
        decodeSextet_encodeSextet (a.val / 4) (by omega),
        decodeSextet_encodeSextet (a.val % 4 * 16 + b.val / 16) (by omega),
        decodeSextet_encodeSextet (b.val % 16 * 4 + c.val / 64) (by omega),
        decodeSextet_encodeSextet (c.val % 64) (by omega),
        Option.map_some', decodeSextets, ih]
      congr 1
      refine List.cons_eq_cons.mpr ⟨?_, List.cons_eq_cons.mpr ⟨?_, List.cons_eq_cons.mpr ⟨?_, rfl⟩⟩⟩
        <;> (apply Fin.ext; simp only [Fin.ofNat, Fin.val_mk]; omega)
  | case2 a b =>
    have ha := a.isLt; have hb := b.isLt
    simp only [encodeNoPad, decodeChars,
      decodeSextet_encodeSextet (a.val / 4) (by omega),
      decodeSextet_encodeSextet (a.val % 4 * 16 + b.val / 16) (by omega),
      decodeSextet_encodeSextet (b.val % 16 * 4) (by omega),
      Option.map_some', decodeSextets]
    congr 1
    refine List.cons_eq_cons.mpr ⟨?_, List.cons_eq_cons.mpr ⟨?_, rfl⟩⟩
      <;> (apply Fin.ext; simp only [Fin.ofNat, Fin.val_mk]; omega)
  | case3 a =>
    have ha := a.isLt
    simp only [encodeNoPad, decodeChars,
      decodeSextet_encodeSextet (a.val / 4) (by omega),
      decodeSextet_encodeSextet (a.val % 4 * 16) (by omega),
      Option.map_some', decodeSextets]
    congr 1
    refine List.cons_eq_cons.mpr ⟨?_, rfl⟩
    apply Fin.ext; simp only [Fin.ofNat, Fin.val_mk]; omega
  | case4 => rfl

theorem decode_encode (bs : List Byte) : decode (encode bs) = some bs := by
  unfold decode
  simp only [filter_encode, length_encode, if_true, dropPadding_encode,
    if_neg (length_encodeNoPad bs), decode_encodeNoPad]

end Base64

/-- Decoding with `atob` the text `btoa` produced gives the bytes back. -/
theorem atob_btoa (bytes : List Byte) : atob (btoa bytes) = some bytes := by
  simp [atob, btoa, Base64.decode_encode]

/-! ## The envelope: decryption inverts encryption -/

theorem slice_salt (salt iv c : List Byte) (hs : salt.length = 16) :
    Uint8Array.slice (salt ++ iv ++ c) 0 16 = salt := by
  simp [Uint8Array.slice, List.append_assoc, List.take_append_eq_append_take, hs]

theorem slice_iv (salt iv c : List Byte) (hs : salt.length = 16) (hi : iv.length = 12) :
    Uint8Array.slice (salt ++ iv ++ c) 16 28 = iv := by
  have h1 : List.drop 16 (salt ++ (iv ++ c)) = iv ++ c := by
    rw [← hs]; exact List.drop_left _ _
  simp [Uint8Array.slice, List.append_assoc, h1, List.take_append_eq_append_take, hi]

theorem drop_header (salt iv c : List Byte) (hs : salt.length = 16) (hi : iv.length = 12) :
    (salt ++ iv ++ c).drop 28 = c := by
  have h : (salt ++ iv).length = 28 := by simp [hs, hi]
  rw [← h]; exact List.drop_left _ _

namespace Reference

theorem length_tag (key iv data : List Byte) : (tag key iv data).length = 16 := by
  simp [tag]

theorem aesGcmDecrypt_encrypt (key iv data : List Byte) :
    aesGcmDecrypt key iv (data ++ tag key iv data) = .ok data := by
  have hl : (data ++ tag key iv data).length - 16 = data.length := by
    simp [length_tag]
  have ht : List.take data.length (data ++ tag key iv data) = data := List.take_left _ _
  have hd : List.drop data.length (data ++ tag key iv data) = tag key iv data :=
    List.drop_left _ _
  unfold aesGcmDecrypt
  rw [hl, ht, hd]
  simp [length_tag]

theorem platform_cryptoCorrect : platform.CryptoCorrect where
  importKey_ok := fun pw => ⟨pw, rfl⟩
  deriveKey_ok := fun k salt => ⟨salt ++ k, rfl⟩
  encrypt_ok := fun key iv data => ⟨data ++ tag key iv data, rfl⟩
  decrypt_encrypt := by
    intro key iv data c h
    have hc : c = data ++ tag key iv data := by
      simp only [platform, aesGcmEncrypt, Except.ok.injEq] at h
      exact h.symm
    subst hc
    exact aesGcmDecrypt_encrypt key iv data

end Reference

namespace DrimeSyncCore

variable {ν : Type}

/-- C1. On a platform whose cipher is correct, for every JSON-serializable payload
`x`, every passphrase and every 16-byte salt and 12-byte nonce drawn, `encrypt`
returns an envelope; the bytes `atob` reads from it are salt, nonce and
ciphertext in this order, which `decrypt` slices out at 0..16, 16..28 and 28..;
and `decrypt` of the envelope under the same passphrase returns `x`. -/
theorem decrypt_encrypt (P : Platform ν) (hP : P.CryptoCorrect) (salt iv : List Byte)
    (hs : salt.length = 16) (hi : iv.length = 12) (x password : JsVal)
    (hx : JsonSerializable P x) :
    ∃ envelope c, encrypt P salt iv x password = .ok envelope ∧
      atob envelope = some (salt ++ iv ++ c) ∧
      Uint8Array.slice (salt ++ iv ++ c) 0 16 = salt ∧
      Uint8Array.slice (salt ++ iv ++ c) 16 28 = iv ∧
      (salt ++ iv ++ c).drop 28 = c ∧
      decrypt P envelope password = .ok x := by
  obtain ⟨text, htext, hutf, hparse⟩ := hx
  obtain ⟨pk, hpk⟩ := hP.importKey_ok (P.utf8Encode (encodeArg password))
  obtain ⟨key, hkey⟩ := hP.deriveKey_ok pk salt
  obtain ⟨c, hc⟩ := hP.encrypt_ok key iv (P.utf8Encode text)
  have hdec := hP.decrypt_encrypt key iv (P.utf8Encode text) c hc
  refine ⟨btoa (salt ++ iv ++ c), c, ?_, atob_btoa _, slice_salt salt iv c hs,
    slice_iv salt iv c hs hi, drop_header salt iv c hs hi, ?_⟩
  · simp [encrypt, htext, hpk, hkey, hc]
  · simp only [decrypt, decryptBody, atob_btoa, slice_salt salt iv c hs,
      slice_iv salt iv c hs hi, drop_header salt iv c hs hi, hpk, hkey, hdec, hutf, hparse]

set_option maxRecDepth 1000000 in
/-- A run of C1 on the reference platform. -/
theorem decrypt_encrypt_witness :
    Reference.platform.CryptoCorrect ∧ Sample.salt.length = 16 ∧ Sample.iv.length = 12 ∧
      JsonSerializable Reference.platform Sample.richPayload ∧
      ∃ envelope,
        encrypt Reference.platform Sample.salt Sample.iv Sample.richPayload (.str "pw")
          = .ok envelope ∧
        decrypt Reference.platform envelope (.str "pw") = .ok Sample.richPayload :=
  have hx : JsonSerializable Reference.platform Sample.richPayload :=
    ⟨_, rfl, by decide, by rfl⟩
  have h := decrypt_encrypt Reference.platform Reference.platform_cryptoCorrect Sample.salt
    Sample.iv (by decide) (by decide) Sample.richPayload (.str "pw") hx
  ⟨Reference.platform_cryptoCorrect, by decide, by decide, hx,
    h.elim fun envelope hc => hc.elim fun _ hall => ⟨envelope, hall.1, hall.2.2.2.2.2⟩⟩

end DrimeSyncCore

/-! ## What the remote calls and the snapshot leave alone -/

namespace World

variable {ν : Type}

theorem SameEngine.refl (w : World ν) : w.SameEngine w := ⟨rfl, rfl, rfl, rfl⟩

theorem SameEngine.trans {w w1 w2 : World ν} (h1 : w.SameEngine w1) (h2 : w1.SameEngine w2) :
    w.SameEngine w2 :=
  ⟨h2.1.trans h1.1, h2.2.1.trans h1.2.1, h2.2.2.1.trans h1.2.2.1, h2.2.2.2.trans h1.2.2.2⟩

theorem sameEngine_log (w : World ν) (e : Event) : w.SameEngine (w.log e) := ⟨rfl, rfl, rfl, rfl⟩

theorem sameEngine_fetch (P : Platform ν) (w : World ν) (req : Request) :
    w.SameEngine (w.fetch P req).2 := ⟨rfl, rfl, rfl, rfl⟩

theorem sameEngine_getItem (w : World ν) (key : String) : w.SameEngine (w.getItem key).2 :=
  ⟨rfl, rfl, rfl, rfl⟩

end World

namespace DrimeSyncCore

variable {ν : Type}

theorem getSyncFolder_sameEngine (P : Platform ν) (w : World ν) :
    w.SameEngine (getSyncFolder P w).2 := by
  unfold getSyncFolder
  simp only []
  repeat' split
  all_goals first
    | exact World.sameEngine_fetch P w _
    | exact (World.sameEngine_fetch P w _).trans (World.sameEngine_fetch P _ _)

theorem uploadFile_sameEngine (P : Platform ν) (folderId : JsVal) (filename content : String)
    (w : World ν) : w.SameEngine (uploadFile P folderId filename content w).2 := by
  unfold uploadFile
  simp only []
  repeat' split
  all_goals exact World.sameEngine_fetch P w _

theorem downloadFile_sameEngine (P : Platform ν) (fileId : JsVal) (w : World ν) :
    w.SameEngine (downloadFile P fileId w).2 := by
  unfold downloadFile
  simp only []
  repeat' split
  all_goals exact World.sameEngine_fetch P w _

theorem listFiles_sameEngine (P : Platform ν) (folderId : JsVal) (w : World ν) :
    w.SameEngine (listFiles P folderId w).2 := by
  unfold listFiles
  simp only []
  repeat' split
  all_goals exact World.sameEngine_fetch P w _

theorem getTypingMindDataStep_sameEngine (P : Platform ν) (acc : List (String × JsVal) × World ν)
    (key : String) : acc.2.SameEngine (getTypingMindDataStep P acc key).2 := by
  unfold getTypingMindDataStep
  simp only []
  repeat' split
  all_goals exact World.sameEngine_getItem _ _

theorem foldl_getTypingMindDataStep_sameEngine (P : Platform ν) (ks : List String)
    (acc : List (String × JsVal) × World ν) :
    acc.2.SameEngine (ks.foldl (getTypingMindDataStep P) acc).2 := by
  induction ks generalizing acc with
  | nil => exact World.SameEngine.refl _
  | cons k ks ih =>
    exact (getTypingMindDataStep_sameEngine P acc k).trans (ih _)

theorem getTypingMindData_sameEngine (P : Platform ν) (w : World ν) :
    w.SameEngine (getTypingMindData P w).2 :=
  foldl_getTypingMindDataStep_sameEngine P keys ([], w)

end DrimeSyncCore

/-! ## Single flight: admission and release of `syncInProgress` -/

namespace DrimeSyncCore

variable {ν : Type}

theorem configField_congr {w w1 : World ν} (h : w1.config = w.config) (field : String) :
    w1.configField field = w.configField field := by
  simp [World.configField, h]

theorem saveConfig_fields (P : Platform ν) (w : World ν) :
    (saveConfig P w).config = w.config ∧ (saveConfig P w).syncInProgress = w.syncInProgress ∧
      (saveConfig P w).syncTimer = w.syncTimer ∧ (saveConfig P w).remote = w.remote :=
  ⟨rfl, rfl, rfl, rfl⟩

theorem restoreTypingMindDataStep_flag (P : Platform ν) (w : World ν) (entry : String × JsVal) :
    (restoreTypingMindDataStep P w entry).syncInProgress = w.syncInProgress ∧
      (restoreTypingMindDataStep P w entry).config = w.config := by
  unfold restoreTypingMindDataStep
  split <;> exact ⟨rfl, rfl⟩

theorem foldl_restoreTypingMindDataStep_flag (P : Platform ν) (entries : List (String × JsVal))
    (w : World ν) :
    (entries.foldl (restoreTypingMindDataStep P) w).syncInProgress = w.syncInProgress ∧
      (entries.foldl (restoreTypingMindDataStep P) w).config = w.config := by
  induction entries generalizing w with
  | nil => exact ⟨rfl, rfl⟩
  | cons entry rest ih =>
    have h := restoreTypingMindDataStep_flag P w entry
    have h2 := ih (restoreTypingMindDataStep P w entry)
    exact ⟨h2.1.trans h.1, h2.2.trans h.2⟩

theorem restoreTypingMindData_flag (P : Platform ν) (data : JsVal) (w : World ν) :
    (restoreTypingMindData P data w).2.syncInProgress = w.syncInProgress := by
  unfold restoreTypingMindData
  split
  · rfl
  · exact (foldl_restoreTypingMindDataStep_flag P _ w).1

theorem backupBody_flag (P : Platform ν) (salt iv : List Byte) (now1 now2 : String)
    (w : World ν) :
    (backupBody P salt iv now1 now2 w).2.syncInProgress = w.syncInProgress := by
  have h1 := (getTypingMindData_sameEngine P w).2.1
  have h2 := (getSyncFolder_sameEngine P ((getTypingMindData P w).2.log .encryptCall)).2.1
  unfold backupBody
  simp only []
  split
  · exact h1
  · split
    · exact h2.trans h1
    · split
      · exact ((uploadFile_sameEngine P _ _ _ _).2.1.trans h2).trans h1
      · exact ((uploadFile_sameEngine P _ _ _ _).2.1.trans h2).trans h1

theorem restoreBody_flag (P : Platform ν) (fileId : JsVal) (w : World ν) :
    (restoreBody P fileId w).2.syncInProgress = w.syncInProgress := by
  have h1 := (downloadFile_sameEngine P fileId w).2.1
  unfold restoreBody
  simp only []
  split
  · exact h1
  · split
    · exact h1
    · split
      · exact (restoreTypingMindData_flag P _ _).trans h1
      · exact (restoreTypingMindData_flag P _ _).trans h1

theorem acquire_eq_ok (w : World ν) (h : w.syncInProgress = false) :
    acquire w = .ok { w with syncInProgress := true } := by
  simp [acquire, h]

theorem acquire_eq_error (w : World ν) (h : w.syncInProgress = true) :
    acquire w = .error alreadyInProgress := by
  simp [acquire, h]

theorem backup_flag (P : Platform ν) (salt iv : List Byte) (now1 now2 : String) (w : World ν)
    (h : w.syncInProgress = false) :
    (backup P salt iv now1 now2 w).2.syncInProgress = false := by
  unfold backup
  rw [acquire_eq_ok w h]
  simp only []
  split <;> rfl

theorem restore_flag (P : Platform ν) (fileId : JsVal) (w : World ν)
    (h : w.syncInProgress = false) : (restore P fileId w).2.syncInProgress = false := by
  unfold restore
  rw [acquire_eq_ok w h]
  simp only []
  split <;> rfl

end DrimeSyncCore

namespace Session

variable {ν : Type}

theorem Step.preserves_single_flight {s t : Session ν} (h : Step s t)
    (hs : s.inFlight.length ≤ 1 ∧ (s.world.syncInProgress = true ↔ s.inFlight ≠ [])) :
    t.inFlight.length ≤ 1 ∧ (t.world.syncInProgress = true ↔ t.inFlight ≠ []) := by
  obtain ⟨hlen, hflag⟩ := hs
  cases h with
  | call op w0 hadm =>
    unfold DrimeSyncCore.acquire at hadm
    split at hadm
    · cases hadm
    · rename_i hf
      have hnil : s.inFlight = [] := by
        by_contra hne
        exact hf (hflag.mpr hne)
      cases hadm
      simp [hnil]
  | rejected op e hadm => exact ⟨hlen, hflag⟩
  | run w1 hw => exact ⟨hlen, by simpa [hw] using hflag⟩
  | settle op hmem =>
    have hone : s.inFlight = [op] := by
      match hl : s.inFlight, hmem, hlen with
      | [x], hm, _ => simp at hm; simp [hm]
      | _ :: _ :: _, _, hlen => simp at hlen
    simp [hone, DrimeSyncCore.release]

theorem Reachable.single_flight {s : Session ν} (h : s.Reachable) :
    s.inFlight.length ≤ 1 ∧ (s.world.syncInProgress = true ↔ s.inFlight ≠ []) := by
  induction h with
  | init w hw => simp [hw]
  | step s t _ hstep ih => exact hstep.preserves_single_flight ih

end Session

namespace DrimeSyncCore

variable {ν : Type}

theorem steps_of_body (op : Op) (w wb : World ν) (h : w.syncInProgress = false)
    (hb : wb.syncInProgress = true) :
    Relation.ReflTransGen Session.Step ⟨w, []⟩ ⟨release wb, []⟩ := by
  have s1 : Session.Step ⟨w, []⟩ ⟨{ w with syncInProgress := true }, [op]⟩ :=
    Session.Step.call ⟨w, []⟩ op _ (acquire_eq_ok w h)
  have s2 : Session.Step ⟨{ w with syncInProgress := true }, [op]⟩ ⟨wb, [op]⟩ :=
    Session.Step.run ⟨{ w with syncInProgress := true }, [op]⟩ wb hb
  have s3 : Session.Step ⟨wb, [op]⟩ ⟨release wb, [op].erase op⟩ :=
    Session.Step.settle ⟨wb, [op]⟩ op (List.mem_singleton.mpr rfl)
  have he : [op].erase op = [] := by simp
  rw [he] at s3
  exact ((Relation.ReflTransGen.single s1).tail s2).tail s3

theorem backup_steps (P : Platform ν) (salt iv : List Byte) (now1 now2 : String) (w : World ν)
    (h : w.syncInProgress = false) :
    Relation.ReflTransGen Session.Step ⟨w, []⟩ ⟨(backup P salt iv now1 now2 w).2, []⟩ := by
  have hb := backupBody_flag P salt iv now1 now2 { w with syncInProgress := true }
  unfold backup
  rw [acquire_eq_ok w h]
  simp only []
  split
  · exact steps_of_body .backup w _ h hb
  · exact steps_of_body .backup w _ h hb

theorem restore_steps (P : Platform ν) (fileId : JsVal) (w : World ν)
    (h : w.syncInProgress = false) :
    Relation.ReflTransGen Session.Step ⟨w, []⟩ ⟨(restore P fileId w).2, []⟩ := by
  have hb := restoreBody_flag P fileId { w with syncInProgress := true }
  unfold restore
  rw [acquire_eq_ok w h]
  simp only []
  split
  · exact steps_of_body .restore w _ h hb
  · exact steps_of_body .restore w _ h hb

/-- C3. While `syncInProgress` is true, `backup()` and `restore(id)` throw the
error `Sync already in progress` and return the world as it was: configuration,
`localStorage` (the persisted configuration included), remote world, flag and
the record of calls issued are all unchanged. -/
theorem rejected_while_in_progress (P : Platform ν) (salt iv : List Byte) (now1 now2 : String)
    (fileId : JsVal) (w : World ν) (h : w.syncInProgress = true) :
    backup P salt iv now1 now2 w = (.error alreadyInProgress, w) ∧
      restore P fileId w = (.error alreadyInProgress, w) ∧
      alreadyInProgress = ⟨"Error", "Sync already in progress"⟩ ∧
      (backup P salt iv now1 now2 w).2.trace = w.trace ∧
      (restore P fileId w).2.trace = w.trace ∧
      (backup P salt iv now1 now2 w).2.syncInProgress = true ∧
      (restore P fileId w).2.syncInProgress = true := by
  have hb : backup P salt iv now1 now2 w = (.error alreadyInProgress, w) := by
    unfold backup; rw [acquire_eq_error w h]
  have hr : restore P fileId w = (.error alreadyInProgress, w) := by
    unfold restore; rw [acquire_eq_error w h]
  refine ⟨hb, hr, rfl, ?_, ?_, ?_, ?_⟩
  · rw [hb]
  · rw [hr]
  · rw [hb]; exact h
  · rw [hr]; exact h

/-- C4. An admitted `backup()` or `restore(id)` ends with `syncInProgress` false
whatever its steps return; the `try` blocks never assign the flag; an atomic run
is a path of the interleaved engine; and in every state that engine reaches at
most one operation is in flight, the flag being true exactly then. -/
theorem flag_released (P : Platform ν) :
    (∀ salt iv now1 now2 (w : World ν), w.syncInProgress = false →
      (backup P salt iv now1 now2 w).2.syncInProgress = false ∧
      Relation.ReflTransGen Session.Step ⟨w, []⟩ ⟨(backup P salt iv now1 now2 w).2, []⟩) ∧
    (∀ fileId (w : World ν), w.syncInProgress = false →
      (restore P fileId w).2.syncInProgress = false ∧
      Relation.ReflTransGen Session.Step ⟨w, []⟩ ⟨(restore P fileId w).2, []⟩) ∧
    (∀ salt iv now1 now2 (w : World ν),
      (backupBody P salt iv now1 now2 w).2.syncInProgress = w.syncInProgress) ∧
    (∀ fileId (w : World ν), (restoreBody P fileId w).2.syncInProgress = w.syncInProgress) ∧
    (∀ s : Session ν, s.Reachable →
      s.inFlight.length ≤ 1 ∧ (s.world.syncInProgress = true ↔ s.inFlight ≠ [])) :=
  ⟨fun salt iv now1 now2 w h =>
      ⟨backup_flag P salt iv now1 now2 w h, backup_steps P salt iv now1 now2 w h⟩,
    fun fileId w h => ⟨restore_flag P fileId w h, restore_steps P fileId w h⟩,
    backupBody_flag P, restoreBody_flag P, fun _ hs => hs.single_flight⟩

end DrimeSyncCore

/-! ## A failed backup commits nothing; a failed restore writes nothing -/

namespace DrimeSyncCore

variable {ν : Type}

theorem backup_of_idle (P : Platform ν) (salt iv : List Byte) (now1 now2 : String)
    (w : World ν) (h : w.syncInProgress = false) :
    backup P salt iv now1 now2 w =
      match (backupBody P salt iv now1 now2 { w with syncInProgress := true }).1 with
      | .ok result =>
          (.ok result, release (backupBody P salt iv now1 now2 { w with syncInProgress := true }).2)
      | .error e =>
          (.error e, release ((backupBody P salt iv now1 now2
            { w with syncInProgress := true }).2.log (.consoleError "Backup failed:" e))) := by
  unfold backup
  rw [acquire_eq_ok w h]

theorem restore_of_idle (P : Platform ν) (fileId : JsVal) (w : World ν)
    (h : w.syncInProgress = false) :
    restore P fileId w =
      match (restoreBody P fileId { w with syncInProgress := true }).1 with
      | .ok result => (.ok result, release (restoreBody P fileId { w with syncInProgress := true }).2)
      | .error e =>
          (.error e, release ((restoreBody P fileId
            { w with syncInProgress := true }).2.log (.consoleError "Restore failed:" e))) := by
  unfold restore
  rw [acquire_eq_ok w h]

/-- C5. In an admitted `backup()`: when encryption, `getSyncFolder` or
`uploadFile` fails, the call fails with that very error and the configuration
object and `localStorage` (hence the persisted record) are what they were; when
the call fails, one of these steps failed with the error returned; and when it
succeeds, `lastSync` holds the second clock reading and the record was saved. -/
theorem backup_failure_commits_nothing (P : Platform ν) (salt iv : List Byte)
    (now1 now2 : String) (w : World ν) (hadm : w.syncInProgress = false) :
    let w0 : World ν := { w with syncInProgress := true }
    let snapshot := getTypingMindData P w0
    let w1 := snapshot.2.log .encryptCall
    let encrypted := encrypt P salt iv snapshot.1 (w.configField "encryptionKey")
    let folder := getSyncFolder P w1
    let filename := "backup-" ++ replaceColonDot now1 ++ ".enc"
    let r := backup P salt iv now1 now2 w
    (∀ e, encrypted = .error e →
      r.1 = .error e ∧ r.2.config = w.config ∧ r.2.localStorage = w.localStorage) ∧
    (∀ enc e, encrypted = .ok enc → folder.1 = .error e →
      r.1 = .error e ∧ r.2.config = w.config ∧ r.2.localStorage = w.localStorage) ∧
    (∀ enc folderId e, encrypted = .ok enc → folder.1 = .ok folderId →
      (uploadFile P folderId filename enc folder.2).1 = .error e →
      r.1 = .error e ∧ r.2.config = w.config ∧ r.2.localStorage = w.localStorage) ∧
    (∀ e, r.1 = .error e →
      encrypted = .error e ∨ (∃ enc, encrypted = .ok enc ∧ folder.1 = .error e) ∨
        ∃ enc folderId, encrypted = .ok enc ∧ folder.1 = .ok folderId ∧
          (uploadFile P folderId filename enc folder.2).1 = .error e) ∧
    (∀ result, r.1 = .ok result →
      r.2.config = JsVal.setProp w.config "lastSync" (.str now2) ∧
      r.2.localStorage = w.localStorage.setItem "drime_sync_config"
        ((P.jsonStringify (.obj (JsVal.setProp (JsVal.setProp w.config "lastSync" (.str now2))
          "encryptionKey" ((JsVal.lookup "encryptionKey"
            (JsVal.setProp w.config "lastSync" (.str now2))).getD .undefined)))).getD
          "undefined")) := by
  intro w0 snapshot w1 encrypted folder filename r
  have hsnap : w0.SameEngine snapshot.2 := getTypingMindData_sameEngine P w0
  have hw1 : w0.SameEngine w1 := hsnap.trans (World.sameEngine_log _ _)
  have hfold : w0.SameEngine folder.2 := hw1.trans (getSyncFolder_sameEngine P w1)
  have hkey : w1.configField "encryptionKey" = w.configField "encryptionKey" :=
    configField_congr hw1.1 _
  have hr : r = backup P salt iv now1 now2 w := rfl
  rw [backup_of_idle P salt iv now1 now2 w hadm] at hr
  have hbody : backupBody P salt iv now1 now2 w0 =
      match encrypted with
      | .error e => (.error e, w1)
      | .ok enc =>
        match folder.1 with
        | .error e => (.error e, folder.2)
        | .ok folderId =>
          match (uploadFile P folderId filename enc folder.2).1 with
          | .error e => (.error e, (uploadFile P folderId filename enc folder.2).2)
          | .ok _ =>
            (.ok (.obj [("success", .bool true),
                ("timestamp", (saveConfig P { (uploadFile P folderId filename enc folder.2).2 with
                  config := JsVal.setProp (uploadFile P folderId filename enc folder.2).2.config
                    "lastSync" (.str now2) }).configField "lastSync"),
                ("filename", .str filename)]),
              saveConfig P { (uploadFile P folderId filename enc folder.2).2 with
                config := JsVal.setProp (uploadFile P folderId filename enc folder.2).2.config
                  "lastSync" (.str now2) }) := by
    show backupBody P salt iv now1 now2 w0 = _
    unfold backupBody
    simp only []
    rw [show encrypt P salt iv (getTypingMindData P w0).1
        (((getTypingMindData P w0).2.log .encryptCall).configField "encryptionKey") = encrypted
      from by rw [show ((getTypingMindData P w0).2.log .encryptCall) = w1 from rfl, hkey]]
  cases henc : encrypted with
  | error e0 =>
    rw [henc] at hbody
    simp only [] at hbody
    rw [hbody] at hr
    simp only [] at hr
    refine ⟨?_, ?_, ?_, ?_, ?_⟩
    · intro e he
      cases he
      rw [hr]
      exact ⟨rfl, hw1.1, hw1.2.2.2⟩
    · intro enc e he; cases he
    · intro enc folderId e he; cases he
    · intro e he
      rw [hr] at he
      exact Or.inl (by simpa using he)
    · intro result he
      rw [hr] at he
      cases he
  | ok enc0 =>
    rw [henc] at hbody
    simp only [] at hbody
    cases hf : folder.1 with
    | error e0 =>
      rw [hf] at hbody
      simp only [] at hbody
      rw [hbody] at hr
      simp only [] at hr
      refine ⟨?_, ?_, ?_, ?_, ?_⟩
      · intro e he; cases he
      · intro enc e he hfe
        cases hfe
        rw [hr]
        exact ⟨rfl, hfold.1, hfold.2.2.2⟩
      · intro enc folderId e he hfe; cases hfe
      · intro e he
        rw [hr] at he
        exact Or.inr (Or.inl ⟨enc0, rfl, he⟩)
      · intro result he
        rw [hr] at he
        cases he
    | ok folderId0 =>
      rw [hf] at hbody
      simp only [] at hbody
      have hup : w0.SameEngine (uploadFile P folderId0 filename enc0 folder.2).2 :=
        hfold.trans (uploadFile_sameEngine P _ _ _ _)
      cases hu : (uploadFile P folderId0 filename enc0 folder.2).1 with
      | error e0 =>
        rw [hu] at hbody
        simp only [] at hbody
        rw [hbody] at hr
        simp only [] at hr
        refine ⟨?_, ?_, ?_, ?_, ?_⟩
        · intro e he; cases he
        · intro enc e he hfe; cases hfe
        · intro enc folderId e he hfe hue
          cases he; cases hfe
          rw [hu] at hue
          cases hue
          rw [hr]
          exact ⟨rfl, hup.1, hup.2.2.2⟩
        · intro e he
          rw [hr] at he
          exact Or.inr (Or.inr ⟨enc0, folderId0, rfl, rfl, by rw [hu]; exact he⟩)
        · intro result he
          rw [hr] at he
          cases he
      | ok uploaded =>
        rw [hu] at hbody
        simp only [] at hbody
        rw [hbody] at hr
        simp only [] at hr
        refine ⟨?_, ?_, ?_, ?_, ?_⟩
        · intro e he; cases he
        · intro enc e he hfe; cases hfe
        · intro enc folderId e he hfe hue
          cases he; cases hfe
          rw [hu] at hue
          cases hue
        · intro e he
          rw [hr] at he
          cases he
        · intro result _
          rw [hr]
          have hc : (uploadFile P folderId0 filename enc0 folder.2).2.config = w.config := hup.1
          have hl : (uploadFile P folderId0 filename enc0 folder.2).2.localStorage
              = w.localStorage := hup.2.2.2
          simp [release, saveConfig, World.setItem, World.configField, hc, hl]

end DrimeSyncCore

/-! ## Restoring a payload, section by section -/

namespace DrimeSyncCore

variable {ν : Type}

theorem lookup_eq_none_of_not_mem (key : String) (props : List (String × JsVal))
    (h : key ∉ props.map Prod.fst) : JsVal.lookup key props = none := by
  induction props with
  | nil => rfl
  | cons p rest ih =>
    obtain ⟨k, v⟩ := p
    simp only [List.map_cons, List.mem_cons, not_or] at h
    simp only [JsVal.lookup]
    rw [if_neg (fun hk => h.1 hk.symm)]
    exact ih h.2

theorem foldl_restore_localStorage (P : Platform ν) (entries : List (String × JsVal))
    (hnd : (entries.map Prod.fst).Nodup) (w : World ν) (key : String) :
    (entries.foldl (restoreTypingMindDataStep P) w).localStorage key =
      match JsVal.lookup key entries with
      | some v => if v.isNullish then w.localStorage key else some (stringValue P v)
      | none => w.localStorage key := by
  induction entries generalizing w with
  | nil => rfl
  | cons p rest ih =>
    obtain ⟨k, v⟩ := p
    simp only [List.map_cons, List.nodup_cons] at hnd
    simp only [List.foldl_cons]
    rw [ih hnd.2]
    simp only [JsVal.lookup]
    by_cases hk : k = key
    · subst hk
      rw [lookup_eq_none_of_not_mem k rest hnd.1]
      simp only [if_true]
      unfold restoreTypingMindDataStep
      cases hv : v.isNullish <;> simp [World.setItem, Storage.setItem]
    · rw [if_neg hk]
      have hsame : (restoreTypingMindDataStep P w (k, v)).localStorage key = w.localStorage key := by
        unfold restoreTypingMindDataStep
        split
        · simp [World.setItem, Storage.setItem, Ne.symm hk]
        · rfl
      rw [hsame]

/-- C7. For a payload that is a mapping (an object, its property names distinct),
`restoreTypingMindData` returns normally and leaves every key that the payload
lacks, or maps to `null` or `undefined`, holding what it held; a key mapped to
any other value `v` holds `v` itself when `v` is a string and `JSON.stringify(v)`
otherwise. -/
theorem restore_payload_frame (P : Platform ν) (props : List (String × JsVal))
    (hnd : (props.map Prod.fst).Nodup) (w : World ν) (key : String) :
    (restoreTypingMindData P (.obj props) w).1 = .ok () ∧
    (JsVal.lookup key props = none →
      (restoreTypingMindData P (.obj props) w).2.localStorage key = w.localStorage key) ∧
    (∀ v, JsVal.lookup key props = some v → v.isNullish = true →
      (restoreTypingMindData P (.obj props) w).2.localStorage key = w.localStorage key) ∧
    (∀ s, JsVal.lookup key props = some (.str s) →
      (restoreTypingMindData P (.obj props) w).2.localStorage key = some s) ∧
    (∀ v, JsVal.lookup key props = some v → v.isNullish = false → (∀ s, v ≠ .str s) →
      (restoreTypingMindData P (.obj props) w).2.localStorage key
        = some ((P.jsonStringify v).getD "undefined")) := by
  have h := foldl_restore_localStorage P props hnd w key
  have hr : (restoreTypingMindData P (.obj props) w)
      = (.ok (), props.foldl (restoreTypingMindDataStep P) w) := rfl
  rw [hr]
  refine ⟨rfl, ?_, ?_, ?_, ?_⟩
  · intro hl
    rw [hl] at h
    exact h
  · intro v hl hv
    rw [hl] at h
    simpa [hv] using h
  · intro s hl
    rw [hl] at h
    simpa [JsVal.isNullish, stringValue] using h
  · intro v hl hv hns
    rw [hl] at h
    have hsv : stringValue P v = (P.jsonStringify v).getD "undefined" := by
      cases v <;> first | rfl | exact absurd rfl (hns _)
    simpa [hv, hsv] using h

end DrimeSyncCore

/-! ## Snapshot and restore of the local sections -/

namespace DrimeSyncCore

variable {ν : Type}

/-- C2, refuted as stated: a chats section holding `{"a": 1}` (a JSON document
with a space) holds `{"a":1}` after the snapshot was captured and applied. -/
theorem snapshot_roundtrip_not_bytewise :
    (Sample.world Sample.spacedStore []).localStorage "typingmind_chats" = some "\x7b\"a\": 1\x7d" ∧
    (snapshotRoundTrip Reference.platform (Sample.world Sample.spacedStore [])).localStorage
      "typingmind_chats" = some "\x7b\"a\":1\x7d" ∧
    (snapshotRoundTrip Reference.platform (Sample.world Sample.spacedStore [])).localStorage
      "typingmind_chats" ≠ (Sample.world Sample.spacedStore []).localStorage "typingmind_chats" := by
  refine ⟨by decide, by decide, by decide⟩

end DrimeSyncCore

namespace DrimeSyncCore

variable {ν : Type}

theorem getTypingMindDataStep_eq (P : Platform ν) (acc : List (String × JsVal) × World ν)
    (key : String) :
    getTypingMindDataStep P acc key =
      (match captured P (acc.2.localStorage key) with
        | none => acc.1
        | some v => JsVal.setProp acc.1 key v,
       acc.2.log (.storageGet key)) := by
  unfold getTypingMindDataStep captured World.getItem
  simp only []
  cases acc.2.localStorage key with
  | none => rfl
  | some value =>
    simp only []
    by_cases hv : value = ""
    · simp [hv]
    · simp only [if_neg hv]
      cases P.jsonParse value <;> rfl

theorem setProp_fresh (props : List (String × JsVal)) (key : String) (v : JsVal)
    (hfresh : key ∉ props.map Prod.fst) (hidx : JsVal.arrayIndex? key = none) :
    JsVal.setProp props key v = props ++ [(key, v)] := by
  unfold JsVal.setProp
  rw [lookup_eq_none_of_not_mem key props hfresh, hidx]
  rfl

theorem foldl_getTypingMindDataStep (P : Platform ν) (ks : List String)
    (acc : List (String × JsVal) × World ν)
    (hidx : ∀ k ∈ ks, JsVal.arrayIndex? k = none) (hnd : ks.Nodup)
    (hfresh : ∀ k ∈ ks, k ∉ acc.1.map Prod.fst) :
    (ks.foldl (getTypingMindDataStep P) acc).1 =
      acc.1 ++ ks.filterMap (fun k => (captured P (acc.2.localStorage k)).map (Prod.mk k)) := by
  induction ks generalizing acc with
  | nil => simp
  | cons k ks ih =>
    simp only [List.foldl_cons]
    have hk := hfresh k (List.mem_cons_self _ _)
    have hkidx := hidx k (List.mem_cons_self _ _)
    simp only [List.nodup_cons] at hnd
    have hstep := getTypingMindDataStep_eq P acc k
    have hls : (getTypingMindDataStep P acc k).2.localStorage = acc.2.localStorage :=
      (getTypingMindDataStep_sameEngine P acc k).2.2.2
    rw [ih (getTypingMindDataStep P acc k) (fun k' hk' => hidx k' (List.mem_cons_of_mem _ hk'))
      hnd.2 ?_, hls]
    · rw [hstep]
      cases hc : captured P (acc.2.localStorage k) with
      | none => simp [List.filterMap_cons, hc]
      | some v => simp [List.filterMap_cons, hc, setProp_fresh acc.1 k v hk hkidx]
    · intro k' hk'
      rw [hstep]
      have hne : k' ≠ k := fun h => hnd.1 (h ▸ hk')
      have hf := hfresh k' (List.mem_cons_of_mem _ hk')
      cases hc : captured P (acc.2.localStorage k) with
      | none => simpa using hf
      | some v =>
        simp only [setProp_fresh acc.1 k v hk hkidx, List.map_append, List.map_cons,
          List.map_nil, List.mem_append, List.mem_singleton, not_or]
        exact ⟨hf, hne⟩

theorem lookup_filterMap (f : String → Option JsVal) (ks : List String) (key : String) :
    JsVal.lookup key (ks.filterMap (fun k => (f k).map (Prod.mk k))) =
      if key ∈ ks then f key else none := by
  induction ks with
  | nil => rfl
  | cons k ks ih =>
    simp only [List.filterMap_cons]
    by_cases hk : k = key
    · subst hk
      cases hf : f k with
      | none =>
        simp only [Option.map_none', ih, List.mem_cons, true_or, if_true]
        split <;> simp [hf]
      | some v => simp [JsVal.lookup]
    · have hmem : (key ∈ k :: ks) ↔ key ∈ ks := by
        simp [List.mem_cons, Ne.symm hk]
      cases hf : f k with
      | none => simp only [Option.map_none', ih, hmem]
      | some v => simp only [Option.map_some', JsVal.lookup, if_neg hk, ih, hmem]

theorem nodup_keys_filterMap (f : String → Option JsVal) (ks : List String) (hnd : ks.Nodup) :
    ((ks.filterMap (fun k => (f k).map (Prod.mk k))).map Prod.fst).Nodup := by
  have hsub : ((ks.filterMap (fun k => (f k).map (Prod.mk k))).map Prod.fst).Sublist ks := by
    induction ks with
    | nil => simp
    | cons k ks ih =>
      simp only [List.filterMap_cons]
      cases hf : f k with
      | none => exact (ih (List.nodup_cons.mp hnd).2).cons _
      | some v => exact (ih (List.nodup_cons.mp hnd).2).cons₂ _
  exact hsub.nodup hnd

theorem keys_nodup : keys.Nodup := by decide

theorem keys_not_index : ∀ k ∈ keys, JsVal.arrayIndex? k = none := by decide

theorem getTypingMindData_data (P : Platform ν) (w : World ν) :
    (getTypingMindData P w).1 =
      .obj (keys.filterMap (fun k => (captured P (w.localStorage k)).map (Prod.mk k))) := by
  unfold getTypingMindData
  simp only []
  rw [foldl_getTypingMindDataStep P keys ([], w) keys_not_index keys_nodup (by simp)]
  simp

theorem snapshotRoundTrip_localStorage (P : Platform ν) (w : World ν) (key : String)
    (hkey : key ∈ keys) :
    (snapshotRoundTrip P w).localStorage key =
      match captured P (w.localStorage key) with
      | some v => if v.isNullish then w.localStorage key else some (stringValue P v)
      | none => w.localStorage key := by
  have hls : (getTypingMindData P w).2.localStorage = w.localStorage :=
    (getTypingMindData_sameEngine P w).2.2.2
  unfold snapshotRoundTrip
  rw [getTypingMindData_data]
  show (List.foldl (restoreTypingMindDataStep P) (getTypingMindData P w).2 _).localStorage key = _
  rw [foldl_restore_localStorage P _ (nodup_keys_filterMap _ keys keys_nodup), lookup_filterMap,
    if_pos hkey, hls]

end DrimeSyncCore

namespace DrimeSyncCore

variable {ν : Type}

/-- C2, amended. Capturing the snapshot and applying it leaves each of the five
sections holding the string it held when that string is absent, empty, not
parseable as JSON, or JSON for `null`; a section holding a JSON document whose
value `v` is an object, array, number or boolean holds `JSON.stringify(v)`
afterwards, which is the same string exactly when the document was written the
way `JSON.stringify` writes it. -/
theorem snapshot_roundtrip_sections (P : Platform ν) (w : World ν) (key : String)
    (hkey : key ∈ keys) :
    (w.localStorage key = none → (snapshotRoundTrip P w).localStorage key = none) ∧
    (w.localStorage key = some "" → (snapshotRoundTrip P w).localStorage key = some "") ∧
    (∀ s e, w.localStorage key = some s → s ≠ "" → P.jsonParse s = .error e →
      (snapshotRoundTrip P w).localStorage key = some s) ∧
    (∀ s v, w.localStorage key = some s → s ≠ "" → P.jsonParse s = .ok v →
      v.isNullish = true → (snapshotRoundTrip P w).localStorage key = some s) ∧
    (∀ s v, w.localStorage key = some s → s ≠ "" → P.jsonParse s = .ok v →
      v.isNullish = false → (∀ t, v ≠ .str t) →
      (snapshotRoundTrip P w).localStorage key = some ((P.jsonStringify v).getD "undefined") ∧
      ((snapshotRoundTrip P w).localStorage key = some s ↔
        (P.jsonStringify v).getD "undefined" = s)) := by
  have h := snapshotRoundTrip_localStorage P w key hkey
  refine ⟨?_, ?_, ?_, ?_, ?_⟩
  · intro hs
    rw [hs] at h
    rw [h]; rfl
  · intro hs
    rw [hs] at h
    rw [h]; rfl
  · intro s e hs hne hp
    rw [hs] at h
    rw [h]
    simp [captured, hne, hp, JsVal.isNullish, stringValue]
  · intro s v hs hne hp hv
    rw [hs] at h
    rw [h]
    simp [captured, hne, hp, hv]
  · intro s v hs hne hp hv hns
    rw [hs] at h
    have hsv : stringValue P v = (P.jsonStringify v).getD "undefined" := by
      cases v <;> first | rfl | exact absurd rfl (hns _)
    have hafter : (snapshotRoundTrip P w).localStorage key
        = some ((P.jsonStringify v).getD "undefined") := by
      rw [h]
      simp [captured, hne, hp, hv, hsv]
    exact ⟨hafter, by rw [hafter]; simp⟩

/-- C6. In an admitted `restore(id)`: when the download fails, or when it succeeds
and `decrypt` fails, the call fails with that error and `localStorage` is what it
was; so `localStorage` differs after the call only if `decrypt` returned a
payload. -/
theorem restore_failure_writes_nothing (P : Platform ν) (fileId : JsVal) (w : World ν)
    (hadm : w.syncInProgress = false) :
    let w0 : World ν := { w with syncInProgress := true }
    let downloaded := downloadFile P fileId w0
    let r := restore P fileId w
    (∀ e, downloaded.1 = .error e → r.1 = .error e ∧ r.2.localStorage = w.localStorage) ∧
    (∀ enc e, downloaded.1 = .ok enc →
      decrypt P enc (w.configField "encryptionKey") = .error e →
      r.1 = .error e ∧ e = decryptionFailed ∧ r.2.localStorage = w.localStorage) ∧
    (r.2.localStorage ≠ w.localStorage →
      ∃ enc data, downloaded.1 = .ok enc ∧
        decrypt P enc (w.configField "encryptionKey") = .ok data) := by
  intro w0 downloaded r
  have hdl : w0.SameEngine downloaded.2 := downloadFile_sameEngine P fileId w0
  have hw1 : w0.SameEngine (downloaded.2.log .decryptCall) :=
    hdl.trans (World.sameEngine_log _ _)
  have hkey : (downloaded.2.log .decryptCall).configField "encryptionKey"
      = w.configField "encryptionKey" := configField_congr hw1.1 _
  have hr : r = restore P fileId w := rfl
  rw [restore_of_idle P fileId w hadm] at hr
  have hbody : restoreBody P fileId w0 =
      match downloaded.1 with
      | .error e => (.error e, downloaded.2)
      | .ok enc =>
        match decrypt P enc (w.configField "encryptionKey") with
        | .error e => (.error e, downloaded.2.log .decryptCall)
        | .ok data =>
          match (restoreTypingMindData P data (downloaded.2.log .decryptCall)).1 with
          | .error e => (.error e, (restoreTypingMindData P data (downloaded.2.log .decryptCall)).2)
          | .ok _ => (.ok (.obj [("success", .bool true)]),
              (restoreTypingMindData P data (downloaded.2.log .decryptCall)).2) := by
    show restoreBody P fileId w0 = _
    unfold restoreBody
    simp only []
    rw [hkey]
  cases hd : downloaded.1 with
  | error e0 =>
    rw [hd] at hbody
    simp only [] at hbody
    rw [hbody] at hr
    simp only [] at hr
    refine ⟨?_, ?_, ?_⟩
    · intro e he
      cases he
      rw [hr]
      exact ⟨rfl, hdl.2.2.2⟩
    · intro enc e he; cases he
    · intro hne
      rw [hr] at hne
      exact absurd hdl.2.2.2 hne
  | ok enc0 =>
    rw [hd] at hbody
    simp only [] at hbody
    cases hdec : decrypt P enc0 (w.configField "encryptionKey") with
    | error e0 =>
      rw [hdec] at hbody
      simp only [] at hbody
      rw [hbody] at hr
      simp only [] at hr
      have he0 : e0 = decryptionFailed := by
        unfold decrypt at hdec
        split at hdec
        · cases hdec
        · cases hdec; rfl
      refine ⟨?_, ?_, ?_⟩
      · intro e he; cases he
      · intro enc e he hde
        cases he
        rw [hdec] at hde
        cases hde
        rw [hr]
        exact ⟨rfl, he0, hw1.2.2.2⟩
      · intro hne
        rw [hr] at hne
        exact absurd hw1.2.2.2 hne
    | ok data0 =>
      refine ⟨?_, ?_, ?_⟩
      · intro e he; cases he
      · intro enc e he hde
        cases he
        rw [hdec] at hde
        cases hde
      · intro _
        exact ⟨enc0, data0, rfl, hdec⟩

end DrimeSyncCore

/-! ## One error for every decryption failure -/

namespace DrimeSyncCore

variable {ν : Type}

theorem decrypt_of_body_error (P : Platform ν) (envelope : String) (password : JsVal)
    (e : JsError) (h : decryptBody P envelope password = .error e) :
    decrypt P envelope password = .error decryptionFailed := by
  unfold decrypt
  rw [h]

theorem decrypt_ok_or_failed (P : Platform ν) (envelope : String) (password : JsVal) :
    (∃ payload, decrypt P envelope password = .ok payload) ∨
      decrypt P envelope password = .error decryptionFailed := by
  unfold decrypt
  cases decryptBody P envelope password with
  | ok payload => exact Or.inl ⟨payload, rfl⟩
  | error e => exact Or.inr rfl

/-- C8. For every envelope text and passphrase `decrypt` returns a payload or
throws the one error `Decryption failed. Wrong encryption key or corrupted
data.`: any two failures carry equal errors, whether `atob` rejected the text,
the cipher rejected the (possibly truncated or altered) bytes or the passphrase,
or the plaintext was no JSON. -/
theorem decrypt_fails_uniformly (P : Platform ν) :
    (∀ envelope password, (∃ payload, decrypt P envelope password = .ok payload) ∨
      decrypt P envelope password = .error decryptionFailed) ∧
    (∀ e1 p1 e2 p2 err1 err2, decrypt P e1 p1 = .error err1 → decrypt P e2 p2 = .error err2 →
      err1 = err2) ∧
    (∀ envelope password, atob envelope = none →
      decrypt P envelope password = .error decryptionFailed) ∧
    (∀ envelope password bytes pk key e, atob envelope = some bytes →
      P.importKey (P.utf8Encode (encodeArg password)) = .ok pk →
      P.deriveKey pk (Uint8Array.slice bytes 0 16) = .ok key →
      P.aesGcmDecrypt key (Uint8Array.slice bytes 16 28) (bytes.drop 28) = .error e →
      decrypt P envelope password = .error decryptionFailed) ∧
    (∀ envelope password bytes pk key plaintext e, atob envelope = some bytes →
      P.importKey (P.utf8Encode (encodeArg password)) = .ok pk →
      P.deriveKey pk (Uint8Array.slice bytes 0 16) = .ok key →
      P.aesGcmDecrypt key (Uint8Array.slice bytes 16 28) (bytes.drop 28) = .ok plaintext →
      P.jsonParse (P.utf8Decode plaintext) = .error e →
      decrypt P envelope password = .error decryptionFailed) ∧
    decryptionFailed = ⟨"Error", "Decryption failed. Wrong encryption key or corrupted data."⟩ := by
  refine ⟨decrypt_ok_or_failed P, ?_, ?_, ?_, ?_, rfl⟩
  · intro e1 p1 e2 p2 err1 err2 h1 h2
    rcases decrypt_ok_or_failed P e1 p1 with ⟨v, hv⟩ | hf1
    · rw [hv] at h1; cases h1
    · rcases decrypt_ok_or_failed P e2 p2 with ⟨v, hv⟩ | hf2
      · rw [hv] at h2; cases h2
      · rw [hf1] at h1; rw [hf2] at h2
        cases h1; cases h2; rfl
  · intro envelope password h
    exact decrypt_of_body_error P envelope password
      ⟨"InvalidCharacterError", "The string to be decoded is not correctly encoded."⟩
      (by simp only [decryptBody, h])
  · intro envelope password bytes pk key e hb hpk hkey hdec
    exact decrypt_of_body_error P envelope password e
      (by simp only [decryptBody, hb, hpk, hkey, hdec])
  · intro envelope password bytes pk key plaintext e hb hpk hkey hdec hjson
    exact decrypt_of_body_error P envelope password e
      (by simp only [decryptBody, hb, hpk, hkey, hdec, hjson])

/-- A run of C8 on the reference platform: an envelope opens under its
passphrase, and a text that is no base64, a truncated envelope, a wrong
passphrase, a flipped bit and a plaintext that is no JSON all fail alike. -/
theorem decrypt_fails_uniformly_witness :
    encrypt Reference.platform Sample.salt Sample.iv Sample.payload (.str "pw")
      = .ok Sample.envelope ∧
    decrypt Reference.platform Sample.envelope (.str "pw") = .ok Sample.payload ∧
    decrypt Reference.platform Sample.notBase64 (.str "pw") = .error decryptionFailed ∧
    decrypt Reference.platform Sample.truncated (.str "pw") = .error decryptionFailed ∧
    decrypt Reference.platform Sample.envelope (.str "pw2") = .error decryptionFailed ∧
    decrypt Reference.platform Sample.tampered (.str "pw") = .error decryptionFailed ∧
    decrypt Reference.platform Sample.notJson (.str "pw") = .error decryptionFailed ∧
    (∀ err1 err2, decrypt Reference.platform Sample.envelope (.str "pw2") = .error err1 →
      decrypt Reference.platform Sample.tampered (.str "pw") = .error err2 → err1 = err2) :=
  have h1 : decrypt Reference.platform Sample.notBase64 (.str "pw") = .error decryptionFailed :=
    (decrypt_fails_uniformly Reference.platform).2.2.1 Sample.notBase64 (.str "pw") (by decide)
  have h2 : decrypt Reference.platform Sample.truncated (.str "pw") = .error decryptionFailed := by
    rfl
  have h3 : decrypt Reference.platform Sample.envelope (.str "pw2") = .error decryptionFailed := by
    rfl
  have h4 : decrypt Reference.platform Sample.tampered (.str "pw") = .error decryptionFailed := by
    rfl
  have h5 : decrypt Reference.platform Sample.notJson (.str "pw") = .error decryptionFailed := by
    rfl
  ⟨by decide, by rfl, h1, h2, h3, h4, h5,
    (decrypt_fails_uniformly Reference.platform).2.1 Sample.envelope (.str "pw2")
      Sample.tampered (.str "pw")⟩

end DrimeSyncCore

/-! ## The catalog: which entries are listed -/

namespace DrimeSyncCore

variable {ν : Type}

set_option maxRecDepth 1000000 in
/-- C9, refuted as stated: for a folder listing that holds `backup-notes.enc`,
a name that is no timestamp name, `listBackups` returns an entry for it. -/
theorem listBackups_keeps_other_names :
    SpecPattern.matchesBackupPattern "backup-notes.enc" = false ∧
    Reference.parse Sample.folderListing = .ok (.obj [("data", .arr Sample.entries)]) ∧
    ((listBackups Reference.platform (Sample.world Sample.spacedStore
      [Sample.ok200 Sample.rootListing, Sample.ok200 Sample.folderListing])).1.toOption.bind
        Reference.stringify) = some Sample.catalogText := by
  refine ⟨by decide, by rfl, by decide⟩

end DrimeSyncCore

namespace DrimeSyncCore

variable {ν : Type}

theorem filterBackups_wellFormed (entries : List JsVal)
    (hwf : ∀ f ∈ entries, WellFormedEntry f) :
    filterBackups entries = .ok (entries.filter kept) := by
  induction entries with
  | nil => rfl
  | cons f rest ih =>
    have hrest := ih (fun g hg => hwf g (List.mem_cons_of_mem _ hg))
    obtain ⟨props, hf, hname⟩ := hwf f (List.mem_cons_self _ _)
    subst hf
    rcases hname with hnone | ⟨s, hs⟩
    · have hk : kept (.obj props) = false := by
        simp [kept, entryName, JsVal.getProp, hnone]
      simp [filterBackups, JsVal.getProp, hnone, JsVal.truthy, hrest, List.filter_cons, hk]
    · by_cases hempty : s = ""
      · subst hempty
        have hk : kept (.obj props) = false := by
          simp only [kept, entryName, JsVal.getProp, hs, Option.getD_some]
          decide
        simp [filterBackups, JsVal.getProp, hs, JsVal.truthy, hrest, List.filter_cons, hk]
      · have hk : kept (.obj props) = isBackupName s := by
          simp [kept, entryName, JsVal.getProp, hs]
        simp only [filterBackups, JsVal.getProp, hs, Option.getD_some, JsVal.truthy, hrest,
          List.filter_cons, hk]
        simp [hempty]

theorem toBackup_obj (props : List (String × JsVal)) :
    toBackup (.obj props) = .ok (.obj [("id", (JsVal.lookup "id" props).getD .undefined),
      ("name", (JsVal.lookup "name" props).getD .undefined),
      ("size", if ((JsVal.lookup "file_size" props).getD .undefined).truthy
        then (JsVal.lookup "file_size" props).getD .undefined else .num 0),
      ("created", (JsVal.lookup "created_at" props).getD .undefined),
      ("modified", (JsVal.lookup "updated_at" props).getD .undefined)]) := rfl

theorem mapBackups_objects (entries : List JsVal)
    (hobj : ∀ f ∈ entries, ∃ props, f = .obj props) :
    mapBackups entries = .ok (entries.map backupOf) := by
  induction entries with
  | nil => rfl
  | cons f rest ih =>
    have hrest := ih (fun g hg => hobj g (List.mem_cons_of_mem _ hg))
    obtain ⟨props, hf⟩ := hobj f (List.mem_cons_self _ _)
    subst hf
    simp [mapBackups, hrest, backupOf, toBackup_obj]

theorem catalog_wellFormed (P : Platform ν) (entries : List JsVal)
    (hwf : ∀ f ∈ entries, WellFormedEntry f) :
    catalog P (.arr entries) = .ok (.arr (sortBackups P ((entries.filter kept).map backupOf))) := by
  have hmap : mapBackups (entries.filter kept) = .ok ((entries.filter kept).map backupOf) := by
    apply mapBackups_objects
    intro f hf
    obtain ⟨props, hp, _⟩ := hwf f (List.mem_of_mem_filter hf)
    exact ⟨props, hp⟩
  simp only [catalog, filterBackups_wellFormed entries hwf, hmap]

theorem isBackupName_iff (name : String) :
    isBackupName name = true ↔
      "backup-".toList <+: name.toList ∧ ".enc".toList <:+ name.toList := by
  simp [isBackupName, List.isSuffixOf_iff_suffix]

theorem isBackupName_of_pattern (name : String)
    (h : SpecPattern.matchesBackupPattern name = true) : isBackupName name = true := by
  unfold SpecPattern.matchesBackupPattern at h
  simp only [Bool.and_eq_true] at h
  simp only [isBackupName, Bool.and_eq_true]
  exact h.1

theorem listBackups_of_listing (P : Platform ν) (w : World ν) (folderId files : JsVal)
    (hfolder : (getSyncFolder P w).1 = .ok folderId)
    (hfiles : (listFiles P folderId (getSyncFolder P w).2).1 = .ok files) :
    (listBackups P w).1 = catalog P files := by
  unfold listBackups listBackupsBody
  simp only [hfolder, hfiles]
  cases catalog P files <;> rfl

/-- C9, amended. For a listing of well-formed entries `listBackups` returns, in
some order, the catalog objects of exactly the entries whose name starts with
`backup-` and ends with `.enc` (so every name of the backup-file pattern is
kept and `notes.txt` is not, while a name that merely starts with `backup-` and
ends with `.enc` is kept as well); each is mapped to its id, name, size (0 when
missing), creation and modification time. -/
theorem listBackups_filter (P : Platform ν) (entries : List JsVal)
    (hwf : ∀ f ∈ entries, WellFormedEntry f) :
    (∃ out, catalog P (.arr entries) = .ok (.arr out) ∧
      out.Perm ((entries.filter kept).map backupOf) ∧
      (∀ b, b ∈ out ↔ ∃ f ∈ entries, kept f = true ∧ b = backupOf f)) ∧
    (∀ w folderId, (getSyncFolder P w).1 = .ok folderId →
      (listFiles P folderId (getSyncFolder P w).2).1 = .ok (.arr entries) →
      (listBackups P w).1 = catalog P (.arr entries)) ∧
    (∀ f, kept f = true ↔ ∃ s, entryName f = some s ∧
      "backup-".toList <+: s.toList ∧ ".enc".toList <:+ s.toList) ∧
    (∀ name, SpecPattern.matchesBackupPattern name = true → isBackupName name = true) ∧
    isBackupName "notes.txt" = false ∧
    (∀ props, backupOf (.obj props) =
      .obj [("id", (JsVal.lookup "id" props).getD .undefined),
        ("name", (JsVal.lookup "name" props).getD .undefined),
        ("size", if ((JsVal.lookup "file_size" props).getD .undefined).truthy
          then (JsVal.lookup "file_size" props).getD .undefined else .num 0),
        ("created", (JsVal.lookup "created_at" props).getD .undefined),
        ("modified", (JsVal.lookup "updated_at" props).getD .undefined)]) := by
  refine ⟨⟨_, catalog_wellFormed P entries hwf, ?_, ?_⟩, ?_, ?_, isBackupName_of_pattern,
    by decide, ?_⟩
  · exact List.perm_insertionSort _ _
  · intro b
    unfold sortBackups
    rw [List.mem_insertionSort]
    simp only [List.mem_map, List.mem_filter]
    constructor
    · rintro ⟨f, ⟨hf, hk⟩, rfl⟩
      exact ⟨f, hf, hk, rfl⟩
    · rintro ⟨f, hf, hk, rfl⟩
      exact ⟨f, ⟨hf, hk⟩, rfl⟩
  · intro w folderId hfolder hfiles
    exact listBackups_of_listing P w folderId _ hfolder hfiles
  · intro f
    unfold kept
    cases hn : entryName f with
    | none => simp
    | some s => simp [isBackupName_iff]
  · intro props
    simp [backupOf, toBackup_obj]

end DrimeSyncCore

/-! ## The catalog: order -/

theorem orderedInsert_congr {α : Type} (r s : α → α → Prop) [DecidableRel r] [DecidableRel s]
    (a : α) (l : List α) (h : ∀ b ∈ l, r a b ↔ s a b) :
    l.orderedInsert r a = l.orderedInsert s a := by
  induction l with
  | nil => rfl
  | cons b l ih =>
    have hb := h b (List.mem_cons_self _ _)
    have hl := ih (fun c hc => h c (List.mem_cons_of_mem _ hc))
    by_cases hr : r a b
    · simp [List.orderedInsert, hr, hb.mp hr]
    · have hs : ¬ s a b := fun hs => hr (hb.mpr hs)
      simp [List.orderedInsert, hr, hs, hl]

theorem insertionSort_congr {α : Type} (r s : α → α → Prop) [DecidableRel r] [DecidableRel s]
    (l : List α) (h : ∀ a ∈ l, ∀ b ∈ l, r a b ↔ s a b) :
    l.insertionSort r = l.insertionSort s := by
  induction l with
  | nil => rfl
  | cons a l ih =>
    have hl := ih (fun x hx y hy => h x (List.mem_cons_of_mem _ hx) y (List.mem_cons_of_mem _ hy))
    simp only [List.insertionSort]
    rw [hl]
    apply orderedInsert_congr
    intro b hb
    exact h a (List.mem_cons_self _ _) b
      (List.mem_cons_of_mem _ ((List.mem_insertionSort s).mp hb))

namespace DrimeSyncCore

variable {ν : Type}

theorem created_backupOf (props : List (String × JsVal)) :
    created (backupOf (.obj props)) = createdAt (.obj props) := by
  simp [backupOf, toBackup_obj, created, createdAt, JsVal.getProp, JsVal.lookup]

theorem sortsBefore_iff (P : Platform ν) (a b : JsVal) (ta tb : Int)
    (ha : timeValue P (created a) = some ta) (hb : timeValue P (created b) = some tb) :
    sortsBefore P a b ↔ tb ≤ ta := by
  simp only [sortsBefore, compareCreated, ha, hb]
  omega

theorem sortBackups_sorted (P : Platform ν) (l : List JsVal)
    (htime : ∀ a ∈ l, ∃ t, timeValue P (created a) = some t) :
    (sortBackups P l).Pairwise (NotOlder P) := by
  have hcongr : sortBackups P l
      = l.insertionSort (fun a b => createdTime P b ≤ createdTime P a) := by
    unfold sortBackups
    apply insertionSort_congr
    intro a ha b hb
    obtain ⟨ta, hta⟩ := htime a ha
    obtain ⟨tb, htb⟩ := htime b hb
    rw [sortsBefore_iff P a b ta tb hta htb]
    simp [createdTime, hta, htb]
  haveI : IsTotal JsVal (fun a b => createdTime P b ≤ createdTime P a) :=
    ⟨fun a b => le_total _ _⟩
  haveI : IsTrans JsVal (fun a b => createdTime P b ≤ createdTime P a) :=
    ⟨fun a b c hab hbc => le_trans hbc hab⟩
  have hsorted := List.sorted_insertionSort (fun a b => createdTime P b ≤ createdTime P a) l
  rw [hcongr]
  refine List.Pairwise.imp_of_mem ?_ hsorted
  intro a b ha hb hab
  obtain ⟨ta, hta⟩ := htime a ((List.mem_insertionSort _).mp ha)
  obtain ⟨tb, htb⟩ := htime b ((List.mem_insertionSort _).mp hb)
  refine ⟨ta, tb, hta, htb, ?_⟩
  simpa [createdTime, hta, htb] using hab

/-- C10. For a listing of well-formed entries whose kept entries carry a valid
creation date, the sequence `listBackups` returns is ordered by creation time,
most recent first, and two of its entries with equal creation time stand in the
order the listing had them. -/
theorem listBackups_order (P : Platform ν) (entries : List JsVal)
    (hwf : ∀ f ∈ entries, WellFormedEntry f)
    (htime : ∀ f ∈ entries, kept f = true → ∃ t, timeValue P (createdAt f) = some t) :
    ∃ out, catalog P (.arr entries) = .ok (.arr out) ∧
      out.Pairwise (NotOlder P) ∧
      (∀ a b t, List.Sublist [a, b] ((entries.filter kept).map backupOf) →
        timeValue P (created a) = some t → timeValue P (created b) = some t →
        List.Sublist [a, b] out) := by
  refine ⟨_, catalog_wellFormed P entries hwf, ?_, ?_⟩
  · apply sortBackups_sorted
    intro a ha
    obtain ⟨f, hf, rfl⟩ := List.mem_map.mp ha
    have hfe := List.mem_of_mem_filter hf
    have hk : kept f = true := (List.mem_filter.mp hf).2
    obtain ⟨props, hp, _⟩ := hwf f hfe
    obtain ⟨t, ht⟩ := htime f hfe hk
    subst hp
    exact ⟨t, by rw [created_backupOf]; exact ht⟩
  · intro a b t hsub ha hb
    unfold sortBackups
    exact List.pair_sublist_insertionSort ((sortsBefore_iff P a b t t ha hb).mpr le_rfl) hsub

end DrimeSyncCore

/-! ## Runs on the reference platform -/

namespace DrimeSyncCore

/-- A run of C2 (amended): a settings section that is no JSON keeps its string. -/
theorem snapshot_roundtrip_sections_witness :
    "typingmind_settings" ∈ keys ∧
    (Sample.world Sample.spacedStore []).localStorage "typingmind_settings" = some "dark mode" ∧
    (snapshotRoundTrip Reference.platform (Sample.world Sample.spacedStore [])).localStorage
      "typingmind_settings" = some "dark mode" :=
  ⟨by decide, rfl,
    (snapshot_roundtrip_sections Reference.platform (Sample.world Sample.spacedStore [])
      "typingmind_settings" (by decide)).2.2.1 "dark mode" Reference.syntaxError rfl (by decide)
      (by rfl)⟩

/-- A run of C3: a call made while an operation is in flight. -/
theorem rejected_while_in_progress_witness :
    Sample.busyWorld.syncInProgress = true ∧
    backup Reference.platform Sample.salt Sample.iv "2024-01-01T00:00:00.000Z"
      "2024-01-01T00:00:01.000Z" Sample.busyWorld = (.error alreadyInProgress, Sample.busyWorld) ∧
    restore Reference.platform (.num 3) Sample.busyWorld
      = (.error alreadyInProgress, Sample.busyWorld) :=
  have h := rejected_while_in_progress Reference.platform Sample.salt Sample.iv
    "2024-01-01T00:00:00.000Z" "2024-01-01T00:00:01.000Z" (.num 3) Sample.busyWorld rfl
  ⟨rfl, h.1, h.2.1⟩

/-- A run of C4: a backup whose upload is refused and a restore whose download
is damaged both end with the flag released. -/
theorem flag_released_witness :
    Sample.uploadRefused.syncInProgress = false ∧
    (backup Reference.platform Sample.salt Sample.iv "2024-01-01T00:00:00.000Z"
      "2024-01-01T00:00:01.000Z" Sample.uploadRefused).2.syncInProgress = false ∧
    Sample.damagedDownload.syncInProgress = false ∧
    (restore Reference.platform (.num 3) Sample.damagedDownload).2.syncInProgress = false :=
  ⟨rfl,
    ((flag_released Reference.platform).1 Sample.salt Sample.iv "2024-01-01T00:00:00.000Z"
      "2024-01-01T00:00:01.000Z" Sample.uploadRefused rfl).1,
    rfl, ((flag_released Reference.platform).2.1 (.num 3) Sample.damagedDownload rfl).1⟩

set_option maxRecDepth 1000000 in
/-- A run of C5: the upload is refused; the call fails with the upload's error
and neither the configuration nor `localStorage` changed. -/
theorem backup_failure_commits_nothing_witness :
    Sample.uploadRefused.syncInProgress = false ∧
    (backup Reference.platform Sample.salt Sample.iv "2024-01-01T00:00:00.000Z"
      "2024-01-01T00:00:01.000Z" Sample.uploadRefused).1
      = .error (JsError.mkError "Failed to upload file: Server Error - boom") ∧
    (backup Reference.platform Sample.salt Sample.iv "2024-01-01T00:00:00.000Z"
      "2024-01-01T00:00:01.000Z" Sample.uploadRefused).2.config = Sample.uploadRefused.config ∧
    (backup Reference.platform Sample.salt Sample.iv "2024-01-01T00:00:00.000Z"
      "2024-01-01T00:00:01.000Z" Sample.uploadRefused).2.localStorage
      = Sample.uploadRefused.localStorage :=
  have h := (backup_failure_commits_nothing Reference.platform Sample.salt Sample.iv
    "2024-01-01T00:00:00.000Z" "2024-01-01T00:00:01.000Z" Sample.uploadRefused rfl).2.2.1
      _ _ (JsError.mkError "Failed to upload file: Server Error - boom") rfl rfl rfl
  ⟨rfl, h.1, h.2.1, h.2.2⟩

set_option maxRecDepth 1000000 in
/-- A run of C6: the downloaded envelope is damaged; the call fails and
`localStorage` is what it was. -/
theorem restore_failure_writes_nothing_witness :
    Sample.damagedDownload.syncInProgress = false ∧
    (restore Reference.platform (.num 3) Sample.damagedDownload).1 = .error decryptionFailed ∧
    (restore Reference.platform (.num 3) Sample.damagedDownload).2.localStorage
      = Sample.damagedDownload.localStorage :=
  have h := (restore_failure_writes_nothing Reference.platform (.num 3) Sample.damagedDownload
    rfl).2.1 Sample.tampered decryptionFailed rfl rfl
  ⟨rfl, h.1, h.2.2⟩

/-- A run of C7: a document is stored as its JSON text, a string as itself, and
the section that is `null` and the section the payload lacks keep their strings. -/
theorem restore_payload_frame_witness :
    (Sample.sections.map Prod.fst).Nodup ∧
    (restoreTypingMindData Reference.platform (.obj Sample.sections)
      (Sample.world Sample.promptStore [])).2.localStorage "typingmind_chats" = some "\x7b\"a\":1\x7d" ∧
    (restoreTypingMindData Reference.platform (.obj Sample.sections)
      (Sample.world Sample.promptStore [])).2.localStorage "typingmind_settings"
        = some "light mode" ∧
    (restoreTypingMindData Reference.platform (.obj Sample.sections)
      (Sample.world Sample.promptStore [])).2.localStorage "typingmind_prompts"
        = some "[\"p\"]" ∧
    (restoreTypingMindData Reference.platform (.obj Sample.sections)
      (Sample.world Sample.promptStore [])).2.localStorage "typingmind_folders" = some "[]" :=
  have hnd : (Sample.sections.map Prod.fst).Nodup := by decide
  ⟨hnd,
    ((restore_payload_frame Reference.platform Sample.sections hnd
      (Sample.world Sample.promptStore []) "typingmind_chats").2.2.2.2
        (.obj [("a", .num 1)]) rfl rfl (fun _ h => by cases h)).trans (by decide),
    (restore_payload_frame Reference.platform Sample.sections hnd
      (Sample.world Sample.promptStore []) "typingmind_settings").2.2.2.1 "light mode" rfl,
    ((restore_payload_frame Reference.platform Sample.sections hnd
      (Sample.world Sample.promptStore []) "typingmind_prompts").2.2.1 .null rfl rfl).trans rfl,
    ((restore_payload_frame Reference.platform Sample.sections hnd
      (Sample.world Sample.promptStore []) "typingmind_folders").2.1 rfl).trans rfl⟩

end DrimeSyncCore

namespace DrimeSyncCore

theorem sample_entries_wellFormed : ∀ f ∈ Sample.entries, WellFormedEntry f := by
  intro f hf
  simp only [Sample.entries, List.mem_cons, List.mem_singleton, List.not_mem_nil, or_false] at hf
  rcases hf with rfl | rfl | rfl | rfl
  · exact ⟨_, rfl, Or.inr ⟨"backup-2024-01-01T00-00-00.enc", rfl⟩⟩
  · exact ⟨_, rfl, Or.inr ⟨"notes.txt", rfl⟩⟩
  · exact ⟨_, rfl, Or.inr ⟨"backup-2024-06-01T00-00-00.enc", rfl⟩⟩
  · exact ⟨_, rfl, Or.inr ⟨"backup-notes.enc", rfl⟩⟩

/-- A run of C9 (amended) on the sample listing. -/
theorem listBackups_filter_witness :
    (∀ f ∈ Sample.entries, WellFormedEntry f) ∧
    ∃ out, catalog Reference.platform (.arr Sample.entries) = .ok (.arr out) ∧
      out.Perm ((Sample.entries.filter kept).map backupOf) ∧
      (∀ b, b ∈ out ↔ ∃ f ∈ Sample.entries, kept f = true ∧ b = backupOf f) :=
  ⟨sample_entries_wellFormed,
    (listBackups_filter Reference.platform Sample.entries sample_entries_wellFormed).1⟩

set_option maxRecDepth 1000000 in
/-- A run of C10 on the sample listing. -/
theorem listBackups_order_witness :
    (∀ f ∈ Sample.entries, WellFormedEntry f) ∧
    (∀ f ∈ Sample.entries, kept f = true →
      ∃ t, timeValue Reference.platform (createdAt f) = some t) ∧
    ∃ out, catalog Reference.platform (.arr Sample.entries) = .ok (.arr out) ∧
      out.Pairwise (NotOlder Reference.platform) ∧
      (∀ a b t, List.Sublist [a, b] ((Sample.entries.filter kept).map backupOf) →
        timeValue Reference.platform (created a) = some t →
        timeValue Reference.platform (created b) = some t → List.Sublist [a, b] out) :=
  have htime : ∀ f ∈ Sample.entries, kept f = true →
      ∃ t, timeValue Reference.platform (createdAt f) = some t := by
    intro f hf _
    simp only [Sample.entries, List.mem_cons, List.mem_singleton, List.not_mem_nil,
      or_false] at hf
    rcases hf with rfl | rfl | rfl | rfl
    · exact ⟨1704067200000, by decide⟩
    · exact ⟨1709251200000, by decide⟩
    · exact ⟨1717200000000, by decide⟩
    · exact ⟨1717200000000, by decide⟩
  ⟨sample_entries_wellFormed, htime,
    listBackups_order Reference.platform Sample.entries sample_entries_wellFormed htime⟩

end DrimeSyncCore

/-! ## The backup file name -/

namespace DrimeSyncCore

variable {ν : Type}

theorem replaceChar_of_isDigit (c : Char) (h : c.isDigit = true) :
    (if c = ':' ∨ c = '.' then '-' else c) = c := by
  have hne : ¬ (c = ':' ∨ c = '.') := by
    rintro (rfl | rfl) <;> exact absurd h (by decide)
  rw [if_neg hne]

theorem replaceChar_ne_colon (c : Char) : (if c = ':' ∨ c = '.' then '-' else c) ≠ ':' := by
  by_cases hc : c = ':' ∨ c = '.'
  · rw [if_pos hc]; decide
  · rw [if_neg hc]; exact fun h => hc (Or.inl h)

theorem replaceChar_ne_dot (c : Char) : (if c = ':' ∨ c = '.' then '-' else c) ≠ '.' := by
  by_cases hc : c = ':' ∨ c = '.'
  · rw [if_pos hc]; decide
  · rw [if_neg hc]; exact fun h => hc (Or.inr h)

theorem toList_replaceColonDot (t : String) :
    (replaceColonDot t).toList = t.toList.map (fun c => if c = ':' ∨ c = '.' then '-' else c) :=
  rfl

theorem toList_backupFilename (t : String) :
    (backupFilename t).toList
      = "backup-".toList ++ ((replaceColonDot t).toList ++ ".enc".toList) := by
  simp [backupFilename, String.toList, String.data_append]

theorem colon_not_mem_replaceColonDot (t : String) : ':' ∉ (replaceColonDot t).toList := by
  rw [toList_replaceColonDot]
  intro h
  obtain ⟨c, _, hc⟩ := List.mem_map.mp h
  exact replaceChar_ne_colon c hc

theorem dot_not_mem_replaceColonDot (t : String) : '.' ∉ (replaceColonDot t).toList := by
  rw [toList_replaceColonDot]
  intro h
  obtain ⟨c, _, hc⟩ := List.mem_map.mp h
  exact replaceChar_ne_dot c hc

theorem isBackupName_backupFilename (t : String) : isBackupName (backupFilename t) = true := by
  rw [isBackupName_iff, toList_backupFilename]
  refine ⟨List.prefix_append _ _, ?_⟩
  rw [← List.append_assoc]
  exact List.suffix_append _ _

end DrimeSyncCore

/-! ## What each method leaves alone, timers included -/

namespace World

variable {ν : Type}

theorem Quiet.here (w : World ν) : w.Quiet w :=
  ⟨rfl, rfl, rfl, rfl, rfl, rfl, List.prefix_refl _, rfl⟩

theorem Quiet.chain {w w1 w2 : World ν} (h1 : w.Quiet w1) (h2 : w1.Quiet w2) : w.Quiet w2 :=
  ⟨h2.config.trans h1.config, h2.flag.trans h1.flag, h2.syncTimer.trans h1.syncTimer,
    h2.localStorage.trans h1.localStorage, h2.timers.trans h1.timers,
    h2.timerSeq.trans h1.timerSeq, h1.trace.trans h2.trace, h2.calls.trans h1.calls⟩

theorem quiet_log (w : World ν) (e : Event) (he : e ≠ .backupCall) : w.Quiet (w.log e) :=
  ⟨rfl, rfl, rfl, rfl, rfl, rfl, List.prefix_append _ _, by
    simp [World.log, List.count_append, List.count_singleton, he]⟩

theorem quiet_fetch (P : Platform ν) (w : World ν) (req : Request) : w.Quiet (w.fetch P req).2 :=
  ⟨rfl, rfl, rfl, rfl, rfl, rfl, List.prefix_append _ _, by
    simp [World.fetch, List.count_append, List.count_singleton]⟩

theorem quiet_getItem (w : World ν) (key : String) : w.Quiet (w.getItem key).2 :=
  quiet_log w _ (by simp)

theorem Calm.stay (w : World ν) : w.Calm w := ⟨rfl, rfl, rfl, rfl, List.prefix_refl _, rfl⟩

theorem Calm.seq {w w1 w2 : World ν} (h1 : w.Calm w1) (h2 : w1.Calm w2) : w.Calm w2 :=
  ⟨h2.flag.trans h1.flag, h2.syncTimer.trans h1.syncTimer, h2.timers.trans h1.timers,
    h2.timerSeq.trans h1.timerSeq, h1.trace.trans h2.trace, h2.calls.trans h1.calls⟩

theorem Quiet.calm {w w1 : World ν} (h : w.Quiet w1) : w.Calm w1 :=
  ⟨h.flag, h.syncTimer, h.timers, h.timerSeq, h.trace, h.calls⟩

theorem calm_setItem (w : World ν) (key value : String) : w.Calm (w.setItem key value) :=
  ⟨rfl, rfl, rfl, rfl, List.prefix_append _ _, by
    simp [World.setItem, List.count_append, List.count_singleton]⟩

theorem calm_removeItem (w : World ν) (key : String) : w.Calm (w.removeItem key) :=
  ⟨rfl, rfl, rfl, rfl, List.prefix_append _ _, by
    simp [World.removeItem, List.count_append, List.count_singleton]⟩

theorem calm_config (w : World ν) (config : List (String × JsVal)) :
    w.Calm { w with config := config } :=
  ⟨rfl, rfl, rfl, rfl, List.prefix_refl _, rfl⟩

end World

namespace DrimeSyncCore

variable {ν : Type}

theorem uploadFile_world (P : Platform ν) (folderId : JsVal) (filename content : String)
    (w : World ν) :
    (uploadFile P folderId filename content w).2 = (w.fetch P
      { url := DRIME_API_BASE ++ "/file-entries", method := "POST",
        headers := [authorization w, ("Accept", "application/json")],
        body := none, formFile := some (filename, content),
        formParent := if folderId.truthy then some folderId.toJsString else none }).2 := by
  unfold uploadFile
  simp only []
  repeat' split
  all_goals rfl

theorem downloadFile_world (P : Platform ν) (fileId : JsVal) (w : World ν) :
    (downloadFile P fileId w).2 = (w.fetch P (downloadRequest w fileId)).2 := by
  unfold downloadFile downloadRequest
  simp only []
  repeat' split
  all_goals rfl

theorem testConnection_world (P : Platform ν) (w : World ν) :
    (testConnection P w).2 = (w.fetch P (listRequest w)).2 := by
  unfold testConnection listRequest
  simp only []
  repeat' split
  all_goals rfl

theorem getSyncFolder_quiet (P : Platform ν) (w : World ν) : w.Quiet (getSyncFolder P w).2 := by
  unfold getSyncFolder
  simp only []
  repeat' split
  all_goals first
    | exact World.quiet_fetch P w _
    | exact (World.quiet_fetch P w _).chain (World.quiet_fetch P _ _)

theorem uploadFile_quiet (P : Platform ν) (folderId : JsVal) (filename content : String)
    (w : World ν) : w.Quiet (uploadFile P folderId filename content w).2 := by
  rw [uploadFile_world]
  exact World.quiet_fetch P w _

theorem downloadFile_quiet (P : Platform ν) (fileId : JsVal) (w : World ν) :
    w.Quiet (downloadFile P fileId w).2 := by
  rw [downloadFile_world]
  exact World.quiet_fetch P w _

theorem testConnection_quiet (P : Platform ν) (w : World ν) :
    w.Quiet (testConnection P w).2 := by
  rw [testConnection_world]
  exact World.quiet_fetch P w _

theorem getTypingMindDataStep_quiet (P : Platform ν) (acc : List (String × JsVal) × World ν)
    (key : String) : acc.2.Quiet (getTypingMindDataStep P acc key).2 := by
  rw [getTypingMindDataStep_eq]
  exact World.quiet_log _ _ (by simp)

theorem foldl_getTypingMindDataStep_quiet (P : Platform ν) (ks : List String)
    (acc : List (String × JsVal) × World ν) :
    acc.2.Quiet (ks.foldl (getTypingMindDataStep P) acc).2 := by
  induction ks generalizing acc with
  | nil => exact World.Quiet.here _
  | cons k ks ih => exact (getTypingMindDataStep_quiet P acc k).chain (ih _)

theorem getTypingMindData_quiet (P : Platform ν) (w : World ν) :
    w.Quiet (getTypingMindData P w).2 :=
  foldl_getTypingMindDataStep_quiet P keys ([], w)

theorem saveConfig_calm (P : Platform ν) (w : World ν) : w.Calm (saveConfig P w) :=
  World.calm_setItem _ _ _

theorem saveConfig_config (P : Platform ν) (w : World ν) : (saveConfig P w).config = w.config :=
  rfl

theorem restoreTypingMindDataStep_calm (P : Platform ν) (w : World ν) (entry : String × JsVal) :
    w.Calm (restoreTypingMindDataStep P w entry) := by
  unfold restoreTypingMindDataStep
  split
  · exact World.calm_setItem _ _ _
  · exact World.Calm.stay _

theorem foldl_restoreTypingMindDataStep_calm (P : Platform ν) (entries : List (String × JsVal))
    (w : World ν) : w.Calm (entries.foldl (restoreTypingMindDataStep P) w) := by
  induction entries generalizing w with
  | nil => exact World.Calm.stay _
  | cons entry rest ih =>
    exact (restoreTypingMindDataStep_calm P w entry).seq (ih _)

theorem restoreTypingMindData_calm (P : Platform ν) (data : JsVal) (w : World ν) :
    w.Calm (restoreTypingMindData P data w).2 := by
  unfold restoreTypingMindData
  split
  · exact World.Calm.stay _
  · exact foldl_restoreTypingMindDataStep_calm P _ w

theorem restoreTypingMindData_config (P : Platform ν) (data : JsVal) (w : World ν) :
    (restoreTypingMindData P data w).2.config = w.config := by
  unfold restoreTypingMindData
  split
  · rfl
  · exact (foldl_restoreTypingMindDataStep_flag P _ w).2

end DrimeSyncCore

namespace DrimeSyncCore

variable {ν : Type}

theorem backupBody_effect (P : Platform ν) (salt iv : List Byte) (now1 now2 : String)
    (w : World ν) :
    (∃ e, (backupBody P salt iv now1 now2 w).1 = .error e ∧
      w.Quiet (backupBody P salt iv now1 now2 w).2) ∨
    (∃ up req content ts, (backupBody P salt iv now1 now2 w).1
        = .ok (.obj [("success", .bool true), ("timestamp", ts),
          ("filename", .str (backupFilename now1))]) ∧
      w.Quiet up ∧ Event.fetch req ∈ up.trace ∧ req.method = "POST" ∧
      req.formFile = some (backupFilename now1, content) ∧
      (backupBody P salt iv now1 now2 w).2
        = saveConfig P { up with config := JsVal.setProp up.config "lastSync" (.str now2) }) := by
  have h1 : w.Quiet ((getTypingMindData P w).2.log .encryptCall) :=
    (getTypingMindData_quiet P w).chain (World.quiet_log _ _ (by simp))
  have h2 := h1.chain (getSyncFolder_quiet P ((getTypingMindData P w).2.log .encryptCall))
  unfold backupBody
  simp only []
  cases encrypt P salt iv (getTypingMindData P w).1
      (((getTypingMindData P w).2.log .encryptCall).configField "encryptionKey") with
  | error e => exact Or.inl ⟨_, rfl, h1⟩
  | ok enc =>
    simp only []
    cases (getSyncFolder P ((getTypingMindData P w).2.log .encryptCall)).1 with
    | error e => exact Or.inl ⟨_, rfl, h2⟩
    | ok folderId =>
      simp only []
      have h3 := h2.chain (uploadFile_quiet P folderId
        ("backup-" ++ replaceColonDot now1 ++ ".enc") enc
        (getSyncFolder P ((getTypingMindData P w).2.log .encryptCall)).2)
      cases hu : (uploadFile P folderId ("backup-" ++ replaceColonDot now1 ++ ".enc") enc
          (getSyncFolder P ((getTypingMindData P w).2.log .encryptCall)).2).1 with
      | error e => exact Or.inl ⟨_, rfl, h3⟩
      | ok uploaded =>
        refine Or.inr ⟨(uploadFile P folderId ("backup-" ++ replaceColonDot now1 ++ ".enc") enc
          (getSyncFolder P ((getTypingMindData P w).2.log .encryptCall)).2).2,
          { url := DRIME_API_BASE ++ "/file-entries", method := "POST",
            headers := [authorization
              (getSyncFolder P ((getTypingMindData P w).2.log .encryptCall)).2,
              ("Accept", "application/json")],
            body := none, formFile := some ("backup-" ++ replaceColonDot now1 ++ ".enc", enc),
            formParent := if folderId.truthy then some folderId.toJsString else none },
          enc, _, rfl, h3, ?_, rfl, rfl, rfl⟩
        rw [uploadFile_world]
        simp only [World.fetch, List.mem_append, List.mem_singleton]
        exact Or.inr trivial

theorem saveConfig_eq (P : Platform ν) (w : World ν) :
    saveConfig P w = w.setItem "drime_sync_config" (configText P w.config) := rfl

theorem backup_effect (P : Platform ν) (salt iv : List Byte) (now1 now2 : String)
    (w : World ν) :
    w.Calm (backup P salt iv now1 now2 w).2 ∧
    ((∃ e, (backup P salt iv now1 now2 w).1 = .error e ∧
        (backup P salt iv now1 now2 w).2.config = w.config ∧
        (backup P salt iv now1 now2 w).2.localStorage = w.localStorage) ∨
      (∃ ts, (backup P salt iv now1 now2 w).1
          = .ok (.obj [("success", .bool true), ("timestamp", ts),
            ("filename", .str (backupFilename now1))]) ∧
        (backup P salt iv now1 now2 w).2.config = JsVal.setProp w.config "lastSync" (.str now2) ∧
        (backup P salt iv now1 now2 w).2.localStorage = w.localStorage.setItem "drime_sync_config"
          (configText P (JsVal.setProp w.config "lastSync" (.str now2))) ∧
        ∃ req content, Event.fetch req ∈ (backup P salt iv now1 now2 w).2.trace ∧
          req.method = "POST" ∧ req.formFile = some (backupFilename now1, content))) := by
  cases hflag : w.syncInProgress with
  | true =>
    have hb : backup P salt iv now1 now2 w = (.error alreadyInProgress, w) := by
      unfold backup; rw [acquire_eq_error w hflag]
    rw [hb]
    exact ⟨World.Calm.stay _, Or.inl ⟨_, rfl, rfl, rfl⟩⟩
  | false =>
    rw [backup_of_idle P salt iv now1 now2 w hflag]
    have hw0 : (backupBody P salt iv now1 now2 { w with syncInProgress := true }).2.syncInProgress
        = true := backupBody_flag P salt iv now1 now2 _
    rcases backupBody_effect P salt iv now1 now2 { w with syncInProgress := true } with
      ⟨e, he, hq⟩ | ⟨up, req, content, ts, hv, hq, hmem, hmeth, hform, hw⟩
    · rw [he]
      simp only []
      refine ⟨⟨?_, hq.syncTimer, hq.timers, hq.timerSeq, ?_, ?_⟩,
        Or.inl ⟨e, rfl, hq.config, hq.localStorage⟩⟩
      · simp [release, hflag]
      · exact hq.trace.trans (List.prefix_append _ _)
      · have hc := hq.calls
        simp only [release, World.log, List.count_append] at hc ⊢
        simp [hc, List.count_singleton]
    · rw [hv]
      simp only []
      rw [hw]
      refine ⟨⟨?_, hq.syncTimer, hq.timers, hq.timerSeq, ?_, ?_⟩,
        Or.inr ⟨ts, rfl, ?_, ?_, req, content, ?_, hmeth, hform⟩⟩
      · simp [release, hflag]
      · exact hq.trace.trans (List.prefix_append _ _)
      · have hc := hq.calls
        simp only [release, saveConfig_eq, World.setItem, List.count_append] at hc ⊢
        simp [hc, List.count_singleton]
      · simp [release, saveConfig_eq, World.setItem, hq.config]
      · simp [release, saveConfig_eq, World.setItem, hq.config, hq.localStorage]
      · simp only [release, saveConfig_eq, World.setItem, List.mem_append]
        exact Or.inl hmem

end DrimeSyncCore

namespace DrimeSyncCore

variable {ν : Type}

/-- C13. For every clock reading `t`, a `backup()` that succeeds returns, and
has sent in its upload request, the file name `backup-` ++ `t` with every `:`
and `.` replaced by `-` ++ `.enc`; that name holds no `:`, holds no `.` before
its suffix `.enc`, and passes the name filter of `listBackups`. -/
theorem backup_filename_shape (P : Platform ν) (salt iv : List Byte) (t now2 : String)
    (w : World ν) :
    (∀ result, (backup P salt iv t now2 w).1 = .ok result →
      result.getProp "filename" = .ok (.str (backupFilename t)) ∧
      ∃ req content, Event.fetch req ∈ (backup P salt iv t now2 w).2.trace ∧
        req.method = "POST" ∧ req.formFile = some (backupFilename t, content)) ∧
    (backupFilename t).toList
      = "backup-".toList ++ ((t.toList.map (fun c => if c = ':' ∨ c = '.' then '-' else c))
        ++ ".enc".toList) ∧
    ':' ∉ (backupFilename t).toList ∧
    '.' ∉ "backup-".toList ++ (replaceColonDot t).toList ∧
    (backupFilename t).toList.count '.' = 1 ∧
    isBackupName (backupFilename t) = true := by
  refine ⟨?_, ?_, ?_, ?_, ?_, isBackupName_backupFilename t⟩
  · intro result hres
    rcases (backup_effect P salt iv t now2 w).2 with ⟨e, he, _⟩ | ⟨ts, hok, _, _, req, content, hr⟩
    · rw [he] at hres; cases hres
    · rw [hok] at hres
      cases hres
      exact ⟨rfl, req, content, hr⟩
  · rw [toList_backupFilename, toList_replaceColonDot]
  · rw [toList_backupFilename]
    simp only [List.mem_append, not_or]
    exact ⟨by decide, colon_not_mem_replaceColonDot t, by decide⟩
  · simp only [List.mem_append, not_or]
    exact ⟨by decide, dot_not_mem_replaceColonDot t⟩
  · rw [toList_backupFilename, List.count_append, List.count_append,
      List.count_eq_zero_of_not_mem (dot_not_mem_replaceColonDot t)]
    decide

theorem replaceColonDot_injOn_basic (t1 t2 : String) (h1 : IsoBasic t1) (h2 : IsoBasic t2)
    (hl : (replaceColonDot t1).toList = (replaceColonDot t2).toList) : t1 = t2 := by
  obtain ⟨y1, y2, y3, y4, m1, m2, d1, d2, h1', h2', n1, n2, s1, s2, f1, f2, f3, ht1, hd1⟩ := h1
  obtain ⟨z1, z2, z3, z4, p1, p2, e1, e2, i1, i2, o1, o2, u1, u2, g1, g2, g3, ht2, hd2⟩ := h2
  rw [toList_replaceColonDot, toList_replaceColonDot, ht1, ht2] at hl
  simp only [List.mem_cons, List.mem_singleton, List.not_mem_nil, or_false, forall_eq_or_imp,
    forall_eq] at hd1 hd2
  obtain ⟨a1, a2, a3, a4, a5, a6, a7, a8, a9, a10, a11, a12, a13, a14, a15, a16, a17⟩ := hd1
  obtain ⟨b1, b2, b3, b4, b5, b6, b7, b8, b9, b10, b11, b12, b13, b14, b15, b16, b17⟩ := hd2
  simp only [List.map_cons, List.map_nil, replaceChar_of_isDigit, a1, a2, a3, a4, a5, a6, a7,
    a8, a9, a10, a11, a12, a13, a14, a15, a16, a17, b1, b2, b3, b4, b5, b6, b7, b8, b9, b10,
    b11, b12, b13, b14, b15, b16, b17, List.cons.injEq, and_true, true_and] at hl
  apply String.ext
  show t1.toList = t2.toList
  rw [ht1, ht2]
  simp only [List.cons.injEq, and_true, true_and]
  tauto

theorem replaceChar_sign_inj (a b : Char) (ha : a = '+' ∨ a = '-') (hb : b = '+' ∨ b = '-')
    (h : (if a = ':' ∨ a = '.' then '-' else a) = (if b = ':' ∨ b = '.' then '-' else b)) :
    a = b := by
  rcases ha with rfl | rfl <;> rcases hb with rfl | rfl <;> first | rfl | exact absurd h (by decide)

theorem replaceColonDot_injOn_expanded (t1 t2 : String) (h1 : IsoExpanded t1)
    (h2 : IsoExpanded t2)
    (hl : (replaceColonDot t1).toList = (replaceColonDot t2).toList) : t1 = t2 := by
  obtain ⟨sg, y1, y2, y3, y4, y5, y6, m1, m2, d1, d2, h1', h2', n1, n2, s1, s2, f1, f2, f3, ht1,
    hsg1, hd1⟩ := h1
  obtain ⟨tg, z1, z2, z3, z4, z5, z6, p1, p2, e1, e2, i1, i2, o1, o2, u1, u2, g1, g2, g3, ht2,
    hsg2, hd2⟩ := h2
  rw [toList_replaceColonDot, toList_replaceColonDot, ht1, ht2] at hl
  simp only [List.mem_cons, List.mem_singleton, List.not_mem_nil, or_false, forall_eq_or_imp,
    forall_eq] at hd1 hd2
  obtain ⟨a1, a2, a3, a4, a5, a6, a7, a8, a9, a10, a11, a12, a13, a14, a15, a16, a17, a18, a19⟩ :=
    hd1
  obtain ⟨b1, b2, b3, b4, b5, b6, b7, b8, b9, b10, b11, b12, b13, b14, b15, b16, b17, b18, b19⟩ :=
    hd2
  simp only [List.map_cons, List.map_nil, List.cons.injEq] at hl
  have hsg := replaceChar_sign_inj sg tg hsg1 hsg2 hl.1
  simp only [replaceChar_of_isDigit, a1, a2, a3, a4, a5, a6, a7,
    a8, a9, a10, a11, a12, a13, a14, a15, a16, a17, a18, a19, b1, b2, b3, b4, b5, b6, b7, b8, b9,
    b10, b11, b12, b13, b14, b15, b16, b17, b18, b19, and_true, true_and] at hl
  apply String.ext
  show t1.toList = t2.toList
  rw [ht1, ht2]
  simp only [List.cons.injEq, and_true, true_and]
  tauto

theorem length_replaceColonDot (t : String) :
    (replaceColonDot t).toList.length = t.toList.length := by
  rw [toList_replaceColonDot, List.length_map]

theorem IsoBasic.length_basic {t : String} (h : IsoBasic t) : t.toList.length = 24 := by
  obtain ⟨_, _, _, _, _, _, _, _, _, _, _, _, _, _, _, _, _, ht, _⟩ := h
  rw [ht]; rfl

theorem IsoExpanded.length_expanded {t : String} (h : IsoExpanded t) : t.toList.length = 27 := by
  obtain ⟨_, _, _, _, _, _, _, _, _, _, _, _, _, _, _, _, _, _, _, _, ht, _⟩ := h
  rw [ht]; rfl

/-- C14. The file name derivation of `backup()` is injective on the timestamps
`Date.prototype.toISOString` writes: two such timestamps with the same derived
name are the same timestamp. -/
theorem backup_filename_injective (t1 t2 : String) (h1 : IsoTimestamp t1)
    (h2 : IsoTimestamp t2) (h : backupFilename t1 = backupFilename t2) : t1 = t2 := by
  have hl : (replaceColonDot t1).toList = (replaceColonDot t2).toList := by
    have := congrArg String.toList h
    rw [toList_backupFilename, toList_backupFilename] at this
    exact List.append_cancel_right (List.append_cancel_left this)
  have hlen : t1.toList.length = t2.toList.length := by
    rw [← length_replaceColonDot t1, ← length_replaceColonDot t2, hl]
  rcases h1 with h1 | h1 <;> rcases h2 with h2 | h2
  · exact replaceColonDot_injOn_basic t1 t2 h1 h2 hl
  · rw [h1.length_basic, h2.length_expanded] at hlen; cases hlen
  · rw [h1.length_expanded, h2.length_basic] at hlen; cases hlen
  · exact replaceColonDot_injOn_expanded t1 t2 h1 h2 hl

/-- A run of C14: two timestamps one millisecond apart. -/
theorem backup_filename_injective_witness :
    IsoTimestamp "2024-01-01T00:00:00.000Z" ∧ IsoTimestamp "2024-01-01T00:00:00.001Z" ∧
    "2024-01-01T00:00:00.000Z" ≠ "2024-01-01T00:00:00.001Z" ∧
    backupFilename "2024-01-01T00:00:00.000Z" ≠ backupFilename "2024-01-01T00:00:00.001Z" :=
  have i1 : IsoTimestamp "2024-01-01T00:00:00.000Z" :=
    Or.inl ⟨'2', '0', '2', '4', '0', '1', '0', '1', '0', '0', '0', '0', '0', '0', '0', '0', '0',
      rfl, by decide⟩
  have i2 : IsoTimestamp "2024-01-01T00:00:00.001Z" :=
    Or.inl ⟨'2', '0', '2', '4', '0', '1', '0', '1', '0', '0', '0', '0', '0', '0', '0', '0', '1',
      rfl, by decide⟩
  ⟨i1, i2, by decide,
    fun h => absurd (backup_filename_injective _ _ i1 i2 h) (by decide)⟩

end DrimeSyncCore

/-! ## The envelope: layout and distinctness -/

namespace DrimeSyncCore

variable {ν : Type}

theorem envelope_parts_inj (s1 i1 c1 s2 i2 c2 : List Byte) (hs1 : s1.length = 16)
    (hs2 : s2.length = 16) (hi1 : i1.length = 12) (hi2 : i2.length = 12)
    (h : btoa (s1 ++ i1 ++ c1) = btoa (s2 ++ i2 ++ c2)) : s1 = s2 ∧ i1 = i2 ∧ c1 = c2 := by
  have hb : s1 ++ i1 ++ c1 = s2 ++ i2 ++ c2 := by
    have := congrArg atob h
    rw [atob_btoa, atob_btoa] at this
    exact Option.some.inj this
  have hs : s1 = s2 := by
    rw [← slice_salt s1 i1 c1 hs1, ← slice_salt s2 i2 c2 hs2, hb]
  have hi : i1 = i2 := by
    rw [← slice_iv s1 i1 c1 hs1 hi1, ← slice_iv s2 i2 c2 hs2 hi2, hb]
  have hc : c1 = c2 := by
    rw [← drop_header s1 i1 c1 hs1 hi1, ← drop_header s2 i2 c2 hs2 hi2, hb]
  exact ⟨hs, hi, hc⟩

theorem encrypt_eq_ok (P : Platform ν) (salt iv : List Byte) (x password : JsVal)
    (envelope : String) (h : encrypt P salt iv x password = .ok envelope) :
    ∃ pk key c, P.importKey (P.utf8Encode (encodeArg password)) = .ok pk ∧
      P.deriveKey pk salt = .ok key ∧
      P.aesGcmEncrypt key iv (P.utf8Encode ((P.jsonStringify x).getD "")) = .ok c ∧
      envelope = btoa (salt ++ iv ++ c) := by
  unfold encrypt at h
  simp only [] at h
  cases hpk : P.importKey (P.utf8Encode (encodeArg password)) with
  | error e => rw [hpk] at h; cases h
  | ok pk =>
    rw [hpk] at h
    simp only [] at h
    cases hkey : P.deriveKey pk salt with
    | error e => rw [hkey] at h; cases h
    | ok key =>
      rw [hkey] at h
      simp only [] at h
      cases hc : P.aesGcmEncrypt key iv (P.utf8Encode ((P.jsonStringify x).getD "")) with
      | error e => rw [hc] at h; cases h
      | ok c =>
        rw [hc] at h
        simp only [Except.ok.injEq] at h
        exact ⟨pk, key, c, rfl, hkey, hc, h.symm⟩

/-- C15. For every payload, passphrase, 16-byte salt and 12-byte nonce on which
key import, key derivation and the cipher return (the cipher returning `c`),
`encrypt` returns a text whose base64 decoding has length `28 + |c|`, holds the
salt in bytes 0..15, the nonce in bytes 16..27 and `c` behind them; `decrypt`
hands exactly these three parts to key derivation and the cipher. -/
theorem envelope_layout (P : Platform ν) (salt iv : List Byte) (hs : salt.length = 16)
    (hi : iv.length = 12) (x password : JsVal) (pk key c : List Byte)
    (hpk : P.importKey (P.utf8Encode (encodeArg password)) = .ok pk)
    (hkey : P.deriveKey pk salt = .ok key)
    (hc : P.aesGcmEncrypt key iv (P.utf8Encode ((P.jsonStringify x).getD "")) = .ok c) :
    ∃ envelope bytes, encrypt P salt iv x password = .ok envelope ∧
      atob envelope = some bytes ∧ bytes.length = 28 + c.length ∧
      bytes.take 16 = salt ∧ (bytes.drop 16).take 12 = iv ∧ bytes.drop 28 = c ∧
      Uint8Array.slice bytes 0 16 = salt ∧ Uint8Array.slice bytes 16 28 = iv ∧
      decryptBody P envelope password =
        (match P.aesGcmDecrypt key iv c with
          | .error e => .error e
          | .ok decryptedBuffer => P.jsonParse (P.utf8Decode decryptedBuffer)) := by
  have h1 := slice_salt salt iv c hs
  have h2 := slice_iv salt iv c hs hi
  have h3 := drop_header salt iv c hs hi
  refine ⟨btoa (salt ++ iv ++ c), salt ++ iv ++ c, ?_, atob_btoa _, ?_, ?_, ?_, h3, h1, h2, ?_⟩
  · simp [encrypt, hpk, hkey, hc]
  · simp [hs, hi]; omega
  · simpa [Uint8Array.slice] using h1
  · simpa [Uint8Array.slice] using h2
  · simp only [decryptBody, atob_btoa, h1, h2, h3, hpk, hkey]

set_option maxRecDepth 1000000 in
/-- A run of C15 on the reference platform. -/
theorem envelope_layout_witness :
    Sample.salt.length = 16 ∧ Sample.iv.length = 12 ∧
    ∃ envelope bytes, encrypt Reference.platform Sample.salt Sample.iv Sample.payload (.str "pw")
        = .ok envelope ∧
      atob envelope = some bytes ∧ bytes.take 16 = Sample.salt ∧
      (bytes.drop 16).take 12 = Sample.iv :=
  have h := envelope_layout Reference.platform Sample.salt Sample.iv (by decide) (by decide)
    Sample.payload (.str "pw") _ _ _ rfl rfl rfl
  ⟨by decide, by decide,
    h.elim fun envelope h1 => h1.elim fun bytes h2 =>
      ⟨envelope, bytes, h2.1, h2.2.1, h2.2.2.2.1, h2.2.2.2.2.1⟩⟩

/-- C16. Two `encrypt` calls on the same payload and passphrase whose 16-byte
salts or 12-byte nonces differ return different envelope texts; the map from
salt, nonce and ciphertext to the envelope text is injective. -/
theorem envelopes_differ (P : Platform ν) (x password : JsVal) (salt1 iv1 salt2 iv2 : List Byte)
    (hs1 : salt1.length = 16) (hs2 : salt2.length = 16) (hi1 : iv1.length = 12)
    (hi2 : iv2.length = 12) (hne : salt1 ≠ salt2 ∨ iv1 ≠ iv2) (e1 e2 : String)
    (h1 : encrypt P salt1 iv1 x password = .ok e1)
    (h2 : encrypt P salt2 iv2 x password = .ok e2) :
    e1 ≠ e2 ∧
    ∀ c1 c2 : List Byte, btoa (salt1 ++ iv1 ++ c1) = btoa (salt2 ++ iv2 ++ c2) →
      salt1 = salt2 ∧ iv1 = iv2 ∧ c1 = c2 := by
  refine ⟨?_, fun c1 c2 h => envelope_parts_inj _ _ _ _ _ _ hs1 hs2 hi1 hi2 h⟩
  obtain ⟨_, _, c1, _, _, _, he1⟩ := encrypt_eq_ok P salt1 iv1 x password e1 h1
  obtain ⟨_, _, c2, _, _, _, he2⟩ := encrypt_eq_ok P salt2 iv2 x password e2 h2
  intro heq
  rw [he1, he2] at heq
  obtain ⟨hs, hi, _⟩ := envelope_parts_inj _ _ _ _ _ _ hs1 hs2 hi1 hi2 heq
  rcases hne with h | h
  · exact h hs
  · exact h hi

set_option maxRecDepth 1000000 in
/-- A run of C16 on the reference platform: the same payload and passphrase
under two salts. -/
theorem envelopes_differ_witness :
    Sample.salt.length = 16 ∧ (List.replicate 16 (3 : Byte)).length = 16 ∧
    Sample.iv.length = 12 ∧ (Sample.salt ≠ List.replicate 16 3 ∨ Sample.iv ≠ Sample.iv) ∧
    encrypt Reference.platform Sample.salt Sample.iv Sample.payload (.str "pw")
      = .ok Sample.envelope ∧
    encrypt Reference.platform (List.replicate 16 3) Sample.iv Sample.payload (.str "pw")
      = .ok Sample.envelope3 ∧
    Sample.envelope ≠ Sample.envelope3 :=
  have hne : Sample.salt ≠ List.replicate 16 3 ∨ Sample.iv ≠ Sample.iv := Or.inl (by decide)
  have h1 : encrypt Reference.platform Sample.salt Sample.iv Sample.payload (.str "pw")
      = .ok Sample.envelope := by decide
  have h2 : encrypt Reference.platform (List.replicate 16 3) Sample.iv Sample.payload (.str "pw")
      = .ok Sample.envelope3 := by decide
  ⟨by decide, by decide, by decide, hne, h1, h2,
    (envelopes_differ Reference.platform Sample.payload (.str "pw") Sample.salt Sample.iv
      (List.replicate 16 3) Sample.iv (by decide) (by decide) (by decide) (by decide) hne
      _ _ h1 h2).1⟩

end DrimeSyncCore

/-! ## The sync folder is found or created once -/

namespace DrimeSyncCore

variable {ν : Type}

theorem getSyncFolder_listed (P : Platform ν) (w : World ν) (response : Response)
    (entries f : JsVal)
    (hfetch : (P.fetch (listRequest w) w.remote).1 = .ok response)
    (hok : response.ok = true) (hjson : response.json P = .ok entries)
    (hlookup : lookupSyncFolder entries = .ok f) (hf : f.truthy = true) :
    getSyncFolder P w = (f.getProp "id", (w.fetch P (listRequest w)).2) := by
  unfold listRequest at hfetch
  unfold getSyncFolder listRequest
  simp only [World.fetch, hfetch, hok, hjson, hlookup, hf, Bool.not_true, Bool.false_eq_true,
    if_false, if_true]

theorem getSyncFolder_created (P : Platform ν) (w : World ν) (response createResponse : Response)
    (entries f newFolder data : JsVal)
    (hfetch : (P.fetch (listRequest w) w.remote).1 = .ok response)
    (hok : response.ok = true) (hjson : response.json P = .ok entries)
    (hlookup : lookupSyncFolder entries = .ok f) (hf : f.truthy = false)
    (hcreate : (P.fetch (createRequest P (w.fetch P (listRequest w)).2)
      (w.fetch P (listRequest w)).2.remote).1 = .ok createResponse)
    (hcok : createResponse.ok = true) (hcjson : createResponse.json P = .ok newFolder)
    (hdata : newFolder.getProp "data" = .ok data) :
    getSyncFolder P w = (data.getProp "id",
      ((w.fetch P (listRequest w)).2.fetch P
        (createRequest P (w.fetch P (listRequest w)).2)).2) := by
  unfold listRequest at hfetch
  unfold createRequest listRequest World.fetch at hcreate
  simp only [] at hcreate
  unfold getSyncFolder listRequest createRequest
  simp only [World.fetch, hfetch, hok, hjson, hlookup, hf, Bool.not_true, Bool.false_eq_true,
    if_false, hcreate, hcok, hcjson, hdata]

end DrimeSyncCore

namespace RemoteStore

open DrimeSyncCore

theorem getProp_name_entryJs (e : RemoteEntry) :
    (entryJs e).getProp "name" = .ok (.str e.name) := rfl

theorem getProp_type_entryJs (e : RemoteEntry) :
    (entryJs e).getProp "type" = .ok (.str (if e.folder then "folder" else "file")) := rfl

theorem getProp_id_entryJs (e : RemoteEntry) :
    (entryJs e).getProp "id" = .ok (.num e.id) := rfl

theorem findSyncFolder_cons (e : RemoteEntry) (rest : List JsVal) :
    findSyncFolder (entryJs e :: rest) =
      if e.name = SYNC_FOLDER ∧ e.folder = true then .ok (entryJs e) else findSyncFolder rest := by
  rw [findSyncFolder, getProp_name_entryJs]
  simp only [getProp_type_entryJs]
  by_cases hn : e.name = SYNC_FOLDER
  · cases hf : e.folder <;> simp [hn, hf]
  · simp [hn]

theorem findSyncFolder_entries (entries : List RemoteEntry) :
    findSyncFolder (entries.map entryJs) =
      .ok (match (entries.filter
          (fun e => e.name = SYNC_FOLDER ∧ e.folder = true)).head? with
        | some e => entryJs e
        | none => .undefined) := by
  induction entries with
  | nil => rfl
  | cons e rest ih =>
    rw [List.map_cons, findSyncFolder_cons, List.filter_cons]
    by_cases h : e.name = SYNC_FOLDER ∧ e.folder = true
    · simp [h]
    · simp only [h, if_false, decide_False, Bool.false_eq_true]
      exact ih

theorem lookupSyncFolder_listing (s : RemoteStore) :
    lookupSyncFolder (listing s) =
      .ok (match s.syncFolders.head? with
        | some e => entryJs e
        | none => .undefined) := by
  have h : (listing s).getProp "data" = .ok (.arr (s.entries.map entryJs)) := rfl
  unfold lookupSyncFolder
  rw [h]
  exact findSyncFolder_entries s.entries

theorem requestedName_createRequest (w : World RemoteStore) :
    requestedName (createRequest platform w).body = some SYNC_FOLDER := by
  rfl

end RemoteStore

namespace RemoteStore

open DrimeSyncCore

theorem fetch_listRequest (w : World RemoteStore) (s : RemoteStore) :
    fetch (listRequest w) s = (okJson (listing s), s) := by
  unfold fetch
  rw [if_pos ⟨rfl, rfl⟩]

theorem fetch_createRequest (w : World RemoteStore) (s : RemoteStore) :
    fetch (createRequest platform w) s =
      (okJson (created ⟨s.nextId, SYNC_FOLDER, true⟩),
        { entries := s.entries ++ [⟨s.nextId, SYNC_FOLDER, true⟩], nextId := s.nextId + 1 }) := by
  unfold fetch
  rw [if_neg (fun h => (show ¬ ("POST" = "GET") by decide) h.1), if_pos ⟨rfl, rfl⟩,
    requestedName_createRequest]

theorem getSyncFolder_found (w : World RemoteStore) (hr : w.remote.Readable) (e : RemoteEntry)
    (he : w.remote.syncFolders.head? = some e) :
    getSyncFolder platform w = (.ok (.num e.id), (w.fetch platform (listRequest w)).2) := by
  have hl : lookupSyncFolder (listing w.remote) = .ok (entryJs e) := by
    rw [lookupSyncFolder_listing, he]
  have h := getSyncFolder_listed platform w
    ⟨true, 200, "OK", .ok ((Reference.stringify (listing w.remote)).getD "")⟩
    (listing w.remote) (entryJs e)
    (by show (fetch (listRequest w) w.remote).1 = _; rw [fetch_listRequest]; rfl)
    rfl hr.1 hl rfl
  rw [h, getProp_id_entryJs]

theorem getSyncFolder_missing (w : World RemoteStore) (hr : w.remote.Readable)
    (he : w.remote.syncFolders = []) :
    getSyncFolder platform w = (.ok (.num w.remote.nextId),
      ((w.fetch platform (listRequest w)).2.fetch platform
        (createRequest platform (w.fetch platform (listRequest w)).2)).2) := by
  have hl : lookupSyncFolder (listing w.remote) = .ok .undefined := by
    rw [lookupSyncFolder_listing, he]; rfl
  have hrem : (w.fetch platform (listRequest w)).2.remote = w.remote := by
    show (fetch (listRequest w) w.remote).2 = _
    rw [fetch_listRequest]
  have h := getSyncFolder_created platform w
    ⟨true, 200, "OK", .ok ((Reference.stringify (listing w.remote)).getD "")⟩
    ⟨true, 200, "OK", .ok ((Reference.stringify
      (created ⟨w.remote.nextId, SYNC_FOLDER, true⟩)).getD "")⟩
    (listing w.remote) .undefined (created ⟨w.remote.nextId, SYNC_FOLDER, true⟩)
    (entryJs ⟨w.remote.nextId, SYNC_FOLDER, true⟩)
    (by show (fetch (listRequest w) w.remote).1 = _; rw [fetch_listRequest]; rfl)
    rfl hr.1 hl rfl
    (by
      show (fetch (createRequest platform (w.fetch platform (listRequest w)).2)
        (w.fetch platform (listRequest w)).2.remote).1 = _
      rw [fetch_createRequest, hrem]; rfl)
    rfl hr.2 rfl
  rw [h, getProp_id_entryJs]

theorem remote_after_missing (w : World RemoteStore) :
    ((w.fetch platform (listRequest w)).2.fetch platform
      (createRequest platform (w.fetch platform (listRequest w)).2)).2.remote =
      { entries := w.remote.entries ++ [⟨w.remote.nextId, SYNC_FOLDER, true⟩],
        nextId := w.remote.nextId + 1 } := by
  have hrem : (w.fetch platform (listRequest w)).2.remote = w.remote := by
    show (fetch (listRequest w) w.remote).2 = _
    rw [fetch_listRequest]
  show (fetch (createRequest platform (w.fetch platform (listRequest w)).2)
    (w.fetch platform (listRequest w)).2.remote).2 = _
  rw [fetch_createRequest, hrem]

theorem remote_after_found (w : World RemoteStore) :
    (w.fetch platform (listRequest w)).2.remote = w.remote := by
  show (fetch (listRequest w) w.remote).2 = _
  rw [fetch_listRequest]

/-- The root after the first call on an empty root. -/
theorem readable_empty : empty.Readable := ⟨by rfl, by rfl⟩

theorem readable_one : Readable ⟨[⟨1, SYNC_FOLDER, true⟩], 2⟩ := ⟨by rfl, by rfl⟩

theorem getSyncFolderTimes_one (n : Nat) (w : World RemoteStore)
    (hw : w.remote = ⟨[⟨1, SYNC_FOLDER, true⟩], 2⟩) :
    (getSyncFolderTimes platform n w).1 = List.replicate n (.ok (.num 1)) ∧
      (getSyncFolderTimes platform n w).2.remote = ⟨[⟨1, SYNC_FOLDER, true⟩], 2⟩ := by
  induction n generalizing w with
  | zero => exact ⟨rfl, hw⟩
  | succ n ih =>
    have hfound := getSyncFolder_found w (by rw [hw]; exact readable_one) ⟨1, SYNC_FOLDER, true⟩
      (by rw [hw]; rfl)
    have hrem : (getSyncFolder platform w).2.remote = ⟨[⟨1, SYNC_FOLDER, true⟩], 2⟩ := by
      rw [hfound, remote_after_found, hw]
    have h := ih (getSyncFolder platform w).2 hrem
    simp only [getSyncFolderTimes, h.1, h.2, List.replicate_succ, and_true]
    rw [hfound]
    rfl

end RemoteStore

namespace DrimeSyncCore

/-- C11. Over the modelled remote store, whose texts parse back: when a folder
named `SYNC_FOLDER` is listed, `getSyncFolder` returns the id of the first one,
sends the listing request only and leaves the store as it was; otherwise it
creates exactly one folder of that name and returns its id.  For every `n ≥ 1`,
`n` successive calls from an empty root all return the same id and leave exactly
one entry, the folder of that name. -/
theorem getSyncFolder_idempotent :
    (∀ (w : World RemoteStore) (e : RemoteEntry), w.remote.Readable →
      w.remote.syncFolders.head? = some e →
      (getSyncFolder RemoteStore.platform w).1 = .ok (.num e.id) ∧
      (getSyncFolder RemoteStore.platform w).2.remote = w.remote ∧
      (getSyncFolder RemoteStore.platform w).2.trace = w.trace ++ [.fetch (listRequest w)]) ∧
    (∀ (w : World RemoteStore), w.remote.Readable → w.remote.syncFolders = [] →
      (getSyncFolder RemoteStore.platform w).1 = .ok (.num w.remote.nextId) ∧
      (getSyncFolder RemoteStore.platform w).2.remote.entries
        = w.remote.entries ++ [⟨w.remote.nextId, SYNC_FOLDER, true⟩] ∧
      (getSyncFolder RemoteStore.platform w).2.remote.syncFolders
        = [⟨w.remote.nextId, SYNC_FOLDER, true⟩]) ∧
    (∀ (n : Nat) (w : World RemoteStore), 1 ≤ n → w.remote = RemoteStore.empty →
      (getSyncFolderTimes RemoteStore.platform n w).1 = List.replicate n (.ok (.num 1)) ∧
      (getSyncFolderTimes RemoteStore.platform n w).2.remote.entries
        = [⟨1, SYNC_FOLDER, true⟩] ∧
      (getSyncFolderTimes RemoteStore.platform n w).2.remote.syncFolders
        = [⟨1, SYNC_FOLDER, true⟩]) := by
  refine ⟨?_, ?_, ?_⟩
  · intro w e hr he
    rw [RemoteStore.getSyncFolder_found w hr e he]
    exact ⟨rfl, RemoteStore.remote_after_found w, rfl⟩
  · intro w hr he
    rw [RemoteStore.getSyncFolder_missing w hr he]
    refine ⟨rfl, ?_, ?_⟩
    · rw [RemoteStore.remote_after_missing]
    · rw [RemoteStore.remote_after_missing]
      unfold RemoteStore.syncFolders at he ⊢
      simp only [List.filter_append, he, List.nil_append]
      rfl
  · intro n w hn hw
    obtain ⟨m, rfl⟩ : ∃ m, n = m + 1 := ⟨n - 1, by omega⟩
    have hmiss := RemoteStore.getSyncFolder_missing w (by rw [hw]; exact RemoteStore.readable_empty)
      (by rw [hw]; rfl)
    have hrem : (getSyncFolder RemoteStore.platform w).2.remote
        = ⟨[⟨1, SYNC_FOLDER, true⟩], 2⟩ := by
      rw [hmiss, RemoteStore.remote_after_missing, hw]; rfl
    have h := RemoteStore.getSyncFolderTimes_one m (getSyncFolder RemoteStore.platform w).2 hrem
    have hres : (getSyncFolder RemoteStore.platform w).1 = .ok (.num 1) := by
      rw [hmiss, hw]; rfl
    simp only [getSyncFolderTimes, h.1, h.2, hres, List.replicate_succ]
    exact ⟨trivial, trivial, by decide⟩

end DrimeSyncCore

/-! ## Calls on an engine that is not configured -/

namespace DrimeSyncCore

variable {ν : Type}

theorem foldl_getTypingMindDataStep_trace (P : Platform ν) (ks : List String)
    (acc : List (String × JsVal) × World ν) :
    (ks.foldl (getTypingMindDataStep P) acc).2.trace
      = acc.2.trace ++ ks.map Event.storageGet := by
  induction ks generalizing acc with
  | nil => simp
  | cons k ks ih =>
    rw [List.foldl_cons, ih, getTypingMindDataStep_eq]
    simp [World.log]

theorem getTypingMindData_trace (P : Platform ν) (w : World ν) :
    (getTypingMindData P w).2.trace = w.trace ++ keys.map Event.storageGet :=
  foldl_getTypingMindDataStep_trace P keys ([], w)

theorem listRequest_congr {w w1 : World ν} (h : w1.config = w.config) :
    listRequest w1 = listRequest w := by
  simp [listRequest, authorization, World.configField, h]

theorem downloadRequest_congr {w w1 : World ν} (h : w1.config = w.config) (fileId : JsVal) :
    downloadRequest w1 fileId = downloadRequest w fileId := by
  simp [downloadRequest, authorization, World.configField, h]

theorem getSyncFolder_first_request (P : Platform ν) (w : World ν) :
    w.trace ++ [.fetch (listRequest w)] <+: (getSyncFolder P w).2.trace := by
  unfold getSyncFolder listRequest
  simp only []
  repeat' split
  all_goals first
    | exact List.prefix_refl _
    | exact List.prefix_append _ _

theorem backupBody_trace (P : Platform ν) (salt iv : List Byte) (now1 now2 : String)
    (w : World ν) :
    w.trace ++ keys.map Event.storageGet ++ [.encryptCall]
        <+: (backupBody P salt iv now1 now2 w).2.trace ∧
    (∀ enc, encrypt P salt iv (getTypingMindData P w).1 (w.configField "encryptionKey") = .ok enc →
      w.trace ++ keys.map Event.storageGet ++ [.encryptCall, .fetch (listRequest w)]
        <+: (backupBody P salt iv now1 now2 w).2.trace) := by
  have hq1 : w.Quiet ((getTypingMindData P w).2.log .encryptCall) :=
    (getTypingMindData_quiet P w).chain (World.quiet_log _ _ (by simp))
  have ht1 : ((getTypingMindData P w).2.log .encryptCall).trace
      = w.trace ++ keys.map Event.storageGet ++ [.encryptCall] := by
    simp [World.log, getTypingMindData_trace]
  have hkey : ((getTypingMindData P w).2.log .encryptCall).configField "encryptionKey"
      = w.configField "encryptionKey" := configField_congr hq1.config _
  have hfirst := getSyncFolder_first_request P ((getTypingMindData P w).2.log .encryptCall)
  rw [ht1, listRequest_congr hq1.config] at hfirst
  have hfirst' : w.trace ++ keys.map Event.storageGet ++ [.encryptCall, .fetch (listRequest w)]
      <+: (getSyncFolder P ((getTypingMindData P w).2.log .encryptCall)).2.trace := by
    simpa [List.append_assoc] using hfirst
  have hpre : w.trace ++ keys.map Event.storageGet ++ [.encryptCall]
      <+: w.trace ++ keys.map Event.storageGet ++ [.encryptCall, .fetch (listRequest w)] := by
    refine ⟨[.fetch (listRequest w)], ?_⟩
    simp [List.append_assoc]
  unfold backupBody
  simp only []
  rw [hkey]
  cases henc : encrypt P salt iv (getTypingMindData P w).1 (w.configField "encryptionKey") with
  | error e =>
    simp only []
    exact ⟨by rw [ht1], fun enc h => by cases h⟩
  | ok enc =>
    simp only []
    have key : w.trace ++ keys.map Event.storageGet ++ [.encryptCall, .fetch (listRequest w)]
        <+: (match (getSyncFolder P ((getTypingMindData P w).2.log .encryptCall)).1 with
          | .error e => ((.error e : Except JsError JsVal),
              (getSyncFolder P ((getTypingMindData P w).2.log .encryptCall)).2)
          | .ok folderId =>
            match (uploadFile P folderId ("backup-" ++ replaceColonDot now1 ++ ".enc") enc
                (getSyncFolder P ((getTypingMindData P w).2.log .encryptCall)).2).1 with
            | .error e => (.error e,
                (uploadFile P folderId ("backup-" ++ replaceColonDot now1 ++ ".enc") enc
                  (getSyncFolder P ((getTypingMindData P w).2.log .encryptCall)).2).2)
            | .ok _ =>
              (.ok (.obj [("success", .bool true),
                  ("timestamp", (saveConfig P
                    { (uploadFile P folderId ("backup-" ++ replaceColonDot now1 ++ ".enc") enc
                        (getSyncFolder P ((getTypingMindData P w).2.log .encryptCall)).2).2 with
                      config := JsVal.setProp
                        (uploadFile P folderId ("backup-" ++ replaceColonDot now1 ++ ".enc") enc
                          (getSyncFolder P
                            ((getTypingMindData P w).2.log .encryptCall)).2).2.config
                        "lastSync" (.str now2) }).configField "lastSync"),
                  ("filename", .str ("backup-" ++ replaceColonDot now1 ++ ".enc"))]),
                saveConfig P
                  { (uploadFile P folderId ("backup-" ++ replaceColonDot now1 ++ ".enc") enc
                      (getSyncFolder P ((getTypingMindData P w).2.log .encryptCall)).2).2 with
                    config := JsVal.setProp
                      (uploadFile P folderId ("backup-" ++ replaceColonDot now1 ++ ".enc") enc
                        (getSyncFolder P
                          ((getTypingMindData P w).2.log .encryptCall)).2).2.config
                      "lastSync" (.str now2) })).2.trace := by
      cases (getSyncFolder P ((getTypingMindData P w).2.log .encryptCall)).1 with
      | error e => exact hfirst'
      | ok folderId =>
        simp only []
        have hup := (uploadFile_quiet P folderId ("backup-" ++ replaceColonDot now1 ++ ".enc") enc
          (getSyncFolder P ((getTypingMindData P w).2.log .encryptCall)).2).trace
        cases (uploadFile P folderId ("backup-" ++ replaceColonDot now1 ++ ".enc") enc
            (getSyncFolder P ((getTypingMindData P w).2.log .encryptCall)).2).1 with
        | error e => exact hfirst'.trans hup
        | ok _ =>
          simp only [saveConfig, World.setItem]
          exact (hfirst'.trans hup).trans (List.prefix_append _ _)
    exact ⟨hpre.trans key, fun _ _ => key⟩

end DrimeSyncCore

namespace DrimeSyncCore

variable {ν : Type}

theorem restoreBody_trace (P : Platform ν) (fileId : JsVal) (w : World ν) :
    w.trace ++ [.fetch (downloadRequest w fileId)] <+: (restoreBody P fileId w).2.trace := by
  have hd : (downloadFile P fileId w).2.trace = w.trace ++ [.fetch (downloadRequest w fileId)] := by
    rw [downloadFile_world]; rfl
  unfold restoreBody
  simp only []
  cases (downloadFile P fileId w).1 with
  | error e => simp only []; rw [hd]
  | ok encrypted =>
    simp only []
    cases decrypt P encrypted (((downloadFile P fileId w).2.log .decryptCall).configField
        "encryptionKey") with
    | error e =>
      simp only []
      rw [← hd]
      exact List.prefix_append _ _
    | ok data =>
      simp only []
      have hr := (restoreTypingMindData_calm P data ((downloadFile P fileId w).2.log
        .decryptCall)).trace
      have hp : w.trace ++ [.fetch (downloadRequest w fileId)]
          <+: ((downloadFile P fileId w).2.log .decryptCall).trace := by
        rw [← hd]; exact List.prefix_append _ _
      cases (restoreTypingMindData P data ((downloadFile P fileId w).2.log .decryptCall)).1 with
      | error e => exact hp.trans hr
      | ok _ => exact hp.trans hr

theorem backup_trace_of_body (P : Platform ν) (salt iv : List Byte) (now1 now2 : String)
    (w : World ν) (h : w.syncInProgress = false) :
    (backupBody P salt iv now1 now2 { w with syncInProgress := true }).2.trace
      <+: (backup P salt iv now1 now2 w).2.trace := by
  rw [backup_of_idle P salt iv now1 now2 w h]
  cases (backupBody P salt iv now1 now2 { w with syncInProgress := true }).1 with
  | ok result => exact List.prefix_refl _
  | error e => exact List.prefix_append _ _

theorem restore_trace_of_body (P : Platform ν) (fileId : JsVal) (w : World ν)
    (h : w.syncInProgress = false) :
    (restoreBody P fileId { w with syncInProgress := true }).2.trace
      <+: (restore P fileId w).2.trace := by
  rw [restore_of_idle P fileId w h]
  cases (restoreBody P fileId { w with syncInProgress := true }).1 with
  | ok result => exact List.prefix_refl _
  | error e => exact List.prefix_append _ _

theorem getTypingMindData_flag_irrelevant (P : Platform ν) (w : World ν) (b : Bool) :
    (getTypingMindData P { w with syncInProgress := b }).1 = (getTypingMindData P w).1 := by
  rw [getTypingMindData_data, getTypingMindData_data]

set_option maxRecDepth 1000000 in
/-- C12, the claim refuted: an engine that was never configured (token and
passphrase both `null`) runs `backup()` to success: the snapshot is encrypted
under the text `null`, the listing and the upload are sent with the header
`Bearer null`, and `lastSync` is set and persisted. -/
theorem unconfigured_backup_succeeds :
    Sample.unconfigured.configField "apiToken" = .null ∧
    Sample.unconfigured.configField "encryptionKey" = .null ∧
    (backup Reference.platform Sample.salt Sample.iv "2024-01-01T00:00:00.000Z"
        "2024-01-01T00:00:01.000Z" Sample.unconfigured).1
      = .ok (.obj [("success", .bool true), ("timestamp", .str "2024-01-01T00:00:01.000Z"),
          ("filename", .str "backup-2024-01-01T00-00-00-000Z.enc")]) ∧
    Event.encryptCall ∈ (backup Reference.platform Sample.salt Sample.iv
        "2024-01-01T00:00:00.000Z" "2024-01-01T00:00:01.000Z" Sample.unconfigured).2.trace ∧
    Event.fetch (listRequest Sample.unconfigured) ∈ (backup Reference.platform Sample.salt
        Sample.iv "2024-01-01T00:00:00.000Z" "2024-01-01T00:00:01.000Z"
        Sample.unconfigured).2.trace ∧
    (backup Reference.platform Sample.salt Sample.iv "2024-01-01T00:00:00.000Z"
        "2024-01-01T00:00:01.000Z" Sample.unconfigured).2.configField "lastSync"
      = .str "2024-01-01T00:00:01.000Z" :=
  ⟨rfl, rfl, rfl, by decide, by decide, rfl⟩

end DrimeSyncCore

/-! ## Assignments on property lists -/

namespace JsVal

theorem lookup_replaceProp_self (key : String) (v : JsVal) (props : List (String × JsVal))
    (h : (lookup key props).isSome = true) : lookup key (replaceProp key v props) = some v := by
  induction props with
  | nil => simp [lookup] at h
  | cons p rest ih =>
    obtain ⟨k, x⟩ := p
    by_cases hk : k = key
    · simp [replaceProp, lookup, hk]
    · simp only [lookup, if_neg hk] at h
      simp [replaceProp, lookup, hk, ih h]

theorem lookup_replaceProp_ne (key k : String) (v : JsVal) (props : List (String × JsVal))
    (hne : k ≠ key) : lookup k (replaceProp key v props) = lookup k props := by
  have hne' : ¬ key = k := fun h => hne h.symm
  induction props with
  | nil => rfl
  | cons p rest ih =>
    obtain ⟨k1, x⟩ := p
    by_cases hk : k1 = key
    · subst hk
      simp [replaceProp, lookup, hne']
    · by_cases hk1 : k1 = k
      · subst hk1
        simp [replaceProp, lookup, hk]
      · simp [replaceProp, lookup, hk, hk1, ih]

theorem replaceProp_same (key : String) (v : JsVal) (props : List (String × JsVal))
    (h : lookup key props = some v) : replaceProp key v props = props := by
  induction props with
  | nil => rfl
  | cons p rest ih =>
    obtain ⟨k, x⟩ := p
    by_cases hk : k = key
    · simp only [lookup, if_pos hk, Option.some.injEq] at h
      simp [replaceProp, hk, h]
    · simp only [lookup, if_neg hk] at h
      simp [replaceProp, hk, ih h]

theorem map_fst_replaceProp (key : String) (v : JsVal) (props : List (String × JsVal)) :
    (replaceProp key v props).map Prod.fst = props.map Prod.fst := by
  induction props with
  | nil => rfl
  | cons p rest ih =>
    obtain ⟨k, x⟩ := p
    by_cases hk : k = key
    · simp [replaceProp, hk]
    · simp [replaceProp, hk, ih]

theorem lookup_insertIndexed_self (n : Nat) (key : String) (v : JsVal)
    (props : List (String × JsVal)) (h : lookup key props = none) :
    lookup key (insertIndexed n key v props) = some v := by
  induction props with
  | nil => simp [insertIndexed, lookup]
  | cons p rest ih =>
    obtain ⟨k, x⟩ := p
    by_cases hk : k = key
    · simp [lookup, hk] at h
    · simp only [lookup, if_neg hk] at h
      unfold insertIndexed
      split
      · split
        · simp [lookup, hk, ih h]
        · simp [lookup]
      · simp [lookup]

theorem lookup_insertIndexed_ne (n : Nat) (key k : String) (v : JsVal)
    (props : List (String × JsVal)) (hne : k ≠ key) :
    lookup k (insertIndexed n key v props) = lookup k props := by
  have hne' : ¬ key = k := fun h => hne h.symm
  induction props with
  | nil => simp [insertIndexed, lookup, hne']
  | cons p rest ih =>
    obtain ⟨k1, x⟩ := p
    unfold insertIndexed
    split
    · split
      · by_cases hk1 : k1 = k
        · simp [lookup, hk1]
        · simp [lookup, hk1, ih]
      · simp [lookup, hne']
    · simp [lookup, hne']

theorem perm_insertIndexed (n : Nat) (key : String) (v : JsVal) (props : List (String × JsVal)) :
    ((insertIndexed n key v props).map Prod.fst).Perm (key :: props.map Prod.fst) := by
  induction props with
  | nil => simp [insertIndexed]
  | cons p rest ih =>
    obtain ⟨k1, x⟩ := p
    unfold insertIndexed
    split
    · split
      · simp only [List.map_cons]
        exact (List.Perm.cons k1 ih).trans (List.Perm.swap key k1 _)
      · simp
    · simp

theorem lookup_append (key : String) (xs ys : List (String × JsVal)) :
    lookup key (xs ++ ys) = (lookup key xs).orElse (fun _ => lookup key ys) := by
  induction xs with
  | nil => simp [lookup]
  | cons p rest ih =>
    obtain ⟨k, x⟩ := p
    by_cases hk : k = key
    · simp [lookup, hk]
    · simp [lookup, hk, ih]

theorem not_mem_of_lookup_eq_none (key : String) (props : List (String × JsVal))
    (h : lookup key props = none) : key ∉ props.map Prod.fst := by
  induction props with
  | nil => simp
  | cons p rest ih =>
    obtain ⟨k, x⟩ := p
    by_cases hk : k = key
    · simp [lookup, hk] at h
    · simp only [lookup, if_neg hk] at h
      simp only [List.map_cons, List.mem_cons, not_or]
      exact ⟨fun h1 => hk h1.symm, ih h⟩

theorem lookup_setProp_self (props : List (String × JsVal)) (key : String) (v : JsVal) :
    lookup key (setProp props key v) = some v := by
  unfold setProp
  split
  · rename_i h; exact lookup_replaceProp_self key v props h
  · rename_i h
    have hn : lookup key props = none := by
      cases hl : lookup key props with
      | none => rfl
      | some x => simp [hl] at h
    split
    · exact lookup_insertIndexed_self _ key v props hn
    · rw [lookup_append, hn]; simp [lookup]

theorem lookup_setProp_ne (props : List (String × JsVal)) (key k : String) (v : JsVal)
    (hne : k ≠ key) : lookup k (setProp props key v) = lookup k props := by
  have hne' : ¬ key = k := fun h => hne h.symm
  unfold setProp
  split
  · exact lookup_replaceProp_ne key k v props hne
  · split
    · exact lookup_insertIndexed_ne _ key k v props hne
    · rw [lookup_append]
      cases lookup k props <;> simp [lookup, hne']

theorem setProp_same (props : List (String × JsVal)) (key : String) (v : JsVal)
    (h : lookup key props = some v) : setProp props key v = props := by
  unfold setProp
  rw [h]
  exact replaceProp_same key v props h

theorem nodup_setProp (props : List (String × JsVal)) (key : String) (v : JsVal)
    (h : (props.map Prod.fst).Nodup) : ((setProp props key v).map Prod.fst).Nodup := by
  unfold setProp
  split
  · rw [map_fst_replaceProp]; exact h
  · rename_i hs
    have hn : lookup key props = none := by
      cases hl : lookup key props with
      | none => rfl
      | some x => simp [hl] at hs
    have hnm := not_mem_of_lookup_eq_none key props hn
    split
    · exact (perm_insertIndexed _ key v props).nodup_iff.mpr (List.nodup_cons.mpr ⟨hnm, h⟩)
    · rw [List.map_append]
      refine List.Nodup.append h (by simp) ?_
      intro a ha hb
      simp at hb
      exact hnm (hb ▸ ha)

end JsVal

/-! ## The effect of the configuration and scheduler methods -/

namespace DrimeSyncCore

variable {ν : Type}

theorem configField_eq (w : World ν) (field : String) :
    w.configField field = (JsVal.lookup field w.config).getD .undefined := rfl

theorem restoreBody_effect (P : Platform ν) (fileId : JsVal) (w : World ν) :
    w.Calm (restoreBody P fileId w).2 ∧ (restoreBody P fileId w).2.config = w.config := by
  have h1 := downloadFile_quiet P fileId w
  have h2 := h1.chain (World.quiet_log (downloadFile P fileId w).2 .decryptCall (by simp))
  unfold restoreBody
  simp only []
  cases (downloadFile P fileId w).1 with
  | error e => exact ⟨h1.calm, h1.config⟩
  | ok encrypted =>
    simp only []
    cases decrypt P encrypted (((downloadFile P fileId w).2.log .decryptCall).configField
        "encryptionKey") with
    | error e => exact ⟨h2.calm, h2.config⟩
    | ok data =>
      simp only []
      have h3 := restoreTypingMindData_calm P data ((downloadFile P fileId w).2.log .decryptCall)
      have h4 := restoreTypingMindData_config P data ((downloadFile P fileId w).2.log .decryptCall)
      cases (restoreTypingMindData P data ((downloadFile P fileId w).2.log .decryptCall)).1 with
      | error e => exact ⟨h2.calm.seq h3, h4.trans h2.config⟩
      | ok _ => exact ⟨h2.calm.seq h3, h4.trans h2.config⟩

theorem restore_effect (P : Platform ν) (fileId : JsVal) (w : World ν) :
    w.Calm (restore P fileId w).2 ∧ (restore P fileId w).2.config = w.config := by
  cases hflag : w.syncInProgress with
  | true =>
    have hb : restore P fileId w = (.error alreadyInProgress, w) := by
      unfold restore; rw [acquire_eq_error w hflag]
    rw [hb]
    exact ⟨World.Calm.stay _, rfl⟩
  | false =>
    rw [restore_of_idle P fileId w hflag]
    obtain ⟨hc, hcfg⟩ := restoreBody_effect P fileId { w with syncInProgress := true }
    cases (restoreBody P fileId { w with syncInProgress := true }).1 with
    | ok result =>
      refine ⟨⟨?_, hc.syncTimer, hc.timers, hc.timerSeq, hc.trace, hc.calls⟩, hcfg⟩
      simp [release, hflag]
    | error e =>
      refine ⟨⟨?_, hc.syncTimer, hc.timers, hc.timerSeq, ?_, ?_⟩, hcfg⟩
      · simp [release, hflag]
      · exact hc.trace.trans (List.prefix_append _ _)
      · have h := hc.calls
        simp only [release, World.log, List.count_append] at h ⊢
        simp [h, List.count_singleton]

theorem initializeEngine_world (P : Platform ν) (apiToken encryptionKey : JsVal) (w : World ν) :
    (initializeEngine P apiToken encryptionKey w).2
      = (testConnection P (saveConfig P { w with config := (JsVal.setProp
          (JsVal.setProp w.config "apiToken" apiToken) "encryptionKey" encryptionKey) })).2 := by
  unfold initializeEngine
  simp only []
  split <;> rfl

theorem initializeEngine_effect (P : Platform ν) (apiToken encryptionKey : JsVal) (w : World ν) :
    w.Calm (initializeEngine P apiToken encryptionKey w).2 ∧
    (initializeEngine P apiToken encryptionKey w).2.config
      = JsVal.setProp (JsVal.setProp w.config "apiToken" apiToken)
          "encryptionKey" encryptionKey ∧
    (initializeEngine P apiToken encryptionKey w).2.localStorage
      = w.localStorage.setItem "drime_sync_config" (configText P
          (JsVal.setProp (JsVal.setProp w.config "apiToken" apiToken)
            "encryptionKey" encryptionKey)) := by
  rw [initializeEngine_world]
  have hq := testConnection_quiet P (saveConfig P { w with config := (JsVal.setProp
    (JsVal.setProp w.config "apiToken" apiToken) "encryptionKey" encryptionKey) })
  have hs := saveConfig_calm P { w with config := (JsVal.setProp
    (JsVal.setProp w.config "apiToken" apiToken) "encryptionKey" encryptionKey) }
  exact ⟨((World.calm_config w _).seq hs).seq hq.calm, hq.config, hq.localStorage⟩

theorem stopAutoSync_effect (P : Platform ν) (w : World ν) :
    (stopAutoSync P w).config = JsVal.setProp w.config "autoSync" (.bool false) ∧
    (stopAutoSync P w).localStorage = w.localStorage.setItem "drime_sync_config"
      (configText P (JsVal.setProp w.config "autoSync" (.bool false))) ∧
    (stopAutoSync P w).syncTimer = none ∧
    (stopAutoSync P w).timers = (match w.syncTimer with
      | some handle => w.timers.filter (fun t => t.1 != handle)
      | none => w.timers) ∧
    (stopAutoSync P w).timerSeq = w.timerSeq ∧
    (stopAutoSync P w).syncInProgress = w.syncInProgress ∧
    w.trace <+: (stopAutoSync P w).trace ∧
    backupCalls (stopAutoSync P w) = backupCalls w ∧
    (∀ handle, w.syncTimer = some handle →
      Event.clearInterval handle ∈ (stopAutoSync P w).trace) := by
  unfold stopAutoSync
  cases h : w.syncTimer with
  | none =>
    refine ⟨rfl, rfl, h, rfl, rfl, rfl, List.prefix_append _ _, ?_, ?_⟩
    · simp [backupCalls, saveConfig_eq, World.setItem, List.count_append, List.count_singleton]
    · intro handle hh; cases hh
  | some handle =>
    refine ⟨rfl, rfl, rfl, rfl, rfl, rfl, ?_, ?_, ?_⟩
    · simp only [saveConfig_eq, World.setItem, World.clearInterval]
      rw [List.append_assoc]; exact List.prefix_append _ _
    · simp [backupCalls, saveConfig_eq, World.setItem, World.clearInterval, List.count_append,
        List.count_singleton]
    · intro handle1 hh
      cases hh
      simp [saveConfig_eq, World.setItem, World.clearInterval]

theorem fireBackup_effect (P : Platform ν) (d : Draw) (label : String) (w : World ν) :
    (fireBackup P d label w).syncTimer = w.syncTimer ∧
    (fireBackup P d label w).timers = w.timers ∧
    (fireBackup P d label w).timerSeq = w.timerSeq ∧
    (fireBackup P d label w).syncInProgress = w.syncInProgress ∧
    w.trace <+: (fireBackup P d label w).trace ∧
    backupCalls (fireBackup P d label w) = backupCalls w + 1 ∧
    (((fireBackup P d label w).config = w.config ∧
        (fireBackup P d label w).localStorage = w.localStorage) ∨
      ((fireBackup P d label w).config = JsVal.setProp w.config "lastSync" (.str d.now2) ∧
        (fireBackup P d label w).localStorage = w.localStorage.setItem "drime_sync_config"
          (configText P (JsVal.setProp w.config "lastSync" (.str d.now2))))) := by
  obtain ⟨hc, hr⟩ := backup_effect P d.salt d.iv d.now1 d.now2 (w.log .backupCall)
  have hpre : w.trace <+: (w.log .backupCall).trace := List.prefix_append _ _
  have hcount : (w.log .backupCall).trace.count .backupCall = w.trace.count .backupCall + 1 := by
    simp [World.log, List.count_append, List.count_singleton]
  unfold fireBackup
  simp only []
  rcases hr with ⟨e, he, hcfg, hls⟩ | ⟨ts, hv, hcfg, hls, _⟩
  · rw [he]
    simp only [backupCalls]
    refine ⟨hc.syncTimer, hc.timers, hc.timerSeq, hc.flag,
      (hpre.trans hc.trace).trans (List.prefix_append _ _), ?_, Or.inl ⟨hcfg, hls⟩⟩
    have h := hc.calls
    simp only [World.log, List.count_append] at h hcount ⊢
    simp [h, List.count_singleton]
  · rw [hv]
    simp only [backupCalls]
    exact ⟨hc.syncTimer, hc.timers, hc.timerSeq, hc.flag, hpre.trans hc.trace,
      hc.calls.trans hcount, Or.inr ⟨hcfg, hls⟩⟩

end DrimeSyncCore

namespace DrimeSyncCore

variable {ν : Type}

theorem persisted_saveConfig (P : Platform ν) (w : World ν) : Persisted P (saveConfig P w) := by
  simp [Persisted, saveConfig_eq, World.setItem, Storage.setItem]

theorem persisted_of_eq (P : Platform ν) {w w1 : World ν} (hc : w1.config = w.config)
    (hl : w1.localStorage = w.localStorage) (h : Persisted P w) : Persisted P w1 := by
  unfold Persisted at h ⊢
  rw [hc, hl]; exact h

theorem persisted_fireBackup (P : Platform ν) (d : Draw) (label : String) (w : World ν)
    (h : Persisted P w) : Persisted P (fireBackup P d label w) := by
  rcases (fireBackup_effect P d label w).2.2.2.2.2.2 with ⟨hc, hl⟩ | ⟨hc, hl⟩
  · exact persisted_of_eq P hc hl h
  · unfold Persisted
    rw [hc, hl]
    simp [Storage.setItem]

theorem intervalMs_congr {w w1 : World ν}
    (h : JsVal.lookup "syncInterval" w1.config = JsVal.lookup "syncInterval" w.config) :
    intervalMs w1 = intervalMs w := by
  simp [intervalMs, configField_eq, h]

theorem lookup_startConfig (w : World ν) (k : String) (hk : k ≠ "autoSync") :
    JsVal.lookup k (startConfig w) = JsVal.lookup k w.config := by
  unfold startConfig
  rw [JsVal.lookup_setProp_ne _ _ _ _ hk]
  split
  · exact JsVal.lookup_setProp_ne _ _ _ _ hk
  · rfl

theorem lookup_autoSync_startConfig (w : World ν) :
    JsVal.lookup "autoSync" (startConfig w) = some (.bool true) :=
  JsVal.lookup_setProp_self _ _ _

theorem startAutoSync_eq (P : Platform ν) (d : Draw) (w : World ν) :
    startAutoSync P d w = fireBackup P d "Initial sync failed:"
      { (saveConfig P { (if w.syncTimer.isSome then stopAutoSync P w else w) with
            config := startConfig w }).setInterval (intervalMs w) |>.2 with
        syncTimer := some ((if w.syncTimer.isSome then stopAutoSync P w else w).timerSeq + 1) } := by
  have hi : intervalMs (saveConfig P { (if w.syncTimer.isSome then stopAutoSync P w else w) with
      config := startConfig w }) = intervalMs w :=
    intervalMs_congr (lookup_startConfig w "syncInterval" (by decide))
  have hc : JsVal.setProp (if w.syncTimer.isSome then stopAutoSync P w else w).config "autoSync"
      (.bool true) = startConfig w := by
    unfold startConfig
    split
    · rw [(stopAutoSync_effect P w).1]
    · rfl
  unfold startAutoSync
  simp only []
  rw [hc, hi]
  rfl

end DrimeSyncCore

namespace DrimeSyncCore

variable {ν : Type}

theorem stopped_or_not (P : Platform ν) (w : World ν) :
    (if w.syncTimer.isSome then stopAutoSync P w else w).timers = timersAfterStop w ∧
    (if w.syncTimer.isSome then stopAutoSync P w else w).timerSeq = w.timerSeq ∧
    (if w.syncTimer.isSome then stopAutoSync P w else w).syncInProgress = w.syncInProgress ∧
    w.trace <+: (if w.syncTimer.isSome then stopAutoSync P w else w).trace ∧
    backupCalls (if w.syncTimer.isSome then stopAutoSync P w else w) = backupCalls w ∧
    (∀ handle, w.syncTimer = some handle →
      Event.clearInterval handle ∈ (if w.syncTimer.isSome then stopAutoSync P w else w).trace) := by
  obtain ⟨_, _, _, h4, h5, h6, h7, h8, h9⟩ := stopAutoSync_effect P w
  cases h : w.syncTimer with
  | none =>
    simp [timersAfterStop, h]
  | some handle =>
    simp only [Option.isSome_some, if_true]
    rw [h] at h4
    refine ⟨by rw [h4]; simp [timersAfterStop, h], h5, h6, h7, h8, ?_⟩
    intro handle1 hh
    exact h9 handle1 (h.trans hh)

theorem startAutoSync_effect (P : Platform ν) (d : Draw) (w : World ν) :
    (startAutoSync P d w).syncTimer = some (w.timerSeq + 1) ∧
    (startAutoSync P d w).timers = timersAfterStop w ++ [(w.timerSeq + 1, intervalMs w)] ∧
    (startAutoSync P d w).timerSeq = w.timerSeq + 1 ∧
    (startAutoSync P d w).syncInProgress = w.syncInProgress ∧
    w.trace <+: (startAutoSync P d w).trace ∧
    backupCalls (startAutoSync P d w) = backupCalls w + 1 ∧
    (∀ handle, w.syncTimer = some handle →
      Event.clearInterval handle ∈ (startAutoSync P d w).trace) ∧
    Persisted P (startAutoSync P d w) ∧
    ((startAutoSync P d w).config = startConfig w ∨
      (startAutoSync P d w).config = JsVal.setProp (startConfig w) "lastSync" (.str d.now2)) := by
  obtain ⟨s1, s2, s3, s4, s5, s6⟩ := stopped_or_not P w
  rw [startAutoSync_eq]
  obtain ⟨f1, f2, f3, f4, f5, f6, f7⟩ := fireBackup_effect P d "Initial sync failed:"
    { (saveConfig P { (if w.syncTimer.isSome then stopAutoSync P w else w) with
          config := startConfig w }).setInterval (intervalMs w) |>.2 with
      syncTimer := some ((if w.syncTimer.isSome then stopAutoSync P w else w).timerSeq + 1) }
  have hp := persisted_fireBackup P d "Initial sync failed:"
    { (saveConfig P { (if w.syncTimer.isSome then stopAutoSync P w else w) with
          config := startConfig w }).setInterval (intervalMs w) |>.2 with
      syncTimer := some ((if w.syncTimer.isSome then stopAutoSync P w else w).timerSeq + 1) }
    (by simp [Persisted, saveConfig_eq, World.setItem, World.setInterval, Storage.setItem])
  refine ⟨?_, ?_, ?_, ?_, ?_, ?_, ?_, hp, ?_⟩
  · rw [f1, s2]
  · rw [f2]
    simp [World.setInterval, saveConfig_eq, World.setItem, s1, s2]
  · rw [f3]
    simp [World.setInterval, saveConfig_eq, World.setItem, s2]
  · rw [f4]
    simp [World.setInterval, saveConfig_eq, World.setItem, s3]
  · refine List.IsPrefix.trans ?_ f5
    simp only [World.setInterval, saveConfig_eq, World.setItem]
    rw [List.append_assoc]
    exact s4.trans (List.prefix_append _ _)
  · rw [f6]
    have h := s5
    simp only [backupCalls] at h ⊢
    simp [World.setInterval, saveConfig_eq, World.setItem, List.count_append,
      List.count_singleton, h]
  · intro handle hh
    have h := s6 handle hh
    refine f5.subset ?_
    simp only [World.setInterval, saveConfig_eq, World.setItem, List.mem_append]
    exact Or.inl (Or.inl h)
  · rcases f7 with ⟨hc, _⟩ | ⟨hc, _⟩
    · exact Or.inl hc
    · exact Or.inr hc

theorem timerFires_effect (P : Platform ν) (d : Draw) (w : World ν) :
    (timerFires P d w).syncTimer = w.syncTimer ∧
    (timerFires P d w).timers = w.timers ∧
    (timerFires P d w).timerSeq = w.timerSeq ∧
    (timerFires P d w).syncInProgress = w.syncInProgress ∧
    w.trace <+: (timerFires P d w).trace ∧
    (Persisted P w → Persisted P (timerFires P d w)) ∧
    ((timerFires P d w).config = w.config ∨
      (timerFires P d w).config = JsVal.setProp w.config "lastSync" (.str d.now2)) := by
  unfold timerFires
  split
  · exact ⟨rfl, rfl, rfl, rfl, List.prefix_refl _, id, Or.inl rfl⟩
  · obtain ⟨f1, f2, f3, f4, f5, _, f7⟩ := fireBackup_effect P d "Auto-sync failed:" w
    refine ⟨f1, f2, f3, f4, f5, persisted_fireBackup P d _ w, ?_⟩
    rcases f7 with ⟨hc, _⟩ | ⟨hc, _⟩
    · exact Or.inl hc
    · exact Or.inr hc

theorem clearConfig_effect (P : Platform ν) (w : World ν) :
    (clearConfig P w).config = defaultConfig ∧
    (clearConfig P w).localStorage "drime_sync_config" = none ∧
    (clearConfig P w).syncTimer = none ∧
    (clearConfig P w).timers = timersAfterStop w ∧
    (clearConfig P w).timerSeq = w.timerSeq ∧
    (clearConfig P w).syncInProgress = w.syncInProgress ∧
    w.trace <+: (clearConfig P w).trace := by
  obtain ⟨_, _, h3, h4, h5, h6, h7, _, _⟩ := stopAutoSync_effect P w
  unfold clearConfig
  exact ⟨rfl, by simp [World.removeItem, Storage.removeItem], h3, h4, h5, h6,
    h7.trans (List.prefix_append _ _)⟩

end DrimeSyncCore

/-! ## Loading the persisted record -/

namespace DrimeSyncCore

variable {ν : Type}

theorem lookup_mergeProps (base extra : List (String × JsVal)) (k : String)
    (hnd : (extra.map Prod.fst).Nodup) :
    JsVal.lookup k (mergeProps base extra)
      = (JsVal.lookup k extra).orElse (fun _ => JsVal.lookup k base) := by
  unfold mergeProps
  induction extra generalizing base with
  | nil => simp [JsVal.lookup]
  | cons p rest ih =>
    obtain ⟨k1, v1⟩ := p
    simp only [List.map_cons, List.nodup_cons] at hnd
    rw [List.foldl_cons, ih _ hnd.2]
    by_cases hk : k1 = k
    · subst hk
      rw [lookup_eq_none_of_not_mem k1 rest hnd.1]
      simp [JsVal.lookup, JsVal.lookup_setProp_self]
    · have hk' : k ≠ k1 := fun h => hk h.symm
      simp [JsVal.lookup, hk, JsVal.lookup_setProp_ne _ _ _ _ hk']

theorem new_fields (P : Platform ν) (store : Storage) (remote : ν) :
    (new P store remote).syncInProgress = false ∧ (new P store remote).syncTimer = none ∧
    (new P store remote).timers = [] ∧ (new P store remote).timerSeq = 0 ∧
    (new P store remote).localStorage = store := by
  unfold new loadConfig
  simp only [World.getItem]
  repeat' split
  all_goals exact ⟨rfl, rfl, rfl, rfl, rfl⟩

theorem new_of_absent (P : Platform ν) (store : Storage) (remote : ν)
    (h : store "drime_sync_config" = none) : (new P store remote).config = defaultConfig := by
  unfold new loadConfig
  simp only [World.getItem, h]
  rfl

theorem new_of_record (P : Platform ν) (store : Storage) (remote : ν) (text : String)
    (parsed : JsVal) (h1 : store "drime_sync_config" = some text) (h2 : text ≠ "")
    (h3 : P.jsonParse text = .ok parsed) :
    (new P store remote).config = mergeProps defaultConfig (spreadProps parsed) := by
  unfold new loadConfig
  simp only [World.getItem, h1, if_neg h2, h3]
  rfl

theorem configObject_setProp (config : List (String × JsVal)) (key : String) (v : JsVal)
    (h : ConfigObject config) : ConfigObject (JsVal.setProp config key v) := by
  refine ⟨?_, JsVal.nodup_setProp config key v h.2⟩
  intro k hk
  by_cases hkk : k = key
  · subst hkk; rw [JsVal.lookup_setProp_self]; rfl
  · rw [JsVal.lookup_setProp_ne _ _ _ _ hkk]; exact h.1 k hk

theorem configObject_defaultConfig : ConfigObject defaultConfig := by
  constructor
  · unfold HasDefaultFields; decide
  · decide

theorem configObject_startConfig (w : World ν) (h : ConfigObject w.config) :
    ConfigObject (startConfig w) := by
  unfold startConfig
  split
  · exact configObject_setProp _ _ _ (configObject_setProp _ _ _ h)
  · exact configObject_setProp _ _ _ h

theorem configText_of_roundTrip (P : Platform ν) (config : List (String × JsVal))
    (hobj : ConfigObject config) (text : String) (h : P.jsonStringify (.obj config) = some text) :
    configText P config = text := by
  unfold configText
  have hk := hobj.1 "encryptionKey" (by decide)
  cases hl : JsVal.lookup "encryptionKey" config with
  | none => rw [hl] at hk; cases hk
  | some v =>
    rw [Option.getD_some, JsVal.setProp_same config "encryptionKey" v hl, h]
    rfl

theorem reloads_of_persisted (P : Platform ν) (w : World ν) (hp : Persisted P w)
    (hobj : ConfigObject w.config) (hjson : JsonRoundTrips P (.obj w.config)) : Reloads P w := by
  obtain ⟨text, hne, hs, hparse⟩ := hjson
  intro remote field
  unfold Persisted at hp
  rw [configText_of_roundTrip P w.config hobj text hs] at hp
  rw [configField_eq, configField_eq, new_of_record P w.localStorage remote text _ hp hne hparse]
  simp only [spreadProps]
  rw [lookup_mergeProps _ _ _ hobj.2]
  cases hl : JsVal.lookup field w.config with
  | some v => rfl
  | none =>
    have hnot : field ∉ defaultConfig.map Prod.fst := by
      intro hmem
      have := hobj.1 field hmem
      rw [hl] at this
      cases this
    rw [lookup_eq_none_of_not_mem field defaultConfig hnot]
    rfl

theorem reloads_of_absent (P : Platform ν) (w : World ν)
    (hrec : w.localStorage "drime_sync_config" = none) (hcfg : w.config = defaultConfig) :
    Reloads P w := by
  intro remote field
  rw [configField_eq, configField_eq, new_of_absent P w.localStorage remote hrec, hcfg]

end DrimeSyncCore

/-! ## Invariants of the scheduler -/

namespace DrimeSyncCore

variable {ν : Type}

theorem timersAfterStop_of_consistent (w : World ν) (h : TimerConsistent w) :
    timersAfterStop w = [] := by
  unfold TimerConsistent at h
  unfold timersAfterStop
  cases hs : w.syncTimer with
  | none =>
    rw [hs] at h
    simpa using h
  | some handle =>
    rw [hs] at h
    simp only [List.filter_eq_nil_iff]
    intro t ht
    have hm : t.1 ∈ w.timers.map Prod.fst := List.mem_map_of_mem Prod.fst ht
    rw [h] at hm
    simp at hm
    simp [hm]

theorem timerConsistent_of_eq {w w1 : World ν} (ht : w1.timers = w.timers)
    (hs : w1.syncTimer = w.syncTimer) (h : TimerConsistent w) : TimerConsistent w1 := by
  unfold TimerConsistent at h ⊢
  rw [ht, hs]; exact h

theorem timerConsistent_startAutoSync (P : Platform ν) (d : Draw) (w : World ν)
    (h : TimerConsistent w) : TimerConsistent (startAutoSync P d w) := by
  obtain ⟨h1, h2, _⟩ := startAutoSync_effect P d w
  unfold TimerConsistent
  rw [h1, h2, timersAfterStop_of_consistent w h]
  rfl

theorem timerConsistent_stopAutoSync (P : Platform ν) (w : World ν)
    (h : TimerConsistent w) : TimerConsistent (stopAutoSync P w) := by
  obtain ⟨_, _, h3, h4, _⟩ := stopAutoSync_effect P w
  have h0 := timersAfterStop_of_consistent w h
  unfold timersAfterStop at h0
  unfold TimerConsistent
  rw [h3, h4, h0]
  rfl

theorem timerConsistent_perform (P : Platform ν) (w : World ν) (c : Call)
    (h : TimerConsistent w) : TimerConsistent (perform P w c) := by
  cases c with
  | initializeEngine apiToken encryptionKey =>
    have hc := (initializeEngine_effect P apiToken encryptionKey w).1
    exact timerConsistent_of_eq hc.timers hc.syncTimer h
  | backup d =>
    have hc := (backup_effect P d.salt d.iv d.now1 d.now2 w).1
    exact timerConsistent_of_eq hc.timers hc.syncTimer h
  | restore fileId =>
    have hc := (restore_effect P fileId w).1
    exact timerConsistent_of_eq hc.timers hc.syncTimer h
  | startAutoSync d => exact timerConsistent_startAutoSync P d w h
  | stopAutoSync => exact timerConsistent_stopAutoSync P w h
  | setSyncInterval minutes d =>
    show TimerConsistent (setSyncInterval P minutes d w)
    unfold setSyncInterval
    simp only []
    split
    · exact timerConsistent_startAutoSync P d _ (timerConsistent_of_eq rfl rfl h)
    · exact timerConsistent_of_eq rfl rfl h
  | clearConfig =>
    obtain ⟨_, _, h3, h4, _⟩ := clearConfig_effect P w
    show TimerConsistent (clearConfig P w)
    unfold TimerConsistent
    rw [h3, h4, timersAfterStop_of_consistent w h]
    rfl
  | timerFires d =>
    obtain ⟨h1, h2, _⟩ := timerFires_effect P d w
    exact timerConsistent_of_eq h2 h1 h

theorem timerConsistent_performAll (P : Platform ν) (calls : List Call) (w : World ν)
    (h : TimerConsistent w) : TimerConsistent (performAll P w calls) := by
  unfold performAll
  induction calls generalizing w with
  | nil => exact h
  | cons c rest ih => exact ih _ (timerConsistent_perform P w c h)

theorem length_timers_le_one (w : World ν) (h : TimerConsistent w) : w.timers.length ≤ 1 := by
  unfold TimerConsistent at h
  have hl : (w.timers.map Prod.fst).length = w.syncTimer.toList.length := by rw [h]
  rw [List.length_map] at hl
  rw [hl]
  cases w.syncTimer <;> simp

theorem autoSync_of_lastSync (config : List (String × JsVal)) (v : JsVal) :
    JsVal.lookup "autoSync" (JsVal.setProp config "lastSync" v)
      = JsVal.lookup "autoSync" config :=
  JsVal.lookup_setProp_ne _ _ _ _ (by decide)

theorem autoSyncArmed_of_eq {w w1 : World ν}
    (hc : JsVal.lookup "autoSync" w1.config = JsVal.lookup "autoSync" w.config)
    (hs : w1.syncTimer = w.syncTimer) (h : AutoSyncArmed w) : AutoSyncArmed w1 := by
  unfold AutoSyncArmed at h ⊢
  rw [configField_eq, hc, hs]
  exact h

theorem autoSyncArmed_startAutoSync (P : Platform ν) (d : Draw) (w : World ν) :
    AutoSyncArmed (startAutoSync P d w) := by
  intro _
  rw [(startAutoSync_effect P d w).1]
  rfl

theorem autoSyncArmed_of_false (w : World ν)
    (h : JsVal.lookup "autoSync" w.config = some (.bool false)) : AutoSyncArmed w := by
  intro ht
  rw [configField_eq, h] at ht
  cases ht

theorem autoSyncArmed_perform (P : Platform ν) (w : World ν) (c : Call)
    (h : AutoSyncArmed w) : AutoSyncArmed (perform P w c) := by
  cases c with
  | initializeEngine apiToken encryptionKey =>
    obtain ⟨hc, hcfg, _⟩ := initializeEngine_effect P apiToken encryptionKey w
    refine autoSyncArmed_of_eq ?_ hc.syncTimer h
    show JsVal.lookup "autoSync" (initializeEngine P apiToken encryptionKey w).2.config = _
    rw [hcfg, JsVal.lookup_setProp_ne _ _ _ _ (by decide),
      JsVal.lookup_setProp_ne _ _ _ _ (by decide)]
  | backup d =>
    obtain ⟨hc, hr⟩ := backup_effect P d.salt d.iv d.now1 d.now2 w
    refine autoSyncArmed_of_eq ?_ hc.syncTimer h
    show JsVal.lookup "autoSync" (backup P d.salt d.iv d.now1 d.now2 w).2.config = _
    rcases hr with ⟨_, _, hcfg, _⟩ | ⟨_, _, hcfg, _⟩
    · rw [hcfg]
    · rw [hcfg, autoSync_of_lastSync]
  | restore fileId =>
    obtain ⟨hc, hcfg⟩ := restore_effect P fileId w
    refine autoSyncArmed_of_eq ?_ hc.syncTimer h
    show JsVal.lookup "autoSync" (restore P fileId w).2.config = _
    rw [hcfg]
  | startAutoSync d => exact autoSyncArmed_startAutoSync P d w
  | stopAutoSync =>
    refine autoSyncArmed_of_false _ ?_
    show JsVal.lookup "autoSync" (stopAutoSync P w).config = _
    rw [(stopAutoSync_effect P w).1, JsVal.lookup_setProp_self]
  | setSyncInterval minutes d =>
    show AutoSyncArmed (setSyncInterval P minutes d w)
    unfold setSyncInterval
    simp only []
    split
    · exact autoSyncArmed_startAutoSync P d _
    · rename_i hf
      intro ht
      rw [ht] at hf
      exact absurd rfl hf
  | clearConfig =>
    refine autoSyncArmed_of_false _ ?_
    show JsVal.lookup "autoSync" (clearConfig P w).config = _
    rw [(clearConfig_effect P w).1]
    rfl
  | timerFires d =>
    obtain ⟨h1, _, _, _, _, _, h7⟩ := timerFires_effect P d w
    refine autoSyncArmed_of_eq ?_ h1 h
    show JsVal.lookup "autoSync" (timerFires P d w).config = _
    rcases h7 with hcfg | hcfg
    · rw [hcfg]
    · rw [hcfg, autoSync_of_lastSync]

theorem autoSyncArmed_performAll (P : Platform ν) (calls : List Call) (w : World ν)
    (h : AutoSyncArmed w) : AutoSyncArmed (performAll P w calls) := by
  unfold performAll
  induction calls generalizing w with
  | nil => exact h
  | cons c rest ih => exact ih _ (autoSyncArmed_perform P w c h)

end DrimeSyncCore

/-! ## Automatic sync: the claims -/

namespace DrimeSyncCore

variable {ν : Type}

theorem setItem_setItem (s : Storage) (key value : String) :
    (s.setItem key value).setItem key value = s.setItem key value := by
  funext k
  simp only [Storage.setItem]
  split <;> rfl

theorem setItem_of_eq (s : Storage) (key value : String) (h : s key = some value) :
    s.setItem key value = s := by
  funext k
  simp only [Storage.setItem]
  split
  · rename_i hk; rw [hk, h]
  · rfl

theorem lookup_of_configField (w : World ν) (field : String) (b : Bool)
    (h : w.configField field = .bool b) : JsVal.lookup field w.config = some (.bool b) := by
  rw [configField_eq] at h
  cases hl : JsVal.lookup field w.config with
  | none => rw [hl] at h; cases h
  | some v => rw [hl] at h; exact congrArg some h

theorem intervalMs_of_num (w : World ν) (n : Int) (h : w.configField "syncInterval" = .num n) :
    intervalMs w = some (n * 60000) := by
  unfold intervalMs
  rw [h]
  simp only [JsVal.toNumber, Option.map_some']
  congr 1
  ring

theorem autoSync_startAutoSync (P : Platform ν) (d : Draw) (w : World ν) :
    JsVal.lookup "autoSync" (startAutoSync P d w).config = some (.bool true) := by
  rcases (startAutoSync_effect P d w).2.2.2.2.2.2.2.2 with hc | hc
  · rw [hc, lookup_autoSync_startConfig]
  · rw [hc, autoSync_of_lastSync, lookup_autoSync_startConfig]

theorem setSyncInterval_of_autoSync (P : Platform ν) (minutes : JsVal) (d : Draw) (w : World ν)
    (h : JsVal.lookup "autoSync" w.config = some (.bool true)) :
    setSyncInterval P minutes d w = startAutoSync P d
      (saveConfig P { w with config := JsVal.setProp w.config "syncInterval" minutes }) := by
  unfold setSyncInterval
  simp only []
  rw [if_pos]
  rw [configField_eq, saveConfig_config]
  show ((JsVal.lookup "autoSync" (JsVal.setProp w.config "syncInterval" minutes)).getD
    .undefined).truthy = true
  rw [JsVal.lookup_setProp_ne _ _ _ _ (by decide), h]
  rfl

/-- C17, the claim refuted: an engine constructed over the record that an
engine with automatic sync running left behind (the page was loaded again) has
`config.autoSync === true` and `syncTimer === null`. -/
theorem autoSync_without_timer_after_reload :
    Sample.started.configField "autoSync" = .bool true ∧
    Sample.started.syncTimer = some 1 ∧
    Sample.reloaded.configField "autoSync" = .bool true ∧
    Sample.reloaded.syncTimer = none :=
  ⟨rfl, rfl, rfl, rfl⟩

/-- C17, amended. The constructor never arms a timer; over a store without a
persisted record the engine starts with `autoSync` false; and every call of
`initialize`, `backup`, `restore`, `startAutoSync`, `stopAutoSync`,
`setSyncInterval`, `clearConfig` and every firing of the timer keeps the
invariant that `config.autoSync === true` only with a timer handle stored, so
every sequence of calls from a state with the invariant ends in one; and
`startAutoSync` establishes it from any state. -/
theorem autoSync_armed_preserved (P : Platform ν) :
    (∀ store remote, (new P store remote).syncTimer = none) ∧
    (∀ store remote, store "drime_sync_config" = none → AutoSyncArmed (new P store remote)) ∧
    (∀ w c, AutoSyncArmed w → AutoSyncArmed (perform P w c)) ∧
    (∀ w calls, AutoSyncArmed w → AutoSyncArmed (performAll P w calls)) ∧
    (∀ store remote calls, store "drime_sync_config" = none →
      AutoSyncArmed (performAll P (new P store remote) calls)) ∧
    (∀ w d, AutoSyncArmed (startAutoSync P d w)) := by
  have hnew : ∀ store remote, store "drime_sync_config" = none →
      AutoSyncArmed (new P store remote) := by
    intro store remote h
    refine autoSyncArmed_of_false _ ?_
    rw [new_of_absent P store remote h]
    rfl
  exact ⟨fun store remote => (new_fields P store remote).2.1, hnew,
    fun w c h => autoSyncArmed_perform P w c h,
    fun w calls h => autoSyncArmed_performAll P calls w h,
    fun store remote calls h => autoSyncArmed_performAll P calls _ (hnew store remote h),
    fun w d => autoSyncArmed_startAutoSync P d w⟩

/-- C18. From a state whose armed timers are exactly the one `syncTimer`
names, with `syncInterval` holding `n`: `startAutoSync()` leaves one timer, of
period `n * 60000` ms, and has invoked `backup()` once; `setSyncInterval(m)`
after it leaves one timer, with a new handle and period `m * 60000` ms, has
cancelled the first (`clearInterval` was called on its handle) and has invoked
`backup()` exactly once more; and after any sequence of calls at most one
timer is armed. -/
theorem restart_leaves_one_timer (P : Platform ν) (w : World ν) (n m : Int) (d1 d2 : Draw)
    (hw : TimerConsistent w) (hn : w.configField "syncInterval" = .num n) :
    (startAutoSync P d1 w).timers = [(w.timerSeq + 1, some (n * 60000))] ∧
    (startAutoSync P d1 w).syncTimer = some (w.timerSeq + 1) ∧
    backupCalls (startAutoSync P d1 w) = backupCalls w + 1 ∧
    (setSyncInterval P (.num m) d2 (startAutoSync P d1 w)).timers
      = [(w.timerSeq + 2, some (m * 60000))] ∧
    (setSyncInterval P (.num m) d2 (startAutoSync P d1 w)).syncTimer = some (w.timerSeq + 2) ∧
    Event.clearInterval (w.timerSeq + 1)
      ∈ (setSyncInterval P (.num m) d2 (startAutoSync P d1 w)).trace ∧
    backupCalls (setSyncInterval P (.num m) d2 (startAutoSync P d1 w))
      = backupCalls (startAutoSync P d1 w) + 1 ∧
    (∀ calls, TimerConsistent (performAll P w calls) ∧
      (performAll P w calls).timers.length ≤ 1) := by
  obtain ⟨a1, a2, a3, _, _, a6, _⟩ := startAutoSync_effect P d1 w
  have hcons1 := timerConsistent_startAutoSync P d1 w hw
  rw [timersAfterStop_of_consistent w hw, intervalMs_of_num w n hn] at a2
  rw [setSyncInterval_of_autoSync P (.num m) d2 _ (autoSync_startAutoSync P d1 w)]
  have hcons2 : TimerConsistent (saveConfig P { startAutoSync P d1 w with
      config := (JsVal.setProp (startAutoSync P d1 w).config "syncInterval" (.num m)) }) :=
    timerConsistent_of_eq rfl rfl hcons1
  have hm : (saveConfig P { startAutoSync P d1 w with
      config := (JsVal.setProp (startAutoSync P d1 w).config "syncInterval" (.num m)) }).configField
        "syncInterval" = .num m := by
    rw [configField_eq, saveConfig_config]
    show (JsVal.lookup "syncInterval"
      (JsVal.setProp (startAutoSync P d1 w).config "syncInterval" (.num m))).getD .undefined = _
    rw [JsVal.lookup_setProp_self]
    rfl
  obtain ⟨b1, b2, _, _, _, b6, b7, _⟩ := startAutoSync_effect P d2 (saveConfig P
    { startAutoSync P d1 w with
      config := (JsVal.setProp (startAutoSync P d1 w).config "syncInterval" (.num m)) })
  rw [timersAfterStop_of_consistent _ hcons2, intervalMs_of_num _ m hm] at b2
  have hseq : (saveConfig P { startAutoSync P d1 w with
      config := (JsVal.setProp (startAutoSync P d1 w).config "syncInterval" (.num m)) }).timerSeq
        = w.timerSeq + 1 := (startAutoSync_effect P d1 w).2.2.1
  have hcalls : backupCalls (saveConfig P { startAutoSync P d1 w with
      config := (JsVal.setProp (startAutoSync P d1 w).config "syncInterval" (.num m)) })
        = backupCalls (startAutoSync P d1 w) := by
    simp [backupCalls, saveConfig_eq, World.setItem, List.count_append, List.count_singleton]
  rw [hseq] at b1 b2
  refine ⟨a2, a1, a6, b2, b1, b7 _ a1, ?_, fun calls => ?_⟩
  · rw [b6, hcalls]
  · have h := timerConsistent_performAll P calls w hw
    exact ⟨h, length_timers_le_one _ h⟩

/-- C19, the claim refuted: on a fresh engine (no timer armed, no record
persisted) `stopAutoSync()` writes the record; on an engine constructed over a
record with `autoSync` true (no timer armed) it changes the configuration in
memory. -/
theorem unarmed_stop_changes_state :
    Sample.unconfigured.syncTimer = none ∧
    Sample.unconfigured.localStorage "drime_sync_config" = none ∧
    (stopAutoSync Reference.platform Sample.unconfigured).localStorage "drime_sync_config"
      = some ("\x7b\"apiToken\":null,\"encryptionKey\":null,\"syncInterval\":5," ++
          "\"autoSync\":false,\"lastSync\":null\x7d") ∧
    Sample.reloaded.syncTimer = none ∧
    Sample.reloaded.configField "autoSync" = .bool true ∧
    (stopAutoSync Reference.platform Sample.reloaded).configField "autoSync" = .bool false :=
  ⟨rfl, rfl, by decide, rfl, rfl, rfl⟩

/-- C19, amended. With no timer armed, `stopAutoSync()` leaves the timer
state as it is, sets `autoSync` to `false` and writes the record anew; it leaves
the configuration in memory unchanged exactly when `autoSync` was already
`false`, and the store unchanged when the record already was the text of that
configuration.  In any state a second `stopAutoSync()` changes neither
configuration, store nor timer state. -/
theorem stopAutoSync_unarmed (P : Platform ν) (w : World ν) (h : w.syncTimer = none) :
    (stopAutoSync P w).syncTimer = none ∧
    (stopAutoSync P w).timers = w.timers ∧
    (stopAutoSync P w).config = JsVal.setProp w.config "autoSync" (.bool false) ∧
    (stopAutoSync P w).localStorage = w.localStorage.setItem "drime_sync_config"
      (configText P (JsVal.setProp w.config "autoSync" (.bool false))) ∧
    (w.configField "autoSync" = .bool false →
      (stopAutoSync P w).config = w.config ∧
      (Persisted P w → (stopAutoSync P w).localStorage = w.localStorage)) ∧
    (∀ w0 : World ν,
      (stopAutoSync P (stopAutoSync P w0)).config = (stopAutoSync P w0).config ∧
      (stopAutoSync P (stopAutoSync P w0)).localStorage = (stopAutoSync P w0).localStorage ∧
      (stopAutoSync P (stopAutoSync P w0)).syncTimer = (stopAutoSync P w0).syncTimer ∧
      (stopAutoSync P (stopAutoSync P w0)).timers = (stopAutoSync P w0).timers) := by
  obtain ⟨h1, h2, h3, h4, _⟩ := stopAutoSync_effect P w
  rw [h] at h4
  refine ⟨h3, h4, h1, h2, ?_, ?_⟩
  · intro hf
    have hsame := JsVal.setProp_same w.config "autoSync" (.bool false)
      (lookup_of_configField w "autoSync" false hf)
    refine ⟨h1.trans hsame, fun hp => ?_⟩
    rw [h2, hsame]
    exact setItem_of_eq _ _ _ hp
  · intro w0
    obtain ⟨c1, c2, c3, _⟩ := stopAutoSync_effect P w0
    obtain ⟨e1, e2, e3, e4, _⟩ := stopAutoSync_effect P (stopAutoSync P w0)
    have hsame : JsVal.setProp (stopAutoSync P w0).config "autoSync" (.bool false)
        = (stopAutoSync P w0).config := by
      apply JsVal.setProp_same
      rw [c1, JsVal.lookup_setProp_self]
    rw [c3] at e4
    refine ⟨e1.trans hsame, ?_, e3.trans c3.symm, e4⟩
    rw [e2, hsame, c1, c2]
    exact setItem_setItem _ _ _

end DrimeSyncCore

/-! ## The persisted record follows every mutation -/

namespace DrimeSyncCore

variable {ν : Type}

theorem persisted_of_saved (P : Platform ν) (w : World ν) (store : Storage)
    (h : w.localStorage = store.setItem "drime_sync_config" (configText P w.config)) :
    Persisted P w := by
  unfold Persisted
  rw [h]
  simp [Storage.setItem]

set_option maxRecDepth 1000000 in
/-- C20, the claim refuted: a field holding `undefined` is left out of the
record `JSON.stringify` writes, so a fresh engine over the store holds the
default in it.  After `setSyncInterval(undefined)` the engine holds
`undefined` as interval and the fresh engine 5; after
`initialize(undefined, undefined)` the engine holds `undefined` as token and the
fresh engine `null`. -/
theorem undefined_field_reloads_default :
    (setSyncInterval Reference.platform .undefined Sample.laterDraw
      Sample.unconfigured).configField "syncInterval" = .undefined ∧
    (setSyncInterval Reference.platform .undefined Sample.laterDraw
      Sample.unconfigured).localStorage "drime_sync_config"
      = some ("\x7b\"apiToken\":null,\"encryptionKey\":null,\"autoSync\":false," ++
          "\"lastSync\":null\x7d") ∧
    (new Reference.platform (setSyncInterval Reference.platform .undefined Sample.laterDraw
      Sample.unconfigured).localStorage []).configField "syncInterval" = .num 5 ∧
    (initializeEngine Reference.platform .undefined .undefined
      Sample.unconfigured).2.configField "apiToken" = .undefined ∧
    (initializeEngine Reference.platform .undefined .undefined
      Sample.unconfigured).2.localStorage "drime_sync_config"
      = some "\x7b\"syncInterval\":5,\"autoSync\":false,\"lastSync\":null\x7d" ∧
    (new Reference.platform (initializeEngine Reference.platform .undefined .undefined
      Sample.unconfigured).2.localStorage []).configField "apiToken" = .null :=
  ⟨rfl, by decide, rfl, rfl, by decide, rfl⟩

/-- C20, amended. After `initialize`, a `backup()` that succeeds,
`startAutoSync`, `stopAutoSync` and `setSyncInterval` the persisted record is
the text `saveConfig` writes for the whole configuration then in memory
(`JSON.stringify` of it, token and passphrase in clear); after `clearConfig`
the record is absent and the configuration in memory is the defaults.  Hence,
from a configuration object with the five fields, a fresh engine constructed
over the store left behind holds in each field the value the engine that made
the call holds in memory, whenever that configuration is one that
`JSON.stringify` and `JSON.parse` carry over unchanged, and after `clearConfig`
in every case. -/
theorem config_persisted_on_mutation (P : Platform ν) (w : World ν)
    (hobj : ConfigObject w.config) :
    (∀ apiToken encryptionKey,
      Persisted P (initializeEngine P apiToken encryptionKey w).2 ∧
      (JsonRoundTrips P (.obj (initializeEngine P apiToken encryptionKey w).2.config) →
        Reloads P (initializeEngine P apiToken encryptionKey w).2)) ∧
    (∀ salt iv now1 now2 result, (backup P salt iv now1 now2 w).1 = .ok result →
      Persisted P (backup P salt iv now1 now2 w).2 ∧
      (JsonRoundTrips P (.obj (backup P salt iv now1 now2 w).2.config) →
        Reloads P (backup P salt iv now1 now2 w).2)) ∧
    (∀ d, Persisted P (startAutoSync P d w) ∧
      (JsonRoundTrips P (.obj (startAutoSync P d w).config) → Reloads P (startAutoSync P d w))) ∧
    (Persisted P (stopAutoSync P w) ∧
      (JsonRoundTrips P (.obj (stopAutoSync P w).config) → Reloads P (stopAutoSync P w))) ∧
    (∀ minutes d, Persisted P (setSyncInterval P minutes d w) ∧
      (JsonRoundTrips P (.obj (setSyncInterval P minutes d w).config) →
        Reloads P (setSyncInterval P minutes d w))) ∧
    ((clearConfig P w).localStorage "drime_sync_config" = none ∧
      (clearConfig P w).config = defaultConfig ∧ Reloads P (clearConfig P w)) := by
  have hstart : ∀ (d : Draw) (w0 : World ν), ConfigObject w0.config →
      Persisted P (startAutoSync P d w0) ∧
      (JsonRoundTrips P (.obj (startAutoSync P d w0).config) →
        Reloads P (startAutoSync P d w0)) := by
    intro d w0 h0
    obtain ⟨_, _, _, _, _, _, _, hp, hc⟩ := startAutoSync_effect P d w0
    refine ⟨hp, fun hj => reloads_of_persisted P _ hp ?_ hj⟩
    rcases hc with hc | hc
    · rw [hc]; exact configObject_startConfig w0 h0
    · rw [hc]; exact configObject_setProp _ _ _ (configObject_startConfig w0 h0)
  refine ⟨?_, ?_, fun d => hstart d w hobj, ?_, ?_, ?_⟩
  · intro apiToken encryptionKey
    obtain ⟨_, hc, hl⟩ := initializeEngine_effect P apiToken encryptionKey w
    have hp : Persisted P (initializeEngine P apiToken encryptionKey w).2 :=
      persisted_of_saved P _ w.localStorage (by rw [hl, hc])
    refine ⟨hp, fun hj => reloads_of_persisted P _ hp ?_ hj⟩
    rw [hc]; exact configObject_setProp _ _ _ (configObject_setProp _ _ _ hobj)
  · intro salt iv now1 now2 result hres
    rcases (backup_effect P salt iv now1 now2 w).2 with ⟨e, he, _⟩ | ⟨_, _, hc, hl, _⟩
    · rw [he] at hres; cases hres
    · have hp : Persisted P (backup P salt iv now1 now2 w).2 :=
        persisted_of_saved P _ w.localStorage (by rw [hl, hc])
      refine ⟨hp, fun hj => reloads_of_persisted P _ hp ?_ hj⟩
      rw [hc]; exact configObject_setProp _ _ _ hobj
  · obtain ⟨hc, hl, _⟩ := stopAutoSync_effect P w
    have hp : Persisted P (stopAutoSync P w) :=
      persisted_of_saved P _ w.localStorage (by rw [hl, hc])
    refine ⟨hp, fun hj => reloads_of_persisted P _ hp ?_ hj⟩
    rw [hc]; exact configObject_setProp _ _ _ hobj
  · intro minutes d
    unfold setSyncInterval
    simp only []
    split
    · exact hstart d _ (configObject_setProp _ _ _ hobj)
    · exact ⟨persisted_saveConfig P _, fun hj => reloads_of_persisted P _
        (persisted_saveConfig P _) (configObject_setProp _ _ _ hobj) hj⟩
  · obtain ⟨hc, hl, _⟩ := clearConfig_effect P w
    exact ⟨hl, hc, reloads_of_absent P _ hl hc⟩

end DrimeSyncCore

/-! ## Runs of the claims on the reference platform -/

namespace DrimeSyncCore

set_option maxRecDepth 1000000 in
/-- A run of C11: a root that lists the sync folder with id 7 behind a text
file, and three calls from an empty root. -/
theorem getSyncFolder_idempotent_witness :
    Sample.storeFound.remote.Readable ∧
    Sample.storeFound.remote.syncFolders.head? = some ⟨7, "TypingMindBackup", true⟩ ∧
    (getSyncFolder RemoteStore.platform Sample.storeFound).1 = .ok (.num 7) ∧
    (getSyncFolder RemoteStore.platform Sample.storeFound).2.remote = Sample.storeFound.remote ∧
    1 ≤ 3 ∧ Sample.storeWorld.remote = RemoteStore.empty ∧
    (getSyncFolderTimes RemoteStore.platform 3 Sample.storeWorld).1
      = [.ok (.num 1), .ok (.num 1), .ok (.num 1)] ∧
    (getSyncFolderTimes RemoteStore.platform 3 Sample.storeWorld).2.remote.entries
      = [⟨1, "TypingMindBackup", true⟩] :=
  have h1 := getSyncFolder_idempotent.1 Sample.storeFound ⟨7, "TypingMindBackup", true⟩
    ⟨rfl, rfl⟩ rfl
  have h3 := getSyncFolder_idempotent.2.2 3 Sample.storeWorld (by decide) rfl
  ⟨⟨rfl, rfl⟩, rfl, h1.1, h1.2.1, by decide, rfl, h3.1, h3.2.1⟩

set_option maxRecDepth 1000000 in
/-- A run of C13: the clock reads `2024-01-01T00:00:00.000Z` and the upload is
accepted. -/
theorem backup_filename_shape_witness :
    (backup Reference.platform Sample.salt Sample.iv "2024-01-01T00:00:00.000Z"
        "2024-01-01T00:00:01.000Z" Sample.uploadAccepted).1
      = .ok (.obj [("success", .bool true), ("timestamp", .str "2024-01-01T00:00:01.000Z"),
          ("filename", .str "backup-2024-01-01T00-00-00-000Z.enc")]) ∧
    (JsVal.obj [("success", .bool true), ("timestamp", .str "2024-01-01T00:00:01.000Z"),
        ("filename", .str "backup-2024-01-01T00-00-00-000Z.enc")]).getProp "filename"
      = .ok (.str (backupFilename "2024-01-01T00:00:00.000Z")) ∧
    backupFilename "2024-01-01T00:00:00.000Z" = "backup-2024-01-01T00-00-00-000Z.enc" ∧
    isBackupName (backupFilename "2024-01-01T00:00:00.000Z") = true :=
  have h := backup_filename_shape Reference.platform Sample.salt Sample.iv
    "2024-01-01T00:00:00.000Z" "2024-01-01T00:00:01.000Z" Sample.uploadAccepted
  ⟨rfl, (h.1 _ rfl).1, by decide, h.2.2.2.2.2⟩

set_option maxRecDepth 1000000 in
/-- A run of C17: a fresh engine over a store without a record, through a
start, a change of interval, a backup, a stop and a clearing. -/
theorem autoSync_armed_preserved_witness :
    Sample.spacedStore "drime_sync_config" = none ∧
    AutoSyncArmed (performAll Reference.platform
      (new Reference.platform Sample.spacedStore
        [Sample.ok200 Sample.rootListing, Sample.ok200 "\x7b\x7d"])
      [.startAutoSync Sample.draw, .setSyncInterval (.num 10) Sample.laterDraw,
        .backup Sample.laterDraw, .stopAutoSync, .clearConfig]) :=
  ⟨rfl, (autoSync_armed_preserved Reference.platform).2.2.2.2.1 Sample.spacedStore _ _ rfl⟩

set_option maxRecDepth 1000000 in
/-- A run of C18: a fresh engine, started at the default of 5 minutes and
reconfigured to 10. -/
theorem restart_leaves_one_timer_witness :
    TimerConsistent Sample.unconfigured ∧
    Sample.unconfigured.configField "syncInterval" = .num 5 ∧
    (startAutoSync Reference.platform Sample.draw Sample.unconfigured).timers
      = [(1, some 300000)] ∧
    (setSyncInterval Reference.platform (.num 10) Sample.laterDraw
      (startAutoSync Reference.platform Sample.draw Sample.unconfigured)).timers
      = [(2, some 600000)] ∧
    backupCalls (setSyncInterval Reference.platform (.num 10) Sample.laterDraw
      (startAutoSync Reference.platform Sample.draw Sample.unconfigured))
      = backupCalls (startAutoSync Reference.platform Sample.draw Sample.unconfigured) + 1 :=
  have h := restart_leaves_one_timer Reference.platform Sample.unconfigured 5 10 Sample.draw
    Sample.laterDraw rfl rfl
  ⟨rfl, rfl, h.1, h.2.2.2.1, h.2.2.2.2.2.2.1⟩

set_option maxRecDepth 1000000 in
/-- A run of C19: a fresh engine, where `autoSync` is `false` already. -/
theorem stopAutoSync_unarmed_witness :
    Sample.unconfigured.syncTimer = none ∧
    Sample.unconfigured.configField "autoSync" = .bool false ∧
    (stopAutoSync Reference.platform Sample.unconfigured).syncTimer = none ∧
    (stopAutoSync Reference.platform Sample.unconfigured).config = Sample.unconfigured.config :=
  have h := stopAutoSync_unarmed Reference.platform Sample.unconfigured rfl
  ⟨rfl, rfl, h.1, (h.2.2.2.2.1 rfl).1⟩

set_option maxRecDepth 1000000 in
/-- A run of C20: a fresh engine is given a token and a passphrase; the
record holds both in clear and a fresh engine over it loads them. -/
theorem config_persisted_on_mutation_witness :
    ConfigObject Sample.unconfigured.config ∧
    JsonRoundTrips Reference.platform (.obj (initializeEngine Reference.platform
      (.str "token") (.str "passphrase") Sample.unconfigured).2.config) ∧
    (initializeEngine Reference.platform (.str "token") (.str "passphrase")
      Sample.unconfigured).2.localStorage "drime_sync_config"
      = some ("\x7b\"apiToken\":\"token\",\"encryptionKey\":\"passphrase\"," ++
          "\"syncInterval\":5,\"autoSync\":false,\"lastSync\":null\x7d") ∧
    Persisted Reference.platform (initializeEngine Reference.platform
      (.str "token") (.str "passphrase") Sample.unconfigured).2 ∧
    Reloads Reference.platform (initializeEngine Reference.platform
      (.str "token") (.str "passphrase") Sample.unconfigured).2 :=
  have hobj : ConfigObject Sample.unconfigured.config :=
    ⟨by unfold HasDefaultFields; decide, by decide⟩
  have hjson : JsonRoundTrips Reference.platform (.obj (initializeEngine Reference.platform
      (.str "token") (.str "passphrase") Sample.unconfigured).2.config) :=
    ⟨"\x7b\"apiToken\":\"token\",\"encryptionKey\":\"passphrase\",\"syncInterval\":5," ++
      "\"autoSync\":false,\"lastSync\":null\x7d", by decide, by decide, rfl⟩
  have h := (config_persisted_on_mutation Reference.platform Sample.unconfigured hobj).1
    (.str "token") (.str "passphrase")
  ⟨hobj, hjson, by decide, h.1, h.2 hjson⟩

end DrimeSyncCore

/-! ## The interval of automatic sync: what is stored and armed -/

namespace DrimeSyncCore

variable {ν : Type}

theorem syncInterval_of_lastSync (config : List (String × JsVal)) (v : JsVal) :
    JsVal.lookup "syncInterval" (JsVal.setProp config "lastSync" v)
      = JsVal.lookup "syncInterval" config :=
  JsVal.lookup_setProp_ne _ _ _ _ (by decide)

theorem syncInterval_startAutoSync (P : Platform ν) (d : Draw) (w : World ν) :
    JsVal.lookup "syncInterval" (startAutoSync P d w).config
      = JsVal.lookup "syncInterval" w.config := by
  rcases (startAutoSync_effect P d w).2.2.2.2.2.2.2.2 with hc | hc
  · rw [hc, lookup_startConfig w "syncInterval" (by decide)]
  · rw [hc, syncInterval_of_lastSync, lookup_startConfig w "syncInterval" (by decide)]

theorem syncInterval_setSyncInterval (P : Platform ν) (minutes : JsVal) (d : Draw) (w : World ν) :
    JsVal.lookup "syncInterval" (setSyncInterval P minutes d w).config = some minutes := by
  unfold setSyncInterval
  simp only []
  split
  · rw [syncInterval_startAutoSync, saveConfig_config]
    exact JsVal.lookup_setProp_self _ _ _
  · rw [saveConfig_config]
    exact JsVal.lookup_setProp_self _ _ _

theorem syncInterval_perform (P : Platform ν) (w : World ν) (c : Call) :
    JsVal.lookup "syncInterval" (perform P w c).config =
      match c with
      | .setSyncInterval minutes _ => some minutes
      | .clearConfig => some (.num 5)
      | _ => JsVal.lookup "syncInterval" w.config := by
  cases c with
  | initializeEngine apiToken encryptionKey =>
    show JsVal.lookup "syncInterval" (initializeEngine P apiToken encryptionKey w).2.config = _
    rw [(initializeEngine_effect P apiToken encryptionKey w).2.1,
      JsVal.lookup_setProp_ne _ _ _ _ (by decide), JsVal.lookup_setProp_ne _ _ _ _ (by decide)]
  | backup d =>
    show JsVal.lookup "syncInterval" (backup P d.salt d.iv d.now1 d.now2 w).2.config = _
    rcases (backup_effect P d.salt d.iv d.now1 d.now2 w).2 with ⟨_, _, hc, _⟩ | ⟨_, _, hc, _⟩
    · rw [hc]
    · rw [hc, syncInterval_of_lastSync]
  | restore fileId =>
    show JsVal.lookup "syncInterval" (restore P fileId w).2.config = _
    rw [(restore_effect P fileId w).2]
  | startAutoSync d => exact syncInterval_startAutoSync P d w
  | stopAutoSync =>
    show JsVal.lookup "syncInterval" (stopAutoSync P w).config = _
    rw [(stopAutoSync_effect P w).1, JsVal.lookup_setProp_ne _ _ _ _ (by decide)]
  | setSyncInterval minutes d => exact syncInterval_setSyncInterval P minutes d w
  | clearConfig =>
    show JsVal.lookup "syncInterval" (clearConfig P w).config = _
    rw [(clearConfig_effect P w).1]
    rfl
  | timerFires d =>
    show JsVal.lookup "syncInterval" (timerFires P d w).config = _
    rcases (timerFires_effect P d w).2.2.2.2.2.2 with hc | hc
    · rw [hc]
    · rw [hc, syncInterval_of_lastSync]

theorem positiveInterval_perform (P : Platform ν) (w : World ν) (c : Call)
    (hc : PositiveArgument c) (h : PositiveInterval w) : PositiveInterval (perform P w c) := by
  unfold PositiveInterval at h ⊢
  rw [configField_eq] at h ⊢
  rw [syncInterval_perform]
  cases c with
  | setSyncInterval minutes d => exact hc
  | clearConfig => rfl
  | initializeEngine apiToken encryptionKey => exact h
  | backup d => exact h
  | restore fileId => exact h
  | startAutoSync d => exact h
  | stopAutoSync => exact h
  | timerFires d => exact h

theorem positiveInterval_performAll (P : Platform ν) (calls : List Call) (w : World ν)
    (hc : ∀ c ∈ calls, PositiveArgument c) (h : PositiveInterval w) :
    PositiveInterval (performAll P w calls) := by
  unfold performAll
  induction calls generalizing w with
  | nil => exact h
  | cons c rest ih =>
    exact ih _ (fun c1 h1 => hc c1 (List.mem_cons_of_mem _ h1))
      (positiveInterval_perform P w c (hc c (List.mem_cons_self _ _)) h)

theorem num_of_positiveInteger (v : JsVal) (h : positiveInteger v = true) :
    ∃ n : Int, 0 < n ∧ v = .num n := by
  cases v with
  | num n => exact ⟨n, by simpa [positiveInteger] using h, rfl⟩
  | undefined => cases h
  | null => cases h
  | bool b => cases h
  | str s => cases h
  | arr xs => cases h
  | obj props => cases h

set_option maxRecDepth 1000000 in
/-- C21, the claim refuted: `setSyncInterval` stores the argument it is given.
With `0` (which `parseInt` returns for the field text `0`) the stored interval
is `0` and a running scheduler is re-armed with a period of 0 ms; with `-5` the
period is negative; with a text that spells no number it is `NaN`. -/
theorem setSyncInterval_stores_any_argument :
    parseInt "0" = some 0 ∧ parseInt "-5" = some (-5) ∧ parseInt "" = none ∧
    (setSyncInterval Reference.platform (.num 0) Sample.laterDraw
      Sample.unconfigured).configField "syncInterval" = .num 0 ∧
    (setSyncInterval Reference.platform (.num 0) Sample.laterDraw Sample.started).timers
      = [(2, some 0)] ∧
    (setSyncInterval Reference.platform (.num (-5)) Sample.laterDraw Sample.started).timers
      = [(2, some (-300000))] ∧
    (setSyncInterval Reference.platform (.str "soon") Sample.laterDraw Sample.started).timers
      = [(2, none)] :=
  ⟨by decide, by decide, by decide, rfl, by decide, by decide, by decide⟩

/-- C21, amended. A fresh engine over a store without a record holds the
default interval 5; `setSyncInterval(minutes)` stores its argument as given,
whatever it is; `clearConfig` restores 5 and every other call leaves the
interval as it is.  Hence from a state whose interval is a positive integer,
every sequence of calls whose `setSyncInterval` arguments are positive integers
ends in such a state, and there `startAutoSync` arms its timer with the period
`n * 60000` ms, a positive whole number of minutes. -/
theorem syncInterval_follows_arguments (P : Platform ν) :
    (∀ store remote, store "drime_sync_config" = none →
      (new P store remote).configField "syncInterval" = .num 5) ∧
    (∀ w minutes d, (setSyncInterval P minutes d w).configField "syncInterval" = minutes) ∧
    (∀ w, (clearConfig P w).configField "syncInterval" = .num 5) ∧
    (∀ w c, (∀ minutes d, c ≠ .setSyncInterval minutes d) → c ≠ .clearConfig →
      (perform P w c).configField "syncInterval" = w.configField "syncInterval") ∧
    (∀ w calls, (∀ c ∈ calls, PositiveArgument c) → PositiveInterval w →
      PositiveInterval (performAll P w calls)) ∧
    (∀ store remote calls, store "drime_sync_config" = none →
      (∀ c ∈ calls, PositiveArgument c) →
      PositiveInterval (performAll P (new P store remote) calls)) ∧
    (∀ w d, PositiveInterval w →
      ∃ n : Int, 0 < n ∧ w.configField "syncInterval" = .num n ∧ 0 < n * 60000 ∧
        (w.timerSeq + 1, some (n * 60000)) ∈ (startAutoSync P d w).timers) := by
  have hnew : ∀ store remote, store "drime_sync_config" = none →
      (new P store remote).configField "syncInterval" = .num 5 := by
    intro store remote h
    rw [configField_eq, new_of_absent P store remote h]
    rfl
  refine ⟨hnew, ?_, ?_, ?_, fun w calls hc h => positiveInterval_performAll P calls w hc h, ?_, ?_⟩
  · intro w minutes d
    rw [configField_eq, syncInterval_setSyncInterval]
    rfl
  · intro w
    rw [configField_eq, (clearConfig_effect P w).1]
    rfl
  · intro w c h1 h2
    rw [configField_eq, configField_eq, syncInterval_perform]
    cases c with
    | setSyncInterval minutes d => exact absurd rfl (h1 minutes d)
    | clearConfig => exact absurd rfl h2
    | initializeEngine apiToken encryptionKey => rfl
    | backup d => rfl
    | restore fileId => rfl
    | startAutoSync d => rfl
    | stopAutoSync => rfl
    | timerFires d => rfl
  · intro store remote calls h hc
    refine positiveInterval_performAll P calls _ hc ?_
    unfold PositiveInterval
    rw [hnew store remote h]
    rfl
  · intro w d h
    obtain ⟨n, hn, hv⟩ := num_of_positiveInteger _ h
    refine ⟨n, hn, hv, by omega, ?_⟩
    rw [(startAutoSync_effect P d w).2.1, intervalMs_of_num w n hv]
    simp

set_option maxRecDepth 1000000 in
/-- A run of C21: a fresh engine is started, reconfigured to 10 minutes and
started again. -/
theorem syncInterval_follows_arguments_witness :
    Sample.spacedStore "drime_sync_config" = none ∧
    (∀ c ∈ [Call.startAutoSync Sample.draw, .setSyncInterval (.num 10) Sample.laterDraw,
        .stopAutoSync], PositiveArgument c) ∧
    PositiveInterval (performAll Reference.platform
      (new Reference.platform Sample.spacedStore
        [Sample.ok200 Sample.rootListing, Sample.ok200 "\x7b\x7d"])
      [.startAutoSync Sample.draw, .setSyncInterval (.num 10) Sample.laterDraw,
        .stopAutoSync]) ∧
    (setSyncInterval Reference.platform (.num 10) Sample.laterDraw
      Sample.unconfigured).configField "syncInterval" = .num 10 :=
  have hargs : ∀ c ∈ [Call.startAutoSync Sample.draw,
      .setSyncInterval (.num 10) Sample.laterDraw, .stopAutoSync], PositiveArgument c := by
    intro c hc
    simp only [List.mem_cons, List.mem_singleton, List.not_mem_nil, or_false] at hc
    rcases hc with rfl | rfl | rfl
    · trivial
    · rfl
    · trivial
  ⟨rfl, hargs,
    (syncInterval_follows_arguments Reference.platform).2.2.2.2.2.1 Sample.spacedStore _ _ rfl
      hargs,
    (syncInterval_follows_arguments Reference.platform).2.1 _ _ _⟩

end DrimeSyncCore

/-! ## Calls on an engine that is not configured: what they return -/

namespace DrimeSyncCore

variable {ν : Type}

theorem backup_value (P : Platform ν) (salt iv : List Byte) (now1 now2 : String) (w : World ν)
    (h : w.syncInProgress = false) :
    (backup P salt iv now1 now2 w).1 =
      match encrypt P salt iv (getTypingMindData P w).1 (w.configField "encryptionKey") with
      | .error e => .error e
      | .ok enc =>
        match (getSyncFolder P
            ((getTypingMindData P { w with syncInProgress := true }).2.log .encryptCall)).1 with
        | .error e => .error e
        | .ok folderId =>
          match (uploadFile P folderId (backupFilename now1) enc (getSyncFolder P
              ((getTypingMindData P { w with syncInProgress := true }).2.log .encryptCall)).2).1 with
          | .error e => .error e
          | .ok _ => .ok (.obj [("success", .bool true), ("timestamp", .str now2),
              ("filename", .str (backupFilename now1))]) := by
  have hq : World.Quiet { w with syncInProgress := true }
      ((getTypingMindData P { w with syncInProgress := true }).2.log .encryptCall) :=
    (getTypingMindData_quiet P _).chain (World.quiet_log _ _ (by simp))
  have hkey : ((getTypingMindData P { w with syncInProgress := true }).2.log
      .encryptCall).configField "encryptionKey" = w.configField "encryptionKey" :=
    configField_congr hq.config _
  rw [backup_of_idle P salt iv now1 now2 w h]
  unfold backupBody
  simp only []
  rw [hkey, getTypingMindData_flag_irrelevant]
  cases encrypt P salt iv (getTypingMindData P w).1 (w.configField "encryptionKey") with
  | error e => rfl
  | ok enc =>
    simp only []
    cases (getSyncFolder P
        ((getTypingMindData P { w with syncInProgress := true }).2.log .encryptCall)).1 with
    | error e => rfl
    | ok folderId =>
      simp only []
      show (match (match (uploadFile P folderId (backupFilename now1) enc _).1 with
          | .error e => _
          | .ok _ => _ : Except JsError JsVal × World ν).1 with
        | .ok result => _
        | .error e => _ : Except JsError JsVal × World ν).1 = _
      cases (uploadFile P folderId (backupFilename now1) enc (getSyncFolder P
          ((getTypingMindData P { w with syncInProgress := true }).2.log .encryptCall)).2).1 with
      | error e => rfl
      | ok up =>
        simp only [configField_eq, saveConfig_config, JsVal.lookup_setProp_self]
        rfl

theorem restore_value (P : Platform ν) (fileId : JsVal) (w : World ν)
    (h : w.syncInProgress = false) :
    (restore P fileId w).1 =
      match (downloadFile P fileId { w with syncInProgress := true }).1 with
      | .error e => .error e
      | .ok enc =>
        match decrypt P enc (w.configField "encryptionKey") with
        | .error e => .error e
        | .ok data =>
          match (restoreTypingMindData P data
              ((downloadFile P fileId { w with syncInProgress := true }).2.log .decryptCall)).1 with
          | .error e => .error e
          | .ok _ => .ok (.obj [("success", .bool true)]) := by
  have hq : World.Quiet { w with syncInProgress := true }
      ((downloadFile P fileId { w with syncInProgress := true }).2.log .decryptCall) :=
    (downloadFile_quiet P fileId _).chain (World.quiet_log _ _ (by simp))
  have hkey : ((downloadFile P fileId { w with syncInProgress := true }).2.log
      .decryptCall).configField "encryptionKey" = w.configField "encryptionKey" :=
    configField_congr hq.config _
  rw [restore_of_idle P fileId w h]
  unfold restoreBody
  simp only []
  rw [hkey]
  cases (downloadFile P fileId { w with syncInProgress := true }).1 with
  | error e => rfl
  | ok enc =>
    simp only []
    cases decrypt P enc (w.configField "encryptionKey") with
    | error e => rfl
    | ok data =>
      simp only []
      cases (restoreTypingMindData P data
          ((downloadFile P fileId { w with syncInProgress := true }).2.log .decryptCall)).1 with
      | error e => rfl
      | ok _ => rfl

theorem decrypt_error_eq (P : Platform ν) (envelope : String) (password : JsVal) (e : JsError)
    (h : decrypt P envelope password = .error e) : e = decryptionFailed := by
  unfold decrypt at h
  split at h
  · cases h
  · cases h; rfl

/-- C12, amended. In a state where the token or the passphrase is `null`,
`getStatus().configured` is `false`, but an admitted `backup()` or `restore(id)`
makes no configuration check: `backup()` reads the five sections and calls
`encrypt` (a `null` passphrase being encoded as the text `null`), and once
`encrypt` returned an envelope it sends the listing request of `getSyncFolder`
(with the header `Bearer null` for a `null` token); `restore(id)` sends its
download request as its first effect.  Neither call raises an error of its
own: when `backup()` fails, `encrypt`, `getSyncFolder` or `uploadFile` failed
with the error returned, and when all three succeed it returns its result;
when `restore(id)` fails, `downloadFile`, `decrypt` (with its one fixed error)
or `restoreTypingMindData` failed with the error returned, and when all three
succeed it returns its result. -/
theorem unconfigured_calls_proceed (P : Platform ν) (w : World ν) (salt iv : List Byte)
    (now1 now2 : String) (fileId : JsVal) (hidle : w.syncInProgress = false)
    (hnull : w.configField "apiToken" = .null ∨ w.configField "encryptionKey" = .null) :
    let w0 : World ν := { w with syncInProgress := true }
    let encrypted := encrypt P salt iv (getTypingMindData P w).1 (w.configField "encryptionKey")
    let folder := getSyncFolder P ((getTypingMindData P w0).2.log .encryptCall)
    let downloaded := downloadFile P fileId w0
    (getStatus w).getProp "configured" = .ok (.bool false) ∧
    w.trace ++ keys.map Event.storageGet ++ [.encryptCall]
      <+: (backup P salt iv now1 now2 w).2.trace ∧
    (∀ enc, encrypted = .ok enc →
      w.trace ++ keys.map Event.storageGet ++ [.encryptCall, .fetch (listRequest w)]
        <+: (backup P salt iv now1 now2 w).2.trace) ∧
    w.trace ++ [.fetch (downloadRequest w fileId)] <+: (restore P fileId w).2.trace ∧
    (w.configField "encryptionKey" = .null →
      P.utf8Encode (encodeArg (w.configField "encryptionKey")) = P.utf8Encode "null") ∧
    (w.configField "apiToken" = .null →
      (listRequest w).headers = [("Authorization", "Bearer null"), ("Accept", "application/json")] ∧
      (downloadRequest w fileId).headers = [("Authorization", "Bearer null")]) ∧
    (∀ e, (backup P salt iv now1 now2 w).1 = .error e →
      encrypted = .error e ∨ (∃ enc, encrypted = .ok enc ∧ folder.1 = .error e) ∨
        ∃ enc folderId, encrypted = .ok enc ∧ folder.1 = .ok folderId ∧
          (uploadFile P folderId (backupFilename now1) enc folder.2).1 = .error e) ∧
    (∀ enc folderId up, encrypted = .ok enc → folder.1 = .ok folderId →
      (uploadFile P folderId (backupFilename now1) enc folder.2).1 = .ok up →
      (backup P salt iv now1 now2 w).1 = .ok (.obj [("success", .bool true),
        ("timestamp", .str now2), ("filename", .str (backupFilename now1))])) ∧
    (∀ e, (restore P fileId w).1 = .error e →
      downloaded.1 = .error e ∨
        (∃ enc, downloaded.1 = .ok enc ∧
          decrypt P enc (w.configField "encryptionKey") = .error e ∧ e = decryptionFailed) ∨
        ∃ enc data, downloaded.1 = .ok enc ∧
          decrypt P enc (w.configField "encryptionKey") = .ok data ∧
          (restoreTypingMindData P data (downloaded.2.log .decryptCall)).1 = .error e) ∧
    (∀ enc data, downloaded.1 = .ok enc →
      decrypt P enc (w.configField "encryptionKey") = .ok data →
      (restoreTypingMindData P data (downloaded.2.log .decryptCall)).1 = .ok () →
      (restore P fileId w).1 = .ok (.obj [("success", .bool true)])) := by
  intro w0 encrypted folder downloaded
  have hb := backupBody_trace P salt iv now1 now2 { w with syncInProgress := true }
  have hbt := backup_trace_of_body P salt iv now1 now2 w hidle
  have hr := restoreBody_trace P fileId { w with syncInProgress := true }
  have hrt := restore_trace_of_body P fileId w hidle
  have hbv : (backup P salt iv now1 now2 w).1 =
      match encrypted with
      | .error e => .error e
      | .ok enc =>
        match folder.1 with
        | .error e => .error e
        | .ok folderId =>
          match (uploadFile P folderId (backupFilename now1) enc folder.2).1 with
          | .error e => .error e
          | .ok _ => .ok (.obj [("success", .bool true), ("timestamp", .str now2),
              ("filename", .str (backupFilename now1))]) :=
    backup_value P salt iv now1 now2 w hidle
  have hrv : (restore P fileId w).1 =
      match downloaded.1 with
      | .error e => .error e
      | .ok enc =>
        match decrypt P enc (w.configField "encryptionKey") with
        | .error e => .error e
        | .ok data =>
          match (restoreTypingMindData P data (downloaded.2.log .decryptCall)).1 with
          | .error e => .error e
          | .ok _ => .ok (.obj [("success", .bool true)]) :=
    restore_value P fileId w hidle
  rw [getTypingMindData_flag_irrelevant] at hb
  refine ⟨?_, hb.1.trans hbt, fun enc henc => (hb.2 enc henc).trans hbt, hr.trans hrt, ?_, ?_,
    ?_, ?_, ?_, ?_⟩
  · rcases hnull with h | h <;> simp [getStatus, JsVal.getProp, JsVal.lookup, h, JsVal.truthy]
  · intro h; rw [h]; rfl
  · intro h
    simp [listRequest, downloadRequest, authorization, h, JsVal.toJsString]
  · intro e he
    rw [hbv] at he
    cases henc : encrypted with
    | error e0 =>
      rw [henc] at he
      simp only [] at he
      cases he
      exact Or.inl rfl
    | ok enc0 =>
      rw [henc] at he
      simp only [] at he
      cases hf : folder.1 with
      | error e0 =>
        rw [hf] at he
        simp only [] at he
        exact Or.inr (Or.inl ⟨enc0, rfl, he⟩)
      | ok folderId0 =>
        rw [hf] at he
        simp only [] at he
        cases hu : (uploadFile P folderId0 (backupFilename now1) enc0 folder.2).1 with
        | error e0 =>
          rw [hu] at he
          simp only [] at he
          exact Or.inr (Or.inr ⟨enc0, folderId0, rfl, rfl, hu.trans he⟩)
        | ok up =>
          rw [hu] at he
          simp only [] at he
          cases he
  · intro enc folderId up henc hf hu
    rw [hbv, henc]
    simp only []
    rw [hf]
    simp only []
    rw [hu]
  · intro e he
    rw [hrv] at he
    cases hd : downloaded.1 with
    | error e0 =>
      rw [hd] at he
      simp only [] at he
      cases he
      exact Or.inl rfl
    | ok enc0 =>
      rw [hd] at he
      simp only [] at he
      cases hdec : decrypt P enc0 (w.configField "encryptionKey") with
      | error e0 =>
        rw [hdec] at he
        simp only [] at he
        cases he
        exact Or.inr (Or.inl ⟨enc0, rfl, hdec, decrypt_error_eq P enc0 _ _ hdec⟩)
      | ok data0 =>
        rw [hdec] at he
        simp only [] at he
        cases hres : (restoreTypingMindData P data0 (downloaded.2.log .decryptCall)).1 with
        | error e0 =>
          rw [hres] at he
          simp only [] at he
          cases he
          exact Or.inr (Or.inr ⟨enc0, data0, rfl, hdec, hres⟩)
        | ok u =>
          rw [hres] at he
          simp only [] at he
          cases he
  · intro enc data hd hdec hres
    rw [hrv, hd]
    simp only []
    rw [hdec]
    simp only []
    rw [hres]

set_option maxRecDepth 1000000 in
/-- A run of C12 on the fresh engine: the status reports it unconfigured;
`restore(7)` sends its download request and, the scripted remote answering with
a listing where an envelope was expected, fails with the error of `decrypt`;
`backup()` succeeds, its three steps succeeding. -/
theorem unconfigured_calls_proceed_witness :
    Sample.unconfigured.syncInProgress = false ∧
    (Sample.unconfigured.configField "apiToken" = .null ∨
      Sample.unconfigured.configField "encryptionKey" = .null) ∧
    (getStatus Sample.unconfigured).getProp "configured" = .ok (.bool false) ∧
    Sample.unconfigured.trace ++ [.fetch (downloadRequest Sample.unconfigured (.num 7))]
      <+: (restore Reference.platform (.num 7) Sample.unconfigured).2.trace ∧
    (restore Reference.platform (.num 7) Sample.unconfigured).1 = .error decryptionFailed ∧
    (backup Reference.platform Sample.salt Sample.iv "2024-01-01T00:00:00.000Z"
        "2024-01-01T00:00:01.000Z" Sample.unconfigured).1
      = .ok (.obj [("success", .bool true), ("timestamp", .str "2024-01-01T00:00:01.000Z"),
          ("filename", .str (backupFilename "2024-01-01T00:00:00.000Z"))]) :=
  have h := unconfigured_calls_proceed Reference.platform Sample.unconfigured Sample.salt
    Sample.iv "2024-01-01T00:00:00.000Z" "2024-01-01T00:00:01.000Z" (.num 7) rfl (Or.inl rfl)
  ⟨rfl, Or.inl rfl, h.1, h.2.2.2.1, rfl, h.2.2.2.2.2.2.2.1 _ _ _ rfl rfl rfl⟩

end DrimeSyncCore
